import Mathlib

/-!
# Task engine of the instance agent: output budgeting, record normalisation,
# terminal reporting, cancellation, periodic invocation, fetching and channel
# switching

Shallow embedding of `agent/taskengine/basetask.go`, `fetchtask.go` and
`scheduletask.go`, and of `SwitchChannel` in `agent/channel/channel_gshell.go`.

Conventions of the embedding:

* Go `string` / `bytes.Buffer` payloads of task output are `List UInt8`.
* Go `int` is `Int` (64-bit; no operation below can leave the 64-bit range for
  buffer lengths that fit in memory), `uint32` is a `Nat` kept below `2^32`.
* A Go runtime error (slice bounds out of range) is the result `none`.
* Calls that leave the process (HTTP posts, child launch, file system) are
  recorded, in program order, as a list of `Event`s.
-/

namespace Taskengine

/-! ## Data model (basetask.go) -/

abbrev Bytes := List UInt8

def defaultQuoto : Int := 12000

def defaultQuotoPre : Nat := 6000

/-- Repeat kinds, the string constants of type RunTaskRepeatType. -/
abbrev RunTaskRepeatType := String

def RunTaskOnce : RunTaskRepeatType := "Once"

def RunTaskCron : RunTaskRepeatType := "Period"

def RunTaskNextRebootOnly : RunTaskRepeatType := "NextRebootOnly"

def RunTaskEveryReboot : RunTaskRepeatType := "EveryReboot"

def RunTaskRate : RunTaskRepeatType := "Rate"

def RunTaskAt : RunTaskRepeatType := "At"

/-- Name used by scheduletask.go for the cron repeat kind ("Period"). -/
def RunTaskPeriod : RunTaskRepeatType := "Period"

structure OutputInfo where
  Interval : Int
  LogQuota : Int
  SkipEmpty : Bool
  SendStart : Bool
deriving DecidableEq, Repr, Inhabited

structure RunTaskInfo where
  InstanceId : String
  CommandType : String
  TaskId : String
  CommandId : String
  EnableParameter : Bool
  TimeOut : String
  CommandName : String
  Content : String
  WorkingDir : String
  Args : String
  Cronat : String
  Username : String
  Password : String
  CreationTime : Int
  Output : OutputInfo
  Repeat : RunTaskRepeatType
  EnvironmentArguments : List (String × String)
deriving DecidableEq, Repr, Inhabited

/-- A wall-clock instant (Go time.Time), as nanoseconds since the Unix epoch. -/
structure Time where
  unixNano : Int
deriving DecidableEq, Repr, Inhabited

/-- The zero value of time.Time: January 1, year 1, 00:00:00 UTC. -/
def Time.zero : Time := ⟨-62135596800 * 1000000000⟩

def Time.IsZero (t : Time) : Bool := decide (t = Time.zero)

/-- One invocation (struct Task).  The process supervisor handle is not a field:
its calls appear as events.  The field onFinish records whether a finish
callback is installed. -/
structure Task where
  taskInfo : RunTaskInfo
  realWorkingDir : String
  envHomeDir : String
  scheduleLocation : Option String
  onFinish : Bool
  startTime : Time
  endTime : Time
  monotonicStartTimestamp : Int
  monotonicEndTimestamp : Int
  exit_code : Int
  canceled : Bool
  droped : Int
  output : Bytes
  data_sended : Nat
deriving DecidableEq, Repr, Inhabited

def NewTask (taskInfo : RunTaskInfo) (scheduleLocation : Option String) (onFinish : Bool) :
    Task :=
  { taskInfo := taskInfo
    realWorkingDir := ""
    envHomeDir := ""
    scheduleLocation := scheduleLocation
    onFinish := onFinish
    startTime := Time.zero
    endTime := Time.zero
    monotonicStartTimestamp := 0
    monotonicEndTimestamp := 0
    exit_code := 0
    canceled := false
    droped := 0
    output := []
    data_sended := 0 }

/-! ## Output budgeting (basetask.go, getReportString) -/

/-- Go slice expression b[i:] on a byte slice: a runtime error unless 0 ≤ i ≤ len(b). -/
def sliceFrom (b : Bytes) (i : Int) : Option Bytes :=
  if 0 ≤ i ∧ i ≤ (b.length : Int) then some (b.drop i.toNat) else none

/-- Method getReportString: the report body and the task after the call (the
method may assign the droped field). -/
def getReportString (task : Task) (output : Bytes) : Option (Bytes × Task) :=
  let quoto := task.taskInfo.Output.LogQuota
  let quoto := if quoto < defaultQuoto then defaultQuoto else quoto
  let data_sended : Int := (task.data_sended : Int)
  if (output.length : Int) ≤ quoto - data_sended then
    some (output, task)
  else
    let task := { task with droped := (output.length : Int) - (quoto - data_sended) }
    match sliceFrom output task.droped with
    | some report_string => some (report_string, task)
    | none => none

/-! ## Clocks (package timetool, not part of the sources at hand) -/

/-- Modelled from the spec: timetool.ToAccurateTime, whose source file is
missing; the spec gives "toAccurateTime(t) = unix_millis". -/
def ToAccurateTime (t : Time) : Int := t.unixNano / 1000000

/-- Modelled from the spec: timetool.ToStableElapsedTime, whose source file is
missing; the spec gives "stableElapsedTime(end, start) = start + max(0, end−start)". -/
def ToStableElapsedTime (endTime startTime : Time) : Time :=
  ⟨startTime.unixNano + max 0 (endTime.unixNano - startTime.unixNano)⟩

/-! ## Errors, host platform and effects -/

/-- A Go error value: its message (err.Error()) and the sentinel errors it
wraps (those for which errors.Is answers true). -/
structure GoError where
  msg : String
  wraps : List String
deriving DecidableEq, Repr, Inhabited

def GoError.Is (err : GoError) (sentinel : String) : Bool := decide (sentinel ∈ err.wraps)

/-- Result of fmt.Errorf with a trailing %w verb: new message, same chain. -/
def GoError.wrapf (before : String) (err : GoError) : GoError :=
  { msg := before ++ err.msg, wraps := err.wraps }

def ErrWorkingDirectoryNotExist : String := "WorkingDirectoryNotExist"

def ErrDefaultWorkingDirectoryNotAvailable : String := "DefaultWorkingDirectoryNotAvailable"

/-- Sentinel scriptmanager.ErrScriptFileExists. -/
def ErrScriptFileExists : String := "ErrScriptFileExists"

/-- Status returned by the process supervisor.  In the source it is an int
compared with the constants process.Success, process.Timeout and process.Fail;
every other value is Unexpected. -/
inductive ProcStatus where
  | Success
  | Timeout
  | Fail
  | Unexpected
deriving DecidableEq, Repr, Inhabited

/-- Observable actions of the task engine, in the order they are issued.
A report event records the arguments of the request; rendering them into the
query string, and the re-sending of the same request (up to three times) while
the transport reports an error, are not part of the event. -/
inductive Event where
  /-- POST to the finish-output service. -/
  | finishOutput (taskId : String) (start finish exitCode dropped : Int) (body : Bytes)
  /-- POST to the timeout-output service. -/
  | timeoutOutput (taskId : String) (start finish exitCode dropped : Int) (body : Bytes)
  /-- POST to the error-output service; errInfo holds errCode and errDesc when
  the request comes from SendError. -/
  | errorOutput (taskId : String) (start finish exitCode dropped : Int)
      (errInfo : Option (Int × String)) (body : Bytes)
  /-- Call of sendStoppedOutput (stopped-output service). -/
  | stoppedOutput (taskId : String) (start finish exitCode dropped : Int) (body : Bytes)
      (stopReason : String)
  /-- POST of a chunk to the running-output service. -/
  | runningOutput (taskId : String) (start : Int) (body : Bytes)
  /-- Empty POST to the running-output service announcing the start. -/
  | taskStart (taskId : String) (start : Int)
  /-- POST to the verified-task service. -/
  | taskVerified (taskId : String)
  /-- Call of reportInvalidTask. -/
  | invalidTask (taskId param value : String)
  /-- Call of the finish callback. -/
  | onFinish
  /-- Call of processer.Cancel. -/
  | processerCancel
  | saveScriptFile (fileName content : String)
  | chmod (fileName : String)
  | setUserInfo (username : String)
  | setPasswordInfo (password : String)
  | setHomeDir (homeDir : String)
  | syncRunSimple (exe : String) (args : List String) (timeout : Int)
  | syncRun (workDir exe : String) (args : List String) (timeout : Int)
  | removeFile (fileName : String)
  | powerdown
  | reboot
deriving DecidableEq, Repr, Inhabited

def stopReasonKilled : String := "killed"

/-- What Run and PreCheck obtain from outside the three source files: platform
facts, constants and helpers of sibling packages, and the answers of the
operating system during one invocation. -/
structure Host where
  GOOS : String
  G_IsWindows : Bool
  GetDefaultLang : Nat
  GbkToUtf8 : Bytes → Bytes
  Utf8ToGbk : String → String
  wrapErrNoEnoughSpace : Int
  wrapErrGetScriptPathFailed : Int
  wrapErrUnknownCommandType : Int
  wrapErrBase64DecodeFailed : Int
  wrapErrResolveEnvironmentParameterFailed : Int
  wrapErrScriptFileExisted : Int
  wrapErrSaveScriptFileFailed : Int
  wrapErrSetExecutablePermissionFailed : Int
  wrapErrSetWindowsPermissionFailed : Int
  wrapErrPowershellNotFound : Int
  wrapErrSystemDefaultShellNotFound : Int
  wrapErrExecuteScriptFailed : Int
  presetErrorPrefixes : Int → String
  categorizeSyscallErrno : GoError → Int → Int × String
  IsNoEnoughSpaceError : GoError → Bool
  exitcodePoweroff : Int
  exitcodeReboot : Int
  GetUserCredentials : String → Option GoError
  IsUserValid : String → String → Option GoError
  base64Decode : String → Except GoError String
  detectHomeDirectory : Task → Except GoError String
  detectWorkingDirectory : Task → Except GoError String
  GetScriptPath : Except GoError String
  ResolveEnvironmentParameters : String → List (String × String) → Except GoError String
  ReplaceAllParameterStore : String → Except GoError String
  SaveScriptFile : String → String → Option GoError
  Chmod : String → Option GoError
  Atoi : String → Option Int
  LookPath : String → Option GoError
  /-- Reading of time.Now() when the child is about to be launched. -/
  startNow : Time
  /-- Bytes the child wrote to stdout and stderr before each firing of the
  running-output ticker. -/
  tickWrites : List (Bytes × Bytes)
  /-- Bytes the child wrote after the last firing of the ticker. -/
  lastWrites : Bytes × Bytes
  /-- Result of processer.SyncRun: exit code, status, error. -/
  SyncRun : Int × ProcStatus × Option GoError
  /-- Reading of time.Now() after the child has ended. -/
  endNow : Time

/-! ## Reporting (basetask.go) -/

/-- Conversion of output applied before posting when the agent runs on Windows
with a default language other than 0x409. -/
def convertOutput (h : Host) (output : Bytes) : Bytes :=
  if h.G_IsWindows then
    if h.GetDefaultLang ≠ 0x409 then h.GbkToUtf8 output else output
  else output

/-- Method sendOutput. -/
def sendOutput (h : Host) (task : Task) (status : String) (output : Bytes) : List Event :=
  let output := convertOutput h output
  if status = "finished" then
    [Event.finishOutput task.taskInfo.TaskId task.monotonicStartTimestamp
        task.monotonicEndTimestamp task.exit_code task.droped output]
      ++ (if task.onFinish then [Event.onFinish] else [])
  else if status = "timeout" then
    [Event.timeoutOutput task.taskInfo.TaskId task.monotonicStartTimestamp
        task.monotonicEndTimestamp task.exit_code task.droped output]
      ++ (if task.onFinish then [Event.onFinish] else [])
  else if status = "canceled" then
    [Event.stoppedOutput task.taskInfo.TaskId task.monotonicStartTimestamp
        task.monotonicEndTimestamp task.exit_code task.droped output stopReasonKilled]
  else if status = "failed" then
    [Event.errorOutput task.taskInfo.TaskId task.monotonicStartTimestamp
        task.monotonicEndTimestamp task.exit_code task.droped none output]
      ++ (if task.onFinish then [Event.onFinish] else [])
  else
    []

/-- Method SendError. -/
def SendError (h : Host) (task : Task) (output : Bytes) (errCode : Int) (errDesc : String) :
    List Event :=
  let output :=
    if 0 < output.length ∧ h.G_IsWindows = true then
      if h.GetDefaultLang ≠ 0x409 then h.GbkToUtf8 output else output
    else output
  [Event.errorOutput task.taskInfo.TaskId task.monotonicStartTimestamp
      task.monotonicEndTimestamp task.exit_code task.droped (some (errCode, errDesc)) output]

/-- Method sendPresetError. -/
def sendPresetError (h : Host) (task : Task) (output : Bytes) (errCode : Int) (err : GoError) :
    List Event :=
  let errDescPrefix := h.presetErrorPrefixes errCode
  SendError h task output errCode (errDescPrefix ++ ": " ++ err.msg)

/-- Method SendInvalidTask. -/
def SendInvalidTask (task : Task) (param value : String) : List Event :=
  [Event.invalidTask task.taskInfo.TaskId param value]

/-- Method sendTaskVerified. -/
def sendTaskVerified (task : Task) : List Event :=
  [Event.taskVerified task.taskInfo.TaskId]

/-- Method sendTaskStart. -/
def sendTaskStart (task : Task) : List Event :=
  if task.taskInfo.Output.SendStart = false then []
  else [Event.taskStart task.taskInfo.TaskId task.monotonicStartTimestamp]

/-- Method sendRunningOutput. -/
def sendRunningOutput (h : Host) (task : Task) (data : Bytes) : List Event :=
  if data.length = 0 ∧ task.taskInfo.Output.SkipEmpty = true then []
  else [Event.runningOutput task.taskInfo.TaskId task.monotonicStartTimestamp
          (convertOutput h data)]

/-- Method IsCancled. -/
def IsCancled (task : Task) : Bool := task.canceled

/-- Method Cancel, called at wall-clock reading now. -/
def Cancel (h : Host) (now : Time) (task : Task) : Option (Task × List Event) :=
  let task := { task with canceled := true }
  let task := { task with endTime := now }
  let task :=
    if task.startTime.IsZero then
      { task with monotonicEndTimestamp := ToAccurateTime task.endTime }
    else
      { task with monotonicEndTimestamp :=
          ToAccurateTime (ToStableElapsedTime task.endTime task.startTime) }
  match getReportString task task.output with
  | none => none
  | some (report, task) =>
    some (task, sendOutput h task "canceled" report ++ [Event.processerCancel])

/-! ## Draining the child's output buffers (basetask.go) -/

/-- One Read of at most 1024 bytes from a buffer: the bytes read and the rest. -/
def read1024 (buf : Bytes) : Bytes × Bytes := (buf.take 1024, buf.drop 1024)

/-- Function tryRead: the two buffers after the reads, and out after the writes. -/
def tryRead (stdoutWrite stderrWrite out : Bytes) : Bytes × Bytes × Bytes :=
  let (buf_stdout, stdoutWrite) := read1024 stdoutWrite
  let (buf_stderr, stderrWrite) := read1024 stderrWrite
  (stdoutWrite, stderrWrite, out ++ buf_stdout ++ buf_stderr)

/-- Function tryReadAll, for buffers no writer appends to any more.  Each round
reads n bytes from stdout and m bytes from stderr and stops when both are 0. -/
def tryReadAll (stdoutWrite stderrWrite out : Bytes) : Bytes × Bytes × Bytes :=
  if (read1024 stderrWrite).1.length = 0 ∧ (read1024 stdoutWrite).1.length = 0 then
    ((read1024 stdoutWrite).2, (read1024 stderrWrite).2,
      out ++ (read1024 stdoutWrite).1 ++ (read1024 stderrWrite).1)
  else
    tryReadAll (read1024 stdoutWrite).2 (read1024 stderrWrite).2
      (out ++ (read1024 stdoutWrite).1 ++ (read1024 stderrWrite).1)
termination_by stdoutWrite.length + stderrWrite.length
decreasing_by
  rename_i hcond
  simp only [read1024, List.length_take, List.length_drop] at hcond ⊢
  omega

/-! ## Pre-checking and running one invocation (basetask.go) -/

/-- Method PreCheck: the task after the call, the events issued, and the error
returned (none for nil). -/
def PreCheck (h : Host) (task : Task) (reportVerified : Bool) :
    Task × List Event × Option GoError :=
  let userCheck : Option (List Event × GoError) :=
    if task.taskInfo.Username ≠ "" then
      if h.GOOS = "linux" then
        match h.GetUserCredentials task.taskInfo.Username with
        | some err =>
          some (SendInvalidTask task "UsernameOrPasswordInvalid"
            ("UserInvalid_" ++ task.taskInfo.Username), err)
        | none => none
      else if h.GOOS = "windows" then
        match h.IsUserValid task.taskInfo.Username task.taskInfo.Password with
        | some err =>
          some (SendInvalidTask task err.msg
            ("UsernameOrPasswordInvalid_" ++ task.taskInfo.Username), err)
        | none => none
      else none
    else none
  match userCheck with
  | some (events, err) => (task, events, some err)
  | none =>
    if task.taskInfo.CommandType ≠ "RunBatScript" ∧
        task.taskInfo.CommandType ≠ "RunPowerShellScript" ∧
        task.taskInfo.CommandType ≠ "RunShellScript" then
      (task,
        SendInvalidTask task "TypeInvalid" ("TypeInvalid_" ++ task.taskInfo.CommandType),
        some ⟨"Invalid command type: " ++ task.taskInfo.CommandType, []⟩)
    else
      match h.base64Decode task.taskInfo.Content with
      | .error err =>
        (task, SendInvalidTask task "CommandContentInvalid" err.msg,
          some (err.wrapf "Invalid command content: decode error: "))
      | .ok _ =>
        let task :=
          match h.detectHomeDirectory task with
          | .error _ => task
          | .ok envHomeDir => { task with envHomeDir := envHomeDir }
        match h.detectWorkingDirectory task with
        | .error err =>
          let events :=
            if err.Is ErrWorkingDirectoryNotExist then
              SendInvalidTask task "workingDirectory" ErrWorkingDirectoryNotExist
            else if err.Is ErrDefaultWorkingDirectoryNotAvailable then
              SendInvalidTask task "workingDirectory" ErrDefaultWorkingDirectoryNotAvailable
            else
              SendInvalidTask task "workingDirectory" err.msg
          (task, events, some err)
        | .ok realWorkingDir =>
          let task := { task with realWorkingDir := realWorkingDir }
          (task, if reportVerified = true then sendTaskVerified task else [], none)

/-- What Run returns (error code and error), with the task after the call and
the events issued. -/
structure RunOutcome where
  code : Int
  err : Option GoError
  task : Task
  events : List Event
deriving DecidableEq, Repr, Inhabited

/-- State of Run at the point where the child is launched. -/
structure Prepared where
  task : Task
  events : List Event
  fileName : String
  args : List String
  timeout : Int
  ScriptToDelete : String
deriving DecidableEq, Repr, Inhabited

/-- Go strings.Contains. -/
def stringsContains (s sub : String) : Bool := decide (List.IsInfix sub.toList s.toList)

/-- An early return of Run raised inside one of its steps: the error code, the
error, and the events the step issued on the way out. -/
structure EarlyReturn where
  code : Int
  err : GoError
  events : List Event
deriving DecidableEq, Repr, Inhabited

/-- Method Run, the statements deriving the path of the script file from the
script directory; none when the command type is none of the three known. -/
def scriptFileName (task : Task) (scriptDir : String) : Option String :=
  let cmdType := task.taskInfo.CommandType
  let typed : Option (String × String) :=
    if cmdType = "RunBatScript" then some (".bat", scriptDir)
    else if cmdType = "RunShellScript" then
      some (".sh", if task.taskInfo.Username ≠ "" then "/tmp" else scriptDir)
    else if cmdType = "RunPowerShellScript" then some (".ps1", scriptDir)
    else none
  match typed with
  | none => none
  | some (cmdTypeName, fileName) =>
    let commandName := task.taskInfo.CommandName
    if commandName = "" then some (fileName ++ "/" ++ task.taskInfo.TaskId ++ cmdTypeName)
    else some (fileName ++ "/" ++ commandName ++ "-" ++ task.taskInfo.TaskId ++ cmdTypeName)

/-- Method Run, the statements substituting parameters in the decoded script:
the content and the file to delete after the run (empty for none). -/
def resolveParameters (h : Host) (task : Task) (fileName content : String) :
    Except EarlyReturn (String × String) :=
  if task.taskInfo.EnableParameter then
    match h.ResolveEnvironmentParameters content task.taskInfo.EnvironmentArguments with
    | .error err =>
      .error ⟨h.wrapErrResolveEnvironmentParameterFailed, err,
        SendInvalidTask task "InvalidEnvironmentParameter" err.msg⟩
    | .ok content =>
      let ScriptToDelete := if stringsContains content "oos-secret" then fileName else ""
      match h.ReplaceAllParameterStore content with
      | .error err =>
        .error ⟨0, ⟨"ReplaceAllParameterStore error", []⟩, SendInvalidTask task err.msg ""⟩
      | .ok content => .ok (content, ScriptToDelete)
  else .ok (content, "")

/-- Method Run, the statements adding the bat header and converting the script
on Windows. -/
def encodeContent (h : Host) (task : Task) (content : String) : String :=
  let content :=
    if task.taskInfo.CommandType = "RunBatScript" then "@echo off\r\n" ++ content else content
  if h.G_IsWindows then
    if h.GetDefaultLang ≠ 0x409 then h.Utf8ToGbk content else content
  else content

/-- Method Run, the handling of the result of SaveScriptFile. -/
def checkSaved (h : Host) (task : Task) (fileName : String) (saved : Option GoError) :
    Except EarlyReturn Unit :=
  match saved with
  | none => .ok ()
  | some err =>
    if (task.taskInfo.Repeat ≠ RunTaskCron ∧ task.taskInfo.Repeat ≠ RunTaskEveryReboot ∧
          task.taskInfo.Repeat ≠ RunTaskRate ∧ task.taskInfo.Repeat ≠ RunTaskAt) ∨
        err.Is ErrScriptFileExists = false then
      let wrapErr := err.wrapf ("Saving script to " ++ fileName ++ " failed: ")
      if err.Is ErrScriptFileExists then
        .error ⟨h.wrapErrScriptFileExisted, wrapErr,
          sendPresetError h task [] h.wrapErrScriptFileExisted wrapErr⟩
      else if h.IsNoEnoughSpaceError err then
        .error ⟨h.wrapErrNoEnoughSpace, wrapErr,
          sendPresetError h task [] h.wrapErrNoEnoughSpace wrapErr⟩
      else
        let (errCode, errDescPrefix) :=
          h.categorizeSyscallErrno err h.wrapErrSaveScriptFileFailed
        .error ⟨errCode, err,
          SendError h task [] errCode (errDescPrefix ++ ": " ++ wrapErr.msg)⟩
    else .ok ()

/-- Method Run, the statements setting the permission of the script file.  A
failure is reported through SendError and Run goes on. -/
def setScriptPermission (h : Host) (task : Task) (fileName : String) : List Event :=
  if task.taskInfo.CommandType = "RunShellScript" then
    [Event.chmod fileName] ++
      (match h.Chmod fileName with
       | some err =>
         SendError h task [] h.wrapErrSetExecutablePermissionFailed
           ("SetExecutablePermissionFailed: Failed to set executable permission of shell script: "
             ++ err.msg)
       | none => [])
  else if task.taskInfo.Username ≠ "" then
    [Event.chmod fileName] ++
      (match h.Chmod fileName with
       | some err =>
         SendError h task [] h.wrapErrSetWindowsPermissionFailed
           ("SetWindowsPermissionFailed: Failed to set permission of script on Windows: "
             ++ err.msg)
       | none => [])
  else []

/-- Method Run, the statements choosing the executable and its arguments. -/
def chooseInterpreter (h : Host) (task : Task) (fileName : String) :
    Except EarlyReturn (String × List String × List Event) :=
  if task.taskInfo.CommandType = "RunPowerShellScript" then
    match h.LookPath "powershell" with
    | some err =>
      .error ⟨h.wrapErrPowershellNotFound, err,
        sendPresetError h task [] h.wrapErrPowershellNotFound err⟩
    | none =>
      .ok ("powershell", ["-file", fileName],
        [Event.syncRunSimple "powershell.exe" ["Set-ExecutionPolicy", "RemoteSigned"] 10])
  else if task.taskInfo.CommandType = "RunShellScript" then
    match h.LookPath "sh" with
    | some err =>
      .error ⟨h.wrapErrSystemDefaultShellNotFound, err,
        sendPresetError h task [] h.wrapErrSystemDefaultShellNotFound err⟩
    | none => .ok ("sh", ["-c", fileName], [])
  else .ok (fileName, ["", ""], [])

/-- Method Run, first part: from entry to the launch of the child (the
statements before the running-output goroutine is started).  An early return
of Run is the error side. -/
def runPrepare (h : Host) (task : Task) : Except RunOutcome Prepared :=
  match PreCheck h task false with
  | (task, ev0, some err) => .error ⟨0, some err, task, ev0⟩
  | (task, ev0, none) =>
  match h.GetScriptPath with
  | .error err =>
    if h.IsNoEnoughSpaceError err then
      .error ⟨h.wrapErrNoEnoughSpace, some err, task,
        ev0 ++ sendPresetError h task [] h.wrapErrNoEnoughSpace err⟩
    else
      .error ⟨(h.categorizeSyscallErrno err h.wrapErrGetScriptPathFailed).1, some err, task,
        ev0 ++ SendError h task [] (h.categorizeSyscallErrno err h.wrapErrGetScriptPathFailed).1
          ((h.categorizeSyscallErrno err h.wrapErrGetScriptPathFailed).2 ++ ": " ++ err.msg)⟩
  | .ok scriptDir =>
  match scriptFileName task scriptDir with
  | none =>
    .error ⟨h.wrapErrUnknownCommandType, some ⟨"unkwown command type", []⟩, task,
      ev0 ++ SendError h task [] h.wrapErrUnknownCommandType
        ("UnknownCommandType: " ++ task.taskInfo.CommandType)⟩
  | some fileName =>
  match h.base64Decode task.taskInfo.Content with
  | .error err =>
    .error ⟨h.wrapErrBase64DecodeFailed, some ⟨"decode error", []⟩, task,
      ev0 ++ sendPresetError h task [] h.wrapErrBase64DecodeFailed err⟩
  | .ok content =>
  match resolveParameters h task fileName content with
  | .error r => .error ⟨r.code, some r.err, task, ev0 ++ r.events⟩
  | .ok (content, ScriptToDelete) =>
  let content := encodeContent h task content
  let ev1 := ev0 ++ [Event.saveScriptFile fileName content]
  match checkSaved h task fileName (h.SaveScriptFile fileName content) with
  | .error r => .error ⟨r.code, some r.err, task, ev1 ++ r.events⟩
  | .ok _ =>
  let ev2 := setScriptPermission h task fileName
  let timeout : Int :=
    match h.Atoi task.taskInfo.TimeOut with
    | some n => n
    | none => 3600
  let task := { task with startTime := h.startNow }
  let task := { task with monotonicStartTimestamp := ToAccurateTime task.startTime }
  match chooseInterpreter h task fileName with
  | .error r => .error ⟨r.code, some r.err, task, ev1 ++ ev2 ++ r.events⟩
  | .ok (exe, args, ev3) =>
    .ok { task := task
          events := ev1 ++ ev2 ++ ev3 ++ sendTaskStart task
          fileName := exe
          args := args
          timeout := timeout
          ScriptToDelete := ScriptToDelete }

/-- The goroutine sending running output, over the firings of its ticker.
Each firing comes with the bytes the child wrote since the previous one; the
flag stopped says the goroutine has returned (the buffers still fill). -/
def sendRunningTicks (h : Host) :
    List (Bytes × Bytes) → Bool → Task → Bytes → Bytes → Task × Bytes × Bytes × List Event
  | [], _, task, stdoutWrite, stderrWrite => (task, stdoutWrite, stderrWrite, [])
  | w :: ws, stopped, task, stdoutWrite, stderrWrite =>
    let stdoutWrite := stdoutWrite ++ w.1
    let stderrWrite := stderrWrite ++ w.2
    if stopped then sendRunningTicks h ws true task stdoutWrite stderrWrite
    else if task.data_sended > defaultQuotoPre then
      sendRunningTicks h ws true task stdoutWrite stderrWrite
    else
      let (stdoutWrite, stderrWrite, running_output) := tryRead stdoutWrite stderrWrite []
      let ev := sendRunningOutput h task running_output
      let task :=
        { task with data_sended := (task.data_sended + running_output.length) % 2 ^ 32 }
      let (task, stdoutWrite, stderrWrite, evs) :=
        sendRunningTicks h ws false task stdoutWrite stderrWrite
      (task, stdoutWrite, stderrWrite, ev ++ evs)

/-- State of Run when SyncRun has returned and the running-output goroutine has
exited. -/
structure Ended where
  task : Task
  events : List Event
  status : ProcStatus
  err : Option GoError
  stdoutWrite : Bytes
  stderrWrite : Bytes
  ScriptToDelete : String
deriving DecidableEq, Repr, Inhabited

/-- Method Run, second part: the running-output goroutine and the call of
SyncRun, up to the return of SyncRun.  With cancelNow = some t another
goroutine calls Cancel at wall-clock reading t while Run is blocked in SyncRun. -/
def runChild (h : Host) (p : Prepared) (cancelNow : Option Time) : Option Ended :=
  let task := { p.task with data_sended := 0 }
  let ev1 :=
    (if task.taskInfo.Username ≠ "" then [Event.setUserInfo task.taskInfo.Username] else [])
      ++ (if task.taskInfo.Password ≠ "" then [Event.setPasswordInfo task.taskInfo.Password]
          else [])
      ++ (if task.envHomeDir ≠ "" then [Event.setHomeDir task.envHomeDir] else [])
      ++ [Event.syncRun task.realWorkingDir p.fileName p.args p.timeout]
  let (task, stdoutWrite, stderrWrite, ev2) :=
    sendRunningTicks h h.tickWrites (decide (task.taskInfo.Cronat ≠ "")) task [] []
  let canceled : Option (Task × List Event) :=
    match cancelNow with
    | none => some (task, [])
    | some now => Cancel h now task
  match canceled with
  | none => none
  | some (task, ev3) =>
    let task := { task with exit_code := h.SyncRun.1 }
    some
      { task := task
        events := p.events ++ ev1 ++ ev2 ++ ev3
        status := h.SyncRun.2.1
        err := h.SyncRun.2.2
        stdoutWrite := stdoutWrite ++ h.lastWrites.1
        stderrWrite := stderrWrite ++ h.lastWrites.2
        ScriptToDelete := p.ScriptToDelete }

/-- Method Run, the terminal-reporting statement (the if/else chain on status
after monotonicEndTimestamp is assigned). -/
def reportTerminal (h : Host) (task : Task) (status : ProcStatus) (err : Option GoError) :
    Option (Task × List Event) :=
  if status = ProcStatus.Fail then
    match err with
    | none =>
      match getReportString task task.output with
      | none => none
      | some (report, task) => some (task, sendOutput h task "failed" report)
    | some err =>
      let (errCode, errDescPrefix) := h.categorizeSyscallErrno err h.wrapErrExecuteScriptFailed
      match getReportString task task.output with
      | none => none
      | some (report, task) =>
        some (task, SendError h task report errCode (errDescPrefix ++ ": " ++ err.msg))
  else if status = ProcStatus.Timeout then
    match getReportString task task.output with
    | none => none
    | some (report, task) => some (task, sendOutput h task "timeout" report)
  else
    if IsCancled task = false then
      match getReportString task task.output with
      | none => none
      | some (report, task) => some (task, sendOutput h task "finished" report)
    else some (task, [])

/-- Method Run, last part: from the return of SyncRun to the return of Run. -/
def runFinish (h : Host) (e : Ended) : Option RunOutcome :=
  let task := e.task
  let (_, _, output) := tryReadAll e.stdoutWrite e.stderrWrite task.output
  let task := { task with output := output }
  let task := { task with endTime := h.endNow }
  let task :=
    { task with monotonicEndTimestamp :=
        ToAccurateTime (ToStableElapsedTime task.endTime task.startTime) }
  match reportTerminal h task e.status e.err with
  | none => none
  | some (task, ev1) =>
    let task := { task with output := [] }
    let ev2 := if e.ScriptToDelete ≠ "" then [Event.removeFile e.ScriptToDelete] else []
    let ev3 :=
      if e.status = ProcStatus.Success then
        if task.exit_code = h.exitcodePoweroff then [Event.powerdown]
        else if task.exit_code = h.exitcodeReboot then [Event.reboot]
        else []
      else []
    some ⟨0, none, task, e.events ++ ev1 ++ ev2 ++ ev3⟩

/-- Method Run, when no other goroutine touches the task meanwhile. -/
def Run (h : Host) (task : Task) : Option RunOutcome :=
  match runPrepare h task with
  | .error outcome => some outcome
  | .ok p =>
    match runChild h p none with
    | none => none
    | some e => runFinish h e

/-- Method Run with a call of Cancel from another goroutine, at wall-clock
reading cancelNow, while Run is blocked in SyncRun. -/
def RunWithCancel (h : Host) (cancelNow : Time) (task : Task) : Option RunOutcome :=
  match runPrepare h task with
  | .error outcome => some outcome
  | .ok p =>
    match runChild h p (some cancelNow) with
    | none => none
    | some e => runFinish h e

/-- Is the event a terminal report posted by Run (finish-output, timeout-output
or error-output service)? -/
def Event.isRunTerminal : Event → Bool
  | .finishOutput .. => true
  | .timeoutOutput .. => true
  | .errorOutput .. => true
  | _ => false

/-- Is the event a canceled report (stopped-output service)? -/
def Event.isCanceledReport : Event → Bool
  | .stoppedOutput .. => true
  | _ => false

/-! ## Normalisation of fetched records (fetchtask.go) -/

/-- One entry of the run, stop or test list of a fetched batch (struct taskInfo). -/
structure taskInfo where
  TaskInfo : RunTaskInfo
  OutputInfo : OutputInfo
  Repeat : RunTaskRepeatType
deriving DecidableEq, Repr, Inhabited

/-- Method toRunTaskInfo. -/
def taskInfo.toRunTaskInfo (t : taskInfo) (instanceId : String) : Except GoError RunTaskInfo :=
  let runTaskInfo := t.TaskInfo
  let runTaskInfo := { runTaskInfo with InstanceId := instanceId }
  let runTaskInfo := { runTaskInfo with Output := t.OutputInfo }
  let runTaskInfo := { runTaskInfo with Repeat := t.Repeat }
  let runTaskInfo :=
    if runTaskInfo.Repeat = "" then
      if runTaskInfo.Cronat ≠ "" then
        { runTaskInfo with Repeat := RunTaskCron }
      else
        { runTaskInfo with Repeat := RunTaskOnce }
    else runTaskInfo
  let runTaskInfo :=
    if runTaskInfo.EnableParameter then
      { runTaskInfo with EnvironmentArguments :=
          [("InstanceId", instanceId), ("CommandId", runTaskInfo.CommandId),
            ("InvokeId", runTaskInfo.TaskId)] }
    else runTaskInfo
  .ok runTaskInfo

/-! ## Task Factory and periodic invocation (scheduletask.go) -/

/-- Modelled from the spec: the Task Factory, whose source file is missing; the
spec gives "a mapping TaskId → *Task, guarded by a mutex. Operations: AddTask,
RemoveTaskByName, GetTask(id) → (task, ok), ContainsTaskByName". -/
abbrev TaskFactory := List (String × Task)

/-- Modelled from the spec: TaskFactory.ContainsTaskByName (source file missing). -/
def TaskFactory.ContainsTaskByName (f : TaskFactory) (name : String) : Bool :=
  f.any (fun e => decide (e.1 = name))

/-- Modelled from the spec: TaskFactory.RemoveTaskByName (source file missing). -/
def TaskFactory.RemoveTaskByName (f : TaskFactory) (name : String) : TaskFactory :=
  f.filter (fun e => decide (e.1 ≠ name))

/-- Modelled from the spec: TaskFactory.AddTask (source file missing); the task
is stored under its TaskId. -/
def TaskFactory.AddTask (f : TaskFactory) (t : Task) : TaskFactory :=
  (t.taskInfo.TaskId, t) :: TaskFactory.RemoveTaskByName f t.taskInfo.TaskId

/-- Modelled from the spec: TaskFactory.GetTask (source file missing). -/
def TaskFactory.GetTask (f : TaskFactory) (name : String) : Option Task :=
  (f.find? (fun e => decide (e.1 = name))).map Prod.snd

/-- Schedule of a periodic task (struct PeriodicTaskSchedule); the timer is
named by its handle. -/
structure PeriodicTaskSchedule where
  timer : Option Nat
  reusableInvocation : Task
deriving DecidableEq, Repr, Inhabited

/-- The part of the agent state touched by periodic invocation: the Task
Factory and the closures submitted to the run pool that have not returned yet
(each runs one invocation, then removes its TaskId from the factory). -/
structure Engine where
  taskFactory : TaskFactory
  runPool : List Task
deriving DecidableEq, Repr, Inhabited

def Engine.init : Engine := { taskFactory := [], runPool := [] }

/-- Number of invocations of a TaskId that are in flight. -/
def Engine.inFlight (g : Engine) (taskId : String) : Nat :=
  g.runPool.countP (fun t => decide (t.taskInfo.TaskId = taskId))

/-- Method startExclusiveInvocation, the callback of the schedule's timer. -/
def PeriodicTaskSchedule.startExclusiveInvocation (s : PeriodicTaskSchedule) (g : Engine) :
    Engine :=
  if g.taskFactory.ContainsTaskByName s.reusableInvocation.taskInfo.TaskId then g
  else
    { g with
      taskFactory := g.taskFactory.AddTask s.reusableInvocation
      runPool := g.runPool ++ [s.reusableInvocation] }

/-- Drop the first closure of the pool that runs the given TaskId. -/
def removeFirstJob (taskId : String) : List Task → List Task
  | [] => []
  | t :: ts => if t.taskInfo.TaskId = taskId then ts else t :: removeFirstJob taskId ts

/-- End of the closure submitted by startExclusiveInvocation: Run has returned,
the closure removes the TaskId from the factory and leaves the pool. -/
def Engine.completeInvocation (g : Engine) (taskId : String) : Engine :=
  { g with
    taskFactory := g.taskFactory.RemoveTaskByName taskId
    runPool := removeFirstJob taskId g.runPool }

/-- Steps of periodic invocation: a timer fires, or an invocation in flight
completes. -/
inductive Engine.Step : Engine → Engine → Prop where
  | fire (g : Engine) (s : PeriodicTaskSchedule) :
      Engine.Step g (s.startExclusiveInvocation g)
  | complete (g : Engine) (taskId : String) (hrun : 0 < g.inFlight taskId) :
      Engine.Step g (g.completeInvocation taskId)

/-- States reachable from the initial state (empty factory, idle pool). -/
inductive Engine.Reachable : Engine → Prop where
  | init : Engine.Reachable Engine.init
  | step {g g' : Engine} (hg : Engine.Reachable g) (hs : Engine.Step g g') :
      Engine.Reachable g'

/-- Invariant of periodic invocation: per TaskId at most one invocation is in
flight, and an invocation in flight is registered in the Task Factory. -/
def Engine.Exclusive (g : Engine) : Prop :=
  ∀ taskId, g.inFlight taskId ≤ 1 ∧
    (0 < g.inFlight taskId → g.taskFactory.ContainsTaskByName taskId = true)

/-! ## Timer manager (package timermanager, not part of the sources at hand) -/

/-- Modelled from the spec: a timer of the timer manager, whose source file is
missing; the spec gives "CreateCronTimer(callback, expr) -> Timer with
Run/Delete".  The callback is startExclusiveInvocation of the schedule
registered under taskId. -/
structure Timer where
  handle : Nat
  taskId : String
  cronat : String
  running : Bool
deriving DecidableEq, Repr, Inhabited

/-- Modelled from the spec: the timer manager (source file missing), the timers
it holds and the handle of the next timer it creates. -/
structure TimerManager where
  timers : List Timer
  nextHandle : Nat
deriving DecidableEq, Repr, Inhabited

/-- Modelled from the spec: the answers of the timer service, which the spec
leaves out of scope: the error of CreateCronTimer for a cron expression (none
for success) and the error of Run for the timer of a cron expression. -/
structure TimerService where
  createErr : String → Option GoError
  runErr : String → Option GoError

/-- Modelled from the spec: TimerManager.CreateCronTimer (source file missing);
on success the manager holds a new timer that is not started yet. -/
def TimerManager.CreateCronTimer (ts : TimerService) (tm : TimerManager)
    (taskId cronat : String) : Except GoError (TimerManager × Nat) :=
  match ts.createErr cronat with
  | some err => .error err
  | none =>
    .ok ({ timers := tm.timers ++ [⟨tm.nextHandle, taskId, cronat, false⟩]
           nextHandle := tm.nextHandle + 1 }, tm.nextHandle)

/-- Modelled from the spec: Timer.Run (source file missing); on success the
timer is started. -/
def TimerManager.RunTimer (ts : TimerService) (tm : TimerManager) (handle : Nat)
    (cronat : String) : TimerManager × Option GoError :=
  match ts.runErr cronat with
  | some err => (tm, some err)
  | none =>
    let started := tm.timers.map
      (fun t => if t.handle = handle then { t with running := true } else t)
    ({ tm with timers := started }, none)

/-- Modelled from the spec: TimerManager.DeleteTimer (source file missing),
"which contains stopping timer operation"; a nil timer deletes nothing. -/
def TimerManager.DeleteTimer (tm : TimerManager) (timer : Option Nat) : TimerManager :=
  match timer with
  | none => tm
  | some handle => { tm with timers := tm.timers.filter (fun t => decide (t.handle ≠ handle)) }

/-! ## Dispatching and the periodic schedules (scheduletask.go) -/

/-- The map _periodicTaskSchedules, from TaskId to schedule. -/
abbrev ScheduleMap := List (String × PeriodicTaskSchedule)

/-- Go map lookup: value and presence. -/
def ScheduleMap.lookup (m : ScheduleMap) (taskId : String) : Option PeriodicTaskSchedule :=
  (m.find? (fun e => decide (e.1 = taskId))).map Prod.snd

/-- Go builtin delete on the map. -/
def ScheduleMap.delete (m : ScheduleMap) (taskId : String) : ScheduleMap :=
  m.filter (fun e => decide (e.1 ≠ taskId))

/-- Go map assignment m[taskId] = s. -/
def ScheduleMap.insert (m : ScheduleMap) (taskId : String) (s : PeriodicTaskSchedule) :
    ScheduleMap :=
  (taskId, s) :: ScheduleMap.delete m taskId

/-- The task stored under a name is a pointer: after a method call on it the
entry holds the task as the call left it. -/
def TaskFactory.store (f : TaskFactory) (name : String) (t : Task) : TaskFactory :=
  f.map (fun e => if e.1 = name then (e.1, t) else e)

/-- State of the dispatcher: the Task Factory and run pool, the pool of
pre-checks, the map _periodicTaskSchedules and the global timer manager (none
while it is not initialised). -/
structure Agent where
  engine : Engine
  precheckPool : List Task
  schedules : ScheduleMap
  timerManager : Option TimerManager
deriving DecidableEq, Repr, Inhabited

def Agent.init : Agent :=
  { engine := Engine.init, precheckPool := [], schedules := [], timerManager := none }

/-- Function schedulePeriodicTask: the state after the call and the error
returned (none for nil). -/
def schedulePeriodicTask (ts : TimerService) (taskInfo : RunTaskInfo) (g : Agent) :
    Agent × Option GoError :=
  match g.timerManager with
  | none => (g, some ⟨"Global TimerManager instance is not initialized", []⟩)
  | some timerManager =>
    match g.schedules.lookup taskInfo.TaskId with
    | some _ => (g, none)
    | none =>
      let periodicTaskSchedule : PeriodicTaskSchedule :=
        { timer := none, reusableInvocation := NewTask taskInfo none false }
      match timerManager.CreateCronTimer ts taskInfo.TaskId taskInfo.Cronat with
      | .error err => (g, some err)
      | .ok (timerManager, timer) =>
        let periodicTaskSchedule := { periodicTaskSchedule with timer := some timer }
        let schedules := g.schedules.insert taskInfo.TaskId periodicTaskSchedule
        match timerManager.RunTimer ts timer taskInfo.Cronat with
        | (timerManager, some err) =>
          ({ g with
             timerManager := some (timerManager.DeleteTimer periodicTaskSchedule.timer)
             schedules := schedules.delete taskInfo.TaskId }, some err)
        | (timerManager, none) =>
          ({ g with timerManager := some timerManager, schedules := schedules }, none)

/-- Function cancelPeriodicTask, called at wall-clock reading now: the state
after the call, the error returned and the events issued. -/
def cancelPeriodicTask (h : Host) (now : Time) (taskInfo : RunTaskInfo) (g : Agent) :
    Option (Agent × Option GoError × List Event) :=
  match g.timerManager with
  | none => some (g, some ⟨"Global TimerManager instance is not initialized", []⟩, [])
  | some timerManager =>
    match g.schedules.lookup taskInfo.TaskId with
    | none => some (g, some ⟨"Unregistered periodic task " ++ taskInfo.TaskId, []⟩, [])
    | some periodicTaskSchedule =>
      let timerManager := timerManager.DeleteTimer periodicTaskSchedule.timer
      let schedules := g.schedules.delete taskInfo.TaskId
      match g.engine.taskFactory.GetTask taskInfo.TaskId with
      | some runningInvocation =>
        match Cancel h now runningInvocation with
        | none => none
        | some (runningInvocation, events) =>
          some ({ g with
                  timerManager := some timerManager
                  schedules := schedules
                  engine := { g.engine with
                    taskFactory := g.engine.taskFactory.store taskInfo.TaskId runningInvocation } },
                none, events)
      | none =>
        let lastInvocation := periodicTaskSchedule.reusableInvocation
        match getReportString lastInvocation lastInvocation.output with
        | none => none
        | some (report, lastInvocation) =>
          some ({ g with timerManager := some timerManager, schedules := schedules },
                none, sendOutput h lastInvocation "canceled" report)

/-- Function dispatchRunTask. -/
def dispatchRunTask (ts : TimerService) (taskInfo : RunTaskInfo) (g : Agent) : Agent :=
  if g.engine.taskFactory.ContainsTaskByName taskInfo.TaskId then g
  else if taskInfo.Repeat = RunTaskOnce ∨ taskInfo.Repeat = RunTaskNextRebootOnly ∨
      taskInfo.Repeat = RunTaskEveryReboot then
    let t := NewTask taskInfo none false
    { g with engine :=
        { g.engine with
          taskFactory := g.engine.taskFactory.AddTask t
          runPool := g.engine.runPool ++ [t] } }
  else if taskInfo.Repeat = RunTaskPeriod then
    (schedulePeriodicTask ts taskInfo g).1
  else g

/-- Function dispatchStopTask, called at wall-clock reading now. -/
def dispatchStopTask (h : Host) (now : Time) (taskInfo : RunTaskInfo) (g : Agent) :
    Option (Agent × List Event) :=
  if taskInfo.Repeat = RunTaskOnce ∨ taskInfo.Repeat = RunTaskNextRebootOnly ∨
      taskInfo.Repeat = RunTaskEveryReboot then
    if g.engine.taskFactory.ContainsTaskByName taskInfo.TaskId = false then some (g, [])
    else
      match g.engine.taskFactory.GetTask taskInfo.TaskId with
      | none => none
      | some scheduledTask =>
        match Cancel h now scheduledTask with
        | none => none
        | some (scheduledTask, events) =>
          some ({ g with engine := { g.engine with
                    taskFactory := g.engine.taskFactory.store taskInfo.TaskId scheduledTask } },
                events)
  else if taskInfo.Repeat = RunTaskPeriod then
    match cancelPeriodicTask h now taskInfo g with
    | none => none
    | some (g, _, events) => some (g, events)
  else some (g, [])

/-- Function dispatchTestTask. -/
def dispatchTestTask (taskInfo : RunTaskInfo) (g : Agent) : Agent :=
  if g.engine.taskFactory.ContainsTaskByName taskInfo.TaskId then g
  else if taskInfo.Repeat = RunTaskOnce ∨ taskInfo.Repeat = RunTaskPeriod ∨
      taskInfo.Repeat = RunTaskNextRebootOnly ∨ taskInfo.Repeat = RunTaskEveryReboot then
    { g with precheckPool := g.precheckPool ++ [NewTask taskInfo none false] }
  else g

/-- Is there an armed timer (created, started and not deleted) for the TaskId? -/
def Agent.armed (g : Agent) (taskId : String) : Prop :=
  ∃ tm t, g.timerManager = some tm ∧ t ∈ tm.timers ∧ t.taskId = taskId ∧ t.running = true

/-- Is the TaskId a key of _periodicTaskSchedules? -/
def Agent.scheduled (g : Agent) (taskId : String) : Prop :=
  taskId ∈ g.schedules.map Prod.fst

/-- Steps of the dispatcher: the timer manager is initialised at startup; a
run, stop or test record is dispatched; the timer of a registered schedule
fires; an invocation in flight completes. -/
inductive Agent.Step : Agent → Agent → Prop where
  | initTimerManager (g : Agent) (hnone : g.timerManager = none) :
      Agent.Step g { g with timerManager := some ⟨[], 0⟩ }
  | run (g : Agent) (ts : TimerService) (taskInfo : RunTaskInfo) :
      Agent.Step g (dispatchRunTask ts taskInfo g)
  | stop (g : Agent) (h : Host) (now : Time) (taskInfo : RunTaskInfo) (g' : Agent)
      (events : List Event) (hstop : dispatchStopTask h now taskInfo g = some (g', events)) :
      Agent.Step g g'
  | test (g : Agent) (taskInfo : RunTaskInfo) :
      Agent.Step g (dispatchTestTask taskInfo g)
  | fire (g : Agent) (taskId : String) (s : PeriodicTaskSchedule)
      (hs : g.schedules.lookup taskId = some s) (harmed : g.armed taskId) :
      Agent.Step g { g with engine := s.startExclusiveInvocation g.engine }
  | complete (g : Agent) (taskId : String) (hrun : 0 < g.engine.inFlight taskId) :
      Agent.Step g { g with engine := g.engine.completeInvocation taskId }

/-- States of the dispatcher reachable from the initial state. -/
inductive Agent.Reachable : Agent → Prop where
  | init : Agent.Reachable Agent.init
  | step {g g' : Agent} (hg : Agent.Reachable g) (hs : Agent.Step g g') :
      Agent.Reachable g'

/-- Invariant tying _periodicTaskSchedules to the timer manager: keys are
unique; without a timer manager nothing is registered; timer handles are
unique and below the next handle; every registered schedule holds the handle
of a started timer created for its TaskId; every timer of the manager is
started and belongs to a registered schedule. -/
def Agent.SchedulesArmed (g : Agent) : Prop :=
  (g.schedules.map Prod.fst).Nodup ∧
  (g.timerManager = none → g.schedules = []) ∧
  ∀ tm, g.timerManager = some tm →
    (tm.timers.map Timer.handle).Nodup ∧
    (∀ t ∈ tm.timers, t.handle < tm.nextHandle) ∧
    (∀ e ∈ g.schedules, ∃ t ∈ tm.timers,
      e.2.timer = some t.handle ∧ t.taskId = e.1 ∧ t.running = true) ∧
    (∀ t ∈ tm.timers, t.running = true ∧
      ∃ e ∈ g.schedules, e.1 = t.taskId ∧ e.2.timer = some t.handle)

/-- Is the Repeat value one of the non-periodic kinds? -/
def NonPeriodic (kind : RunTaskRepeatType) : Prop :=
  kind = RunTaskOnce ∨ kind = RunTaskNextRebootOnly ∨ kind = RunTaskEveryReboot

/-- Invariant on the kinds of registered tasks: the reusable invocation of
every schedule is a Period task, and every task in the Task Factory is
non-periodic or a Period task. -/
def Agent.KindsSorted (g : Agent) : Prop :=
  (∀ e ∈ g.schedules, e.2.reusableInvocation.taskInfo.Repeat = RunTaskPeriod) ∧
  (∀ e ∈ g.engine.taskFactory,
    NonPeriodic e.2.taskInfo.Repeat ∨ e.2.taskInfo.Repeat = RunTaskPeriod)

/-! ## Fetching (scheduletask.go, Fetch) -/

def ErrUpdatingProcedureRunning : Int := -7

def NormalTaskType : Int := 0

def SessionTaskType : Int := 1

/-- Reason of a fetch, the string constants of type FetchReason (fetchtask.go). -/
abbrev FetchReason := String

def FetchOnKickoff : FetchReason := "kickoff"

def FetchOnStartup : FetchReason := "startup"

/-- Who holds FetchingTaskLock: nobody, the goroutine running Fetch, or another
goroutine (the updater, or another fetcher). -/
inductive LockOwner where
  | free
  | fetcher
  | other
deriving DecidableEq, Repr, Inhabited

/-- The process-wide variables Fetch works on: the fetching-enabled flag,
FetchingTaskCounter and FetchingTaskLock. -/
structure FetchGlobals where
  enabled : Bool
  counter : Int
  lock : LockOwner
deriving DecidableEq, Repr, Inhabited

/-- What Fetch does, in order.  A call of fetchTasks is recorded with its
arguments, the process-wide variables at the time of the call, and its result. -/
inductive FetchEvent where
  | tryLockWithTimeout (seconds : Nat) (acquired : Bool)
  | unlock
  | fetchTasks (reason : FetchReason) (taskId : String) (taskType : Int) (isColdstart : Bool)
      (globals : FetchGlobals) (task_size : Int)
  | sleep (seconds : Nat)
deriving DecidableEq, Repr, Inhabited

/-- Is the event a call of fetchTasks? -/
def FetchEvent.isFetchTasks : FetchEvent → Bool
  | .fetchTasks .. => true
  | _ => false

/-- Method TryLockWithTimeout of FetchingTaskLock (library go-lock): a free lock
is taken; a lock held by another goroutine is taken only if it is released
within the timeout, which releasedInTime tells. -/
def TryLockWithTimeout (releasedInTime : Bool) (s : FetchGlobals) : Bool × FetchGlobals :=
  match s.lock with
  | .free => (true, { s with lock := .fetcher })
  | .other => if releasedInTime then (true, { s with lock := .fetcher }) else (false, s)
  | .fetcher => (false, s)

/-- What Fetch returns, with the process-wide variables, the state the
dispatchers work on, and the trace of the call. -/
structure FetchResult (W : Type) where
  task_size : Int
  globals : FetchGlobals
  world : W
  trace : List FetchEvent

/-- Function Fetch, the retry loop "for i := 0; i < 1 && from_kick && task_size == 0; i++"
with remaining = 1 - i. -/
def fetchRetry {W : Type} (fetchTasks : FetchReason → String → Int → Bool → W → W × Int)
    (from_kick : Bool) (taskId : String) (taskType : Int) :
    Nat → FetchGlobals → Int → W → List FetchEvent → Int × W × List FetchEvent
  | 0, _, task_size, w, trace => (task_size, w, trace)
  | remaining + 1, s, task_size, w, trace =>
    if from_kick = true ∧ task_size = 0 then
      let (w, task_size) := fetchTasks FetchOnKickoff taskId taskType false w
      fetchRetry fetchTasks from_kick taskId taskType remaining s task_size w
        (trace ++ [FetchEvent.sleep 3,
          FetchEvent.fetchTasks FetchOnKickoff taskId taskType false s task_size])
    else (task_size, w, trace)

/-- Function Fetch.  The callee fetchTasks acts on the state W of the
dispatchers and returns the number of tasks; releasedInTime tells whether a
lock held by another goroutine is released within the try-lock timeout. -/
def Fetch {W : Type} (fetchTasks : FetchReason → String → Int → Bool → W → W × Int)
    (releasedInTime : Bool) (from_kick : Bool) (taskId : String) (taskType : Int)
    (isColdstart : Bool) (s : FetchGlobals) (w : W) : FetchResult W :=
  if s.enabled = false then
    { task_size := 0, globals := s, world := w, trace := [] }
  else
    match TryLockWithTimeout releasedInTime s with
    | (false, s) =>
      { task_size := ErrUpdatingProcedureRunning, globals := s, world := w,
        trace := [FetchEvent.tryLockWithTimeout 2 false] }
    | (true, s) =>
      let s := { s with lock := .free }
      let s := { s with counter := s.counter + 1 }
      let (w, task_size, call) :=
        if from_kick then
          let r := fetchTasks FetchOnKickoff taskId taskType false w
          (r.1, r.2, FetchEvent.fetchTasks FetchOnKickoff taskId taskType false s r.2)
        else
          let r := fetchTasks FetchOnStartup taskId taskType isColdstart w
          (r.1, r.2, FetchEvent.fetchTasks FetchOnStartup taskId taskType isColdstart s r.2)
      let (task_size, w, trace) :=
        fetchRetry fetchTasks from_kick taskId taskType 1 s task_size w
          [FetchEvent.tryLockWithTimeout 2 true, FetchEvent.unlock, call]
      let s := { s with counter := s.counter + -1 }
      { task_size := task_size, globals := s, world := w, trace := trace }

/-! ## Pre-checking: the check of the user (basetask.go, PreCheck) -/

/-- Method PreCheck, its first statement: the check of the user the command
runs as.  The result is the report sent and the error returned when the check
fails, none when it passes or does not apply. -/
def checkUser (h : Host) (task : Task) : Option (List Event × GoError) :=
  if task.taskInfo.Username ≠ "" then
    if h.GOOS = "linux" then
      match h.GetUserCredentials task.taskInfo.Username with
      | some err =>
        some (SendInvalidTask task "UsernameOrPasswordInvalid"
          ("UserInvalid_" ++ task.taskInfo.Username), err)
      | none => none
    else if h.GOOS = "windows" then
      match h.IsUserValid task.taskInfo.Username task.taskInfo.Password with
      | some err =>
        some (SendInvalidTask task err.msg
          ("UsernameOrPasswordInvalid_" ++ task.taskInfo.Username), err)
      | none => none
    else none
  else none

/-- Method PreCheck, the statements resolving HOME: the task after them.  A
failure is logged and leaves the task as it is. -/
def resolveHome (h : Host) (task : Task) : Task :=
  match h.detectHomeDirectory task with
  | .error _ => task
  | .ok envHomeDir => { task with envHomeDir := envHomeDir }

/-- Is the event a call of reportInvalidTask? -/
def Event.isInvalidTask : Event → Bool
  | .invalidTask .. => true
  | _ => false

/-- Is the event a POST to the verified-task service? -/
def Event.isTaskVerified : Event → Bool
  | .taskVerified .. => true
  | _ => false

/-- Is the event the call of processer.SyncRun? -/
def Event.isSyncRun : Event → Bool
  | .syncRun .. => true
  | _ => false

/-- Is the event a POST of start, running or terminal output (running-output,
finish-output, timeout-output, error-output or stopped-output service)? -/
def Event.isOutputPost : Event → Bool
  | .taskStart .. => true
  | .runningOutput .. => true
  | .finishOutput .. => true
  | .timeoutOutput .. => true
  | .errorOutput .. => true
  | .stoppedOutput .. => true
  | _ => false

/-! ## The script path as the specification words it -/

/-- The script path in the words of the specification:
dir + "/" + (CommandName + "-")? + TaskId + ext, for a task whose CommandType
is one of the three known. -/
def specScriptPath (task : Task) (scriptDir : String) : String :=
  let ext :=
    if task.taskInfo.CommandType = "RunBatScript" then ".bat"
    else if task.taskInfo.CommandType = "RunShellScript" then ".sh"
    else ".ps1"
  let lead := if task.taskInfo.CommandName ≠ "" then task.taskInfo.CommandName ++ "-" else ""
  let dir :=
    if task.taskInfo.CommandType = "RunShellScript" ∧ task.taskInfo.Username ≠ "" then "/tmp"
    else scriptDir
  dir ++ "/" ++ lead ++ task.taskInfo.TaskId ++ ext

/-! ## Wall-clock query parameters (basetask.go, wallClockQueryParams) -/

/-- What wallClockQueryParams reads from the clock and from packages outside
the sources at hand. -/
structure WallClock where
  /-- Result of timetool.GetAccurateTime(). -/
  GetAccurateTime : Int
  /-- Reading of time.Now(). -/
  Now : Time
  /-- Offset from UTC, in seconds, of a location at an instant (method Zone of
  the instant taken in the location). -/
  ZoneOffset : String → Time → Int
  /-- Result of timetool.NowWithTimezoneName(): instant, offset, zone name. -/
  NowWithTimezoneName : Time × Int × String
  /-- Function url.QueryEscape. -/
  QueryEscape : String → String

/-- Go fmt verb %d on an integer. -/
def fmtInt (n : Int) : String := toString n

/-- Method wallClockQueryParams.  The field scheduleLocation of the task holds
the name of the location (the result of its String method). -/
def wallClockQueryParams (c : WallClock) (task : Task) : String :=
  if task.taskInfo.Repeat = RunTaskRate then
    "&currentTime=" ++ fmtInt c.GetAccurateTime
  else if task.taskInfo.Repeat = RunTaskCron then
    match task.scheduleLocation with
    | some scheduleLocation =>
      let escapedTimezoneName := c.QueryEscape scheduleLocation
      let locatedNow := c.Now
      let currentOffsetFromUTC := c.ZoneOffset scheduleLocation locatedNow
      "&currentTime=" ++ fmtInt (ToAccurateTime locatedNow) ++ "&offset=" ++
        fmtInt currentOffsetFromUTC ++ "&timeZone=" ++ escapedTimezoneName
    | none =>
      let (currentTime, currentOffsetFromUTC, timezoneName) := c.NowWithTimezoneName
      let escapedTimezoneName := c.QueryEscape timezoneName
      "&currentTime=" ++ fmtInt (ToAccurateTime currentTime) ++ "&offset=" ++
        fmtInt currentOffsetFromUTC ++ "&timeZone=" ++ escapedTimezoneName
  else ""

/-! ## Parsing the deadline (Go strconv.Atoi) -/

/-- Go strconv.Atoi on a 64-bit platform: an optional sign followed by one or
more decimal digits, with a value in the range of int; anything else
(the empty string included) is an error, here none. -/
def strconvAtoi (s : String) : Option Int :=
  let signed : Bool × List Char :=
    match s.toList with
    | '-' :: digits => (true, digits)
    | '+' :: digits => (false, digits)
    | digits => (false, digits)
  if signed.2 = [] ∨ signed.2.all Char.isDigit = false then none
  else
    let n : Int := signed.2.foldl (fun acc ch => acc * 10 + ((ch.toNat - 48 : Nat) : Int)) 0
    let n := if signed.1 then -n else n
    if -9223372036854775808 ≤ n ∧ n ≤ 9223372036854775807 then some n else none

/-- The deadline Run hands to SyncRun: the statements
"timeout, err := strconv.Atoi(task.taskInfo.TimeOut); if err != nil { timeout = 3600 }". -/
def deadlineOf (h : Host) (task : Task) : Int :=
  match h.Atoi task.taskInfo.TimeOut with
  | some n => n
  | none => 3600

/-! ## Draining in the words of the specification -/

/-- The k-th chunk of at most 1024 bytes of a buffer. -/
def chunkAt (buf : Bytes) (k : Nat) : Bytes := (buf.drop (1024 * k)).take 1024

/-- Number of chunks of at most 1024 bytes the longer of two buffers splits into. -/
def chunkRounds (stdoutWrite stderrWrite : Bytes) : Nat :=
  (max stdoutWrite.length stderrWrite.length + 1023) / 1024

/-- Successive chunks of at most 1024 bytes, taken from stdout and then from
stderr in alternation. -/
def alternateChunks (stdoutWrite stderrWrite : Bytes) : Bytes :=
  (List.range (chunkRounds stdoutWrite stderrWrite)).flatMap
    (fun k => chunkAt stdoutWrite k ++ chunkAt stderrWrite k)

/-! ## Channel switching (agent/channel/channel_gshell.go) -/

/-- The state of a GshellChannel that StopChannel works on: the Working flag,
whether the handle hGshell is open, and whether the goroutine started by
startChannelUnsafe, the only receiver of StopChanelEvent, is running. -/
structure GshellChannel where
  Working : Bool
  hGshellOpen : Bool
  readerRunning : Bool
deriving DecidableEq, Repr, Inhabited

/-- What SwitchChannel obtains from the channel manager and sibling files: the
channel-type constants, the outcome of the successive calls of
SelectAvailableChannel (selectErr k is the error of call number k, counted
from 0, none for nil), the current channel type after k calls, and the
function ChannelTypeStr. -/
structure ChannelMgr where
  ChannelNone : Int
  ChannelGshellType : Int
  selectErr : Nat → Option GoError
  currentChannelType : Nat → Int
  ChannelTypeStr : Int → String

/-- What SwitchChannel does, in order. -/
inductive ChannelEvent where
  /-- Send on StopChanelEvent, received by the reader goroutine. -/
  | stopChanelEvent
  /-- WaitCheckDone.Wait() has returned. -/
  | waitCheckDone
  /-- Close of the handle hGshell. -/
  | closeGshell
  | sleep (seconds : Nat)
  /-- Call of G_ChannelMgr.SelectAvailableChannel with its result. -/
  | selectAvailableChannel (channelType : Int) (err : Option GoError)
  /-- Call of metrics.GetChannelSwitchEvent(keywords...).ReportEvent(). -/
  | channelSwitchEvent (keywords : List String)
  /-- Call of clientreport.SendReport. -/
  | sendReport (ReportType Info : String)
deriving DecidableEq, Repr, Inhabited

/-- Is the event a call of SelectAvailableChannel? -/
def ChannelEvent.isSelect : ChannelEvent → Bool
  | .selectAvailableChannel .. => true
  | _ => false

/-- Is the event a call of clientreport.SendReport? -/
def ChannelEvent.isReport : ChannelEvent → Bool
  | .sendReport .. => true
  | _ => false

/-- Method StopChannel.  The send on the unbuffered channel StopChanelEvent
returns only when the reader goroutine receives it; without a running reader
the call blocks for ever, which is the result none. -/
def StopChannel (c : GshellChannel) : Option (GshellChannel × List ChannelEvent) :=
  if c.readerRunning then
    some ({ c with readerRunning := false, hGshellOpen := false, Working := false },
      [ChannelEvent.stopChanelEvent, ChannelEvent.waitCheckDone, ChannelEvent.closeGshell])
  else none

/-- The metrics event and the report of a successful switch, after calls calls
of SelectAvailableChannel. -/
def switchSucceeded (m : ChannelMgr) (calls : Nat) : List ChannelEvent :=
  [ChannelEvent.channelSwitchEvent
     ["type", m.ChannelTypeStr (m.currentChannelType calls),
      "info", "success: Current channel is " ++ fmtInt (m.currentChannelType calls),
      "reportType", "switch_channel_in_gshell"],
   ChannelEvent.sendReport "switch_channel_in_gshell"
     ("success: Current channel is " ++ fmtInt (m.currentChannelType calls))]

/-- Method SwitchChannel, the loop "for i := 0; i < 5; i++" with
remaining = 5 - i, entered after calls calls of SelectAvailableChannel: whether
the method returned nil inside the loop, the number of calls made so far, and
the events of the loop. -/
def switchRetry (m : ChannelMgr) : Nat → Nat → Bool × Nat × List ChannelEvent
  | 0, calls => (false, calls, [])
  | remaining + 1, calls =>
    match m.selectErr calls with
    | none =>
      (true, calls + 1,
        [ChannelEvent.selectAvailableChannel m.ChannelNone none] ++ switchSucceeded m (calls + 1))
    | some err =>
      let (returned, total, events) := switchRetry m remaining (calls + 1)
      (returned, total,
        [ChannelEvent.selectAvailableChannel m.ChannelNone (some err), ChannelEvent.sleep 5]
          ++ events)

/-- What SwitchChannel returns (none for nil), with the number of calls of
SelectAvailableChannel it made and its trace. -/
structure SwitchResult where
  err : Option GoError
  calls : Nat
  trace : List ChannelEvent
deriving DecidableEq, Repr, Inhabited

/-- Method SwitchChannel; none when the call never returns. -/
def SwitchChannel (m : ChannelMgr) (c : GshellChannel) : Option SwitchResult :=
  match StopChannel c with
  | none => none
  | some (_, stopped) =>
    let events := stopped ++ [ChannelEvent.sleep 1]
    match m.selectErr 0 with
    | some err =>
      let events := events ++ [ChannelEvent.selectAvailableChannel m.ChannelGshellType (some err)]
      match switchRetry m 5 1 with
      | (true, total, retried) => some ⟨none, total, events ++ retried⟩
      | (false, total, retried) =>
        some ⟨some ⟨"no available channel", []⟩, total,
          events ++ retried ++
            [ChannelEvent.channelSwitchEvent
               ["type", "type", m.ChannelTypeStr (m.currentChannelType total),
                "info", "fail: no available channel",
                "reportType", "switch_channel_in_gshell"],
             ChannelEvent.sendReport "switch_channel_in_gshell" "fail: no available channel"]⟩
    | none =>
      some ⟨none, 1,
        events ++ [ChannelEvent.selectAvailableChannel m.ChannelGshellType none]
          ++ switchSucceeded m 1⟩

/-! ## Fetching a batch and dispatching it (fetchtask.go, scheduletask.go) -/

structure SendFileTaskInfo where
  Content : String
  ContentType : String
  Destination : String
  Group : String
  Mode : String
  Name : String
  Overwrite : Bool
  Owner : String
  Signature : String
  TaskID : String
  Timeout : Int
  Output : OutputInfo
deriving DecidableEq, Repr, Inhabited

structure SessionTaskInfo where
  CmdContent : String
  Username : String
  Password : String
  SessionId : String
  WebsocketUrl : String
  PortNumber : String
  FlowLimit : Int
deriving DecidableEq, Repr, Inhabited

/-- One entry of the file list of a fetched batch (struct sendFileInfo). -/
structure sendFileInfo where
  TaskInfo : SendFileTaskInfo
  OutputInfo : OutputInfo
deriving DecidableEq, Repr, Inhabited

/-- A fetched batch as json.Unmarshal fills it (struct tasks). -/
structure tasks where
  RunTasks : List taskInfo
  StopTasks : List taskInfo
  TestTasks : List taskInfo
  SendFileTasks : List sendFileInfo
  SessionTasks : List SessionTaskInfo
  InstanceId : String
deriving DecidableEq, Repr, Inhabited

structure taskCollection where
  runInfos : List RunTaskInfo
  stopInfos : List RunTaskInfo
  testInfos : List RunTaskInfo
  sendFiles : List SendFileTaskInfo
  sessionInfos : List SessionTaskInfo
deriving DecidableEq, Repr, Inhabited

def newTaskCollection : taskCollection :=
  { runInfos := [], stopInfos := [], testInfos := [], sendFiles := [], sessionInfos := [] }

/-- The loops of parseTaskInfo over the run, stop and test lists: an entry
whose conversion fails is skipped. -/
def toRunTaskInfos (instanceId : String) (entries : List taskInfo) : List RunTaskInfo :=
  entries.filterMap
    (fun v =>
      match v.toRunTaskInfo instanceId with
      | .ok runTaskInfo => some runTaskInfo
      | .error _ => none)

/-- Function parseTaskInfo, given the result of json.Unmarshal on the response
(none when the response is not valid JSON). -/
def parseTaskInfo (unmarshalled : Option tasks) : taskCollection :=
  match unmarshalled with
  | none => newTaskCollection
  | some task_lists =>
    { runInfos := toRunTaskInfos task_lists.InstanceId task_lists.RunTasks
      stopInfos := toRunTaskInfos task_lists.InstanceId task_lists.StopTasks
      testInfos := toRunTaskInfos task_lists.InstanceId task_lists.TestTasks
      sendFiles := task_lists.SendFileTasks.map
        (fun sendFileTask => { sendFileTask.TaskInfo with Output := sendFileTask.OutputInfo })
      sessionInfos := task_lists.SessionTasks }

/-- Outcome of the request for the task list in FetchTaskList. -/
inductive FetchAnswer where
  /-- The POST still fails after its three retries. -/
  | failed (err : GoError)
  /-- The POST returned a response; unmarshalled is the result of
  json.Unmarshal on it, none when it is not valid JSON. -/
  | response (unmarshalled : Option tasks)
deriving DecidableEq, Repr, Inhabited

/-- The state fetchTasks works on: the dispatcher, the server host name
configured (util.GetServerHost), the outcomes of the coming requests for the
task list (a request beyond the list fails), and records of what was handed to
SendFiles and DoSessionTask and of the events the dispatchers issued. -/
structure FetchWorld where
  agent : Agent
  serverHost : String
  answers : List FetchAnswer
  sendFilesCalls : List (List SendFileTaskInfo)
  sessionCalls : List (List SessionTaskInfo)
  events : List Event
deriving DecidableEq, Repr, Inhabited

/-- Function FetchTaskList: the batch, and the world after the request. -/
def FetchTaskList (reason : FetchReason) (_taskId : String) (_taskType : Int)
    (_isColdstart : Bool) (w : FetchWorld) : taskCollection × FetchWorld :=
  if w.serverHost = "" then (newTaskCollection, w)
  else if reason ≠ FetchOnKickoff ∧ reason ≠ FetchOnStartup then (newTaskCollection, w)
  else
    match w.answers with
    | [] => (newTaskCollection, w)
    | .failed _ :: answers => (newTaskCollection, { w with answers := answers })
    | .response unmarshalled :: answers =>
      (parseTaskInfo unmarshalled, { w with answers := answers })

/-- The loop of fetchTasks over the stop records; none when a call of
dispatchStopTask ends in a runtime error. -/
def dispatchStopTasks (h : Host) (now : Time) :
    List RunTaskInfo → Agent → Option (Agent × List Event)
  | [], g => some (g, [])
  | v :: rest, g =>
    match dispatchStopTask h now v g with
    | none => none
    | some (g, events) =>
      match dispatchStopTasks h now rest g with
      | none => none
      | some (g, more) => some (g, events ++ more)

/-- Function fetchTasks: the world after the call and the count returned; none
when a dispatcher ends in a runtime error.  The timer service, the host and the
wall-clock reading now are those the dispatchers meet during the call. -/
def fetchTasks (ts : TimerService) (h : Host) (now : Time) (reason : FetchReason)
    (taskId : String) (taskType : Int) (isColdstart : Bool) (w : FetchWorld) :
    Option (FetchWorld × Int) :=
  let (taskInfos, w) := FetchTaskList reason taskId taskType isColdstart w
  let w := { w with sendFilesCalls := w.sendFilesCalls ++ [taskInfos.sendFiles] }
  let w := { w with sessionCalls := w.sessionCalls ++ [taskInfos.sessionInfos] }
  let g := taskInfos.runInfos.foldl (fun g v => dispatchRunTask ts v g) w.agent
  match dispatchStopTasks h now taskInfos.stopInfos g with
  | none => none
  | some (g, events) =>
    let g := taskInfos.testInfos.foldl (fun g v => dispatchTestTask v g) g
    some ({ w with agent := g, events := w.events ++ events },
      (taskInfos.runInfos.length : Int) + (taskInfos.stopInfos.length : Int) +
        (taskInfos.sessionInfos.length : Int) + (taskInfos.sendFiles.length : Int))

/-- Function fetchTasks as the callee of Fetch.  The world none is a process
that a runtime error has ended: nothing happens in it any more. -/
def fetchTasksOrCrash (ts : TimerService) (h : Host) (now : Time) (reason : FetchReason)
    (taskId : String) (taskType : Int) (isColdstart : Bool) (w : Option FetchWorld) :
    Option FetchWorld × Int :=
  match w with
  | none => (none, 0)
  | some w =>
    match fetchTasks ts h now reason taskId taskType isColdstart w with
    | none => (none, 0)
    | some (w, task_size) => (some w, task_size)

/-- Is the running output sent so far within the quota of the task?  Then the
slice in getReportString is in bounds. -/
def Task.WithinQuota (t : Task) : Prop :=
  (t.data_sended : Int) ≤ max t.taskInfo.Output.LogQuota 12000

/-- Invariant of the dispatcher: every task of the Task Factory and every
reusable invocation is within its quota. -/
def Agent.WithinQuota (g : Agent) : Prop :=
  (∀ e ∈ g.engine.taskFactory, e.2.WithinQuota) ∧
  (∀ e ∈ g.schedules, e.2.reusableInvocation.WithinQuota)

/-! ## Concrete inputs -/

/-- A one-shot shell task with LogQuota 100. -/
def demoInfo : RunTaskInfo :=
  { InstanceId := "i-1"
    CommandType := "RunShellScript"
    TaskId := "t-1"
    CommandId := "c-1"
    EnableParameter := false
    TimeOut := "60"
    CommandName := ""
    Content := "ZWNobyBoaQ=="
    WorkingDir := ""
    Args := ""
    Cronat := ""
    Username := ""
    Password := ""
    CreationTime := 0
    Output := { Interval := 0, LogQuota := 100, SkipEmpty := false, SendStart := false }
    Repeat := "Once"
    EnvironmentArguments := [] }

def demoTask : Task := NewTask demoInfo none false

/-- A Linux host on which every step of Run succeeds; the child prints "hi\n"
and exits with code 0 two seconds after its start. -/
def demoHost : Host :=
  { GOOS := "linux"
    G_IsWindows := false
    GetDefaultLang := 0x409
    GbkToUtf8 := id
    Utf8ToGbk := id
    wrapErrNoEnoughSpace := 1
    wrapErrGetScriptPathFailed := 2
    wrapErrUnknownCommandType := 3
    wrapErrBase64DecodeFailed := 4
    wrapErrResolveEnvironmentParameterFailed := 5
    wrapErrScriptFileExisted := 6
    wrapErrSaveScriptFileFailed := 7
    wrapErrSetExecutablePermissionFailed := 8
    wrapErrSetWindowsPermissionFailed := 9
    wrapErrPowershellNotFound := 10
    wrapErrSystemDefaultShellNotFound := 11
    wrapErrExecuteScriptFailed := 12
    presetErrorPrefixes := fun _ => "PresetError"
    categorizeSyscallErrno := fun _ code => (code, "ExecuteScriptFailed")
    IsNoEnoughSpaceError := fun _ => false
    exitcodePoweroff := 193
    exitcodeReboot := 194
    GetUserCredentials := fun _ => none
    IsUserValid := fun _ _ => none
    base64Decode := fun _ => .ok "echo hi"
    detectHomeDirectory := fun _ => .ok "/root"
    detectWorkingDirectory := fun _ => .ok "/root"
    GetScriptPath := .ok "/var/scripts"
    ResolveEnvironmentParameters := fun s _ => .ok s
    ReplaceAllParameterStore := fun s => .ok s
    SaveScriptFile := fun _ _ => none
    Chmod := fun _ => none
    Atoi := fun _ => some 60
    LookPath := fun _ => none
    startNow := ⟨1000000000⟩
    tickWrites := []
    lastWrites := ([104, 105, 10], [])
    SyncRun := (0, ProcStatus.Success, none)
    endNow := ⟨3000000000⟩ }

/-- The demo host, except that setting the permission of the script fails. -/
def chmodFailHost : Host :=
  { demoHost with Chmod := fun _ => some ⟨"operation not permitted", []⟩ }

/-- The demo host, except that the child is killed at its deadline. -/
def timeoutHost : Host :=
  { demoHost with SyncRun := (1, ProcStatus.Timeout, some ⟨"timeout", []⟩) }

/-- State of Run on the demo host when SyncRun has returned. -/
def demoEnded : Ended :=
  { task := { demoTask with startTime := ⟨1000000000⟩, monotonicStartTimestamp := 1000 }
    events := []
    status := ProcStatus.Success
    err := none
    stdoutWrite := [104, 105, 10]
    stderrWrite := []
    ScriptToDelete := "" }

/-- A cron task, fired every minute. -/
def periodInfo : RunTaskInfo :=
  { demoInfo with TaskId := "t-cron", Cronat := "0 * * * * *", Repeat := "Period" }

/-- A run record of kind Rate. -/
def rateInfo : RunTaskInfo :=
  { demoInfo with TaskId := "t-rate", Cronat := "rate(5 minutes)", Repeat := "Rate" }

/-- A run record of kind At. -/
def atInfo : RunTaskInfo :=
  { demoInfo with TaskId := "t-at", Cronat := "at(2026-01-01 00:00:00)", Repeat := "At" }

/-- A timer service that creates and starts every timer. -/
def okTimers : TimerService := { createErr := fun _ => none, runErr := fun _ => none }

/-- The dispatcher after startup: timer manager initialised, nothing registered. -/
def readyAgent : Agent := { Agent.init with timerManager := some ⟨[], 0⟩ }

/-- The dispatcher after the cron task has been dispatched to run. -/
def cronAgent : Agent := dispatchRunTask okTimers periodInfo readyAgent

/-- The schedule registered for the cron task. -/
def cronSchedule : PeriodicTaskSchedule :=
  { timer := some 0, reusableInvocation := NewTask periodInfo none false }

/-- The dispatcher after the timer of the cron task has fired once. -/
def firedAgent : Agent :=
  { cronAgent with engine := cronSchedule.startExclusiveInvocation cronAgent.engine }

/-- The dispatcher after the one-shot demo task has been dispatched to run. -/
def busyAgent : Agent := dispatchRunTask okTimers demoInfo readyAgent

/-- A callee for Fetch that counts its calls and answers 0 to the first call
and 3 to every later one. -/
def countingFetchTasks (_ : FetchReason) (_ : String) (_ : Int) (_ : Bool) (calls : Nat) :
    Nat × Int :=
  (calls + 1, if calls = 0 then 0 else 3)

def demoGlobals : FetchGlobals := { enabled := true, counter := 2, lock := .free }

/-- A record whose command type is none of the three known and whose content
is not base64. -/
def badTypeInfo : RunTaskInfo :=
  { demoInfo with TaskId := "t-bad", CommandType := "RunPython", Content := "%%%" }

/-- The demo host, except that no content decodes as base64. -/
def noDecodeHost : Host :=
  { demoHost with base64Decode := fun _ => .error ⟨"illegal base64 data at input byte 0", []⟩ }

/-- The demo host, except that the home directory cannot be resolved. -/
def noHomeHost : Host :=
  { demoHost with detectHomeDirectory := fun _ => .error ⟨"HomeDirectoryNotAvailable", []⟩ }

/-- The demo task on a host that parses TimeOut as Go does, with an empty
TimeOut. -/
def noTimeOutTask : Task := NewTask { demoInfo with TimeOut := "" } none false

/-- The demo host with the parser of the Go library. -/
def parsingHost : Host := { demoHost with Atoi := strconvAtoi }

/-- A clock read on 2023-11-14 22:13:20 UTC in the zone Asia/Shanghai. -/
def demoClock : WallClock :=
  { GetAccurateTime := 1700000000000
    Now := ⟨1700000000000000000⟩
    ZoneOffset := fun _ _ => 28800
    NowWithTimezoneName := (⟨1700000000000000000⟩, 28800, "Asia/Shanghai")
    QueryEscape := fun s =>
      String.mk (s.toList.flatMap (fun ch => if ch = '/' then ['%', '2', 'F'] else [ch])) }

/-- A channel manager whose first three calls of SelectAvailableChannel fail
and whose fourth succeeds. -/
def recoveringMgr : ChannelMgr :=
  { ChannelNone := 0
    ChannelGshellType := 1
    selectErr := fun k => if k < 3 then some ⟨"channel not available", []⟩ else none
    currentChannelType := fun _ => 2
    ChannelTypeStr := fun _ => "websocket" }

/-- A channel manager with no channel to offer. -/
def deadMgr : ChannelMgr :=
  { recoveringMgr with selectErr := fun _ => some ⟨"channel not available", []⟩ }

/-- A started gshell channel. -/
def workingChannel : GshellChannel :=
  { Working := true, hGshellOpen := true, readerRunning := true }

/-- A test record for the cron task. -/
def testInfo : RunTaskInfo := { periodInfo with TaskId := "t-test" }

/-- The demo host, except that the child writes before two firings of the
ticker: "hi" on stdout and "e" on stderr, then a newline on stdout. -/
def chattyHost : Host :=
  { demoHost with tickWrites := [([104, 105], [101]), ([10], [])] }

/-- A test record for the demo task, as fetched. -/
def testRecord : taskInfo :=
  { TaskInfo := { demoInfo with TaskId := "t-test" }, OutputInfo := demoInfo.Output,
    Repeat := "Once" }

/-- A run record for the demo task, as fetched. -/
def runRecord : taskInfo :=
  { TaskInfo := demoInfo, OutputInfo := demoInfo.Output, Repeat := "Once" }

/-- The dispatcher after startup, with a server that answers the first request
with one test record and the second with one run record. -/
def kickWorld : FetchWorld :=
  { agent := readyAgent
    serverHost := "https://axt.example"
    answers :=
      [FetchAnswer.response (some ⟨[], [], [testRecord], [], [], "i-1"⟩),
       FetchAnswer.response (some ⟨[runRecord], [], [], [], [], "i-1"⟩)]
    sendFilesCalls := []
    sessionCalls := []
    events := [] }

/-- The demo host, except that the wall clock is set back while the child
runs: the reading after the child has ended precedes the reading at its start. -/
def clockSetBackHost : Host := { demoHost with endNow := ⟨500000000⟩ }

/-- The demo host, except that the working directory does not exist. -/
def noWorkDirHost : Host :=
  { demoHost with
    detectWorkingDirectory := fun _ =>
      .error ⟨"WorkingDirectoryNotExist", ["WorkingDirectoryNotExist"]⟩ }

/-! ## Lemmas -/

theorem quoto_eq_max (q : Int) :
    (if q < defaultQuoto then defaultQuoto else q) = max q 12000 := by
  unfold defaultQuoto
  split <;> omega

theorem sliceFrom_eq (b : Bytes) (i : Nat) (hi : i ≤ b.length) :
    sliceFrom b (i : Int) = some (b.drop i) := by
  unfold sliceFrom
  rw [if_pos]
  · simp
  · exact ⟨Int.natCast_nonneg i, by exact_mod_cast hi⟩

theorem getReportString_fits (task : Task) (output : Bytes)
    (hfit : (output.length : Int) ≤
      max task.taskInfo.Output.LogQuota 12000 - (task.data_sended : Int)) :
    getReportString task output = some (output, task) := by
  unfold getReportString
  simp only [quoto_eq_max]
  rw [if_pos hfit]

theorem getReportString_over (task : Task) (output : Bytes)
    (hS : (task.data_sended : Int) ≤ max task.taskInfo.Output.LogQuota 12000)
    (hover : ¬ (output.length : Int) ≤
      max task.taskInfo.Output.LogQuota 12000 - (task.data_sended : Int)) :
    getReportString task output =
      some (output.drop (output.length -
          (max task.taskInfo.Output.LogQuota 12000 - (task.data_sended : Int)).toNat),
        { task with droped := (output.length : Int) -
            (max task.taskInfo.Output.LogQuota 12000 - (task.data_sended : Int)) }) := by
  unfold getReportString
  simp only [quoto_eq_max]
  rw [if_neg hover]
  have hd : (output.length : Int) -
      (max task.taskInfo.Output.LogQuota 12000 - (task.data_sended : Int)) =
      ((output.length - (max task.taskInfo.Output.LogQuota 12000 -
        (task.data_sended : Int)).toNat : Nat) : Int) := by
    omega
  rw [hd, sliceFrom_eq _ _ (Nat.sub_le _ _)]

/-- Within quota, getReportString returns, and changes no field but droped. -/
theorem getReportString_some (task : Task) (output : Bytes)
    (hS : (task.data_sended : Int) ≤ max task.taskInfo.Output.LogQuota 12000) :
    ∃ report dropped, getReportString task output = some (report, { task with droped := dropped }) := by
  by_cases hfit : (output.length : Int) ≤
      max task.taskInfo.Output.LogQuota 12000 - (task.data_sended : Int)
  · exact ⟨output, task.droped, getReportString_fits task output hfit⟩
  · exact ⟨_, _, getReportString_over task output hS hfit⟩

theorem ToAccurateTime_mono (a b : Time) (hab : a.unixNano ≤ b.unixNano) :
    ToAccurateTime a ≤ ToAccurateTime b := by
  unfold ToAccurateTime
  exact Int.ediv_le_ediv (by decide) hab

theorem ToStableElapsedTime_ge (endTime startTime : Time) :
    ToAccurateTime startTime ≤ ToAccurateTime (ToStableElapsedTime endTime startTime) := by
  apply ToAccurateTime_mono
  unfold ToStableElapsedTime
  simp only
  omega

/-- What Cancel does on a task within quota. -/
theorem Cancel_spec (h : Host) (now : Time) (task : Task)
    (hS : (task.data_sended : Int) ≤ max task.taskInfo.Output.LogQuota 12000) :
    ∃ report dropped,
      Cancel h now task = some
        ({ task with
            canceled := true
            endTime := now
            monotonicEndTimestamp :=
              if task.startTime.IsZero then ToAccurateTime now
              else ToAccurateTime (ToStableElapsedTime now task.startTime)
            droped := dropped },
         [Event.stoppedOutput task.taskInfo.TaskId task.monotonicStartTimestamp
            (if task.startTime.IsZero then ToAccurateTime now
              else ToAccurateTime (ToStableElapsedTime now task.startTime))
            task.exit_code dropped (convertOutput h report) stopReasonKilled,
          Event.processerCancel]) := by
  unfold Cancel
  by_cases hz : task.startTime.IsZero = true
  · simp only [hz, if_true]
    obtain ⟨report, dropped, hr⟩ := getReportString_some
      { task with canceled := true, endTime := now, monotonicEndTimestamp := ToAccurateTime now }
      task.output hS
    refine ⟨report, dropped, ?_⟩
    rw [hr]
    simp [sendOutput]
  · simp only [hz]
    obtain ⟨report, dropped, hr⟩ := getReportString_some
      { task with canceled := true, endTime := now,
                  monotonicEndTimestamp := ToAccurateTime (ToStableElapsedTime now task.startTime) }
      task.output hS
    refine ⟨report, dropped, ?_⟩
    simp only [Bool.false_eq_true, if_false]
    rw [hr]
    simp [sendOutput]

/-- One firing of the ticker reads at most 2048 bytes. -/
theorem tryRead_length_le (stdoutWrite stderrWrite : Bytes) :
    (tryRead stdoutWrite stderrWrite []).2.2.length ≤ 2048 := by
  simp only [tryRead, read1024, List.nil_append, List.length_append, List.length_take]
  omega

/-- The running-output goroutine changes no field but data_sended, keeps it
at most 8048 and issues running-output events only. -/
theorem sendRunningTicks_spec (h : Host) (ws : List (Bytes × Bytes)) :
    ∀ (stopped : Bool) (task : Task) (stdoutWrite stderrWrite : Bytes),
      task.data_sended ≤ 8048 →
      ∃ n, n ≤ 8048 ∧
        (sendRunningTicks h ws stopped task stdoutWrite stderrWrite).1 =
          { task with data_sended := n } ∧
        (sendRunningTicks h ws stopped task stdoutWrite stderrWrite).2.2.2.filter
          (fun x => x.isRunTerminal || x.isCanceledReport) = [] := by
  induction ws with
  | nil =>
    intro stopped task so se hb
    exact ⟨task.data_sended, hb, rfl, rfl⟩
  | cons w ws ih =>
    intro stopped task so se hb
    unfold sendRunningTicks
    by_cases hst : stopped = true
    · simp only [hst, if_true]
      exact ih true task _ _ hb
    · simp only [hst, Bool.false_eq_true, if_false]
      by_cases hq : task.data_sended > defaultQuotoPre
      · simp only [hq, if_true]
        exact ih true task _ _ hb
      · simp only [hq, if_false]
        have hlen := tryRead_length_le (so ++ w.1) (se ++ w.2)
        have hq' : task.data_sended ≤ 6000 := by
          unfold defaultQuotoPre at hq
          omega
        have hnew : (task.data_sended +
            (tryRead (so ++ w.1) (se ++ w.2) []).2.2.length) % 2 ^ 32 ≤ 8048 := by
          rw [Nat.mod_eq_of_lt] <;> omega
        obtain ⟨n, hn, h1, h2⟩ := ih false
          { task with data_sended := (task.data_sended +
              (tryRead (so ++ w.1) (se ++ w.2) []).2.2.length) % 2 ^ 32 }
          (tryRead (so ++ w.1) (se ++ w.2) []).1 (tryRead (so ++ w.1) (se ++ w.2) []).2.1 hnew
        refine ⟨n, hn, ?_, ?_⟩
        · simp only [h1]
        · simp only [List.filter_append, h2, List.append_nil]
          unfold sendRunningOutput
          split <;> rfl

/-- Events issued by Run after its terminal report: removal of the script and
the power action. -/
theorem runFinish_tail_no_report (scriptToDelete : String) (status : ProcStatus)
    (exit_code poweroff reboot : Int) :
    ((if scriptToDelete ≠ "" then [Event.removeFile scriptToDelete] else []) ++
      (if status = ProcStatus.Success then
        if exit_code = poweroff then [Event.powerdown]
        else if exit_code = reboot then [Event.reboot]
        else []
      else [])).filter (fun x => x.isRunTerminal || x.isCanceledReport) = [] := by
  repeat' split
  all_goals rfl

/-- The last part of Run on a task within quota: it returns, and what it posts. -/
theorem runFinish_spec (h : Host) (e : Ended)
    (hS : (e.task.data_sended : Int) ≤ max e.task.taskInfo.Output.LogQuota 12000) :
    ∃ report dropped tail,
      tail.filter (fun x => x.isRunTerminal || x.isCanceledReport) = [] ∧
      runFinish h e = some
        { code := 0
          err := none
          task :=
            { e.task with
              output := []
              endTime := h.endNow
              monotonicEndTimestamp :=
                ToAccurateTime (ToStableElapsedTime h.endNow e.task.startTime)
              droped := dropped }
          events := e.events ++
            ((match e.status, e.err with
             | ProcStatus.Fail, none =>
               [Event.errorOutput e.task.taskInfo.TaskId e.task.monotonicStartTimestamp
                  (ToAccurateTime (ToStableElapsedTime h.endNow e.task.startTime))
                  e.task.exit_code dropped none (convertOutput h report)]
                ++ (if e.task.onFinish then [Event.onFinish] else [])
             | ProcStatus.Fail, some err =>
               SendError h
                 { e.task with
                   monotonicEndTimestamp :=
                     ToAccurateTime (ToStableElapsedTime h.endNow e.task.startTime)
                   droped := dropped }
                 report (h.categorizeSyscallErrno err h.wrapErrExecuteScriptFailed).1
                 ((h.categorizeSyscallErrno err h.wrapErrExecuteScriptFailed).2 ++ ": " ++ err.msg)
             | ProcStatus.Timeout, _ =>
               [Event.timeoutOutput e.task.taskInfo.TaskId e.task.monotonicStartTimestamp
                  (ToAccurateTime (ToStableElapsedTime h.endNow e.task.startTime))
                  e.task.exit_code dropped (convertOutput h report)]
                ++ (if e.task.onFinish then [Event.onFinish] else [])
             | _, _ =>
               if e.task.canceled = false then
                 [Event.finishOutput e.task.taskInfo.TaskId e.task.monotonicStartTimestamp
                    (ToAccurateTime (ToStableElapsedTime h.endNow e.task.startTime))
                    e.task.exit_code dropped (convertOutput h report)]
                  ++ (if e.task.onFinish then [Event.onFinish] else [])
               else []) ++ tail) } := by
  obtain ⟨report, dropped, hr⟩ := getReportString_some
    { e.task with
      output := (tryReadAll e.stdoutWrite e.stderrWrite e.task.output).2.2
      endTime := h.endNow
      monotonicEndTimestamp := ToAccurateTime (ToStableElapsedTime h.endNow e.task.startTime) }
    (tryReadAll e.stdoutWrite e.stderrWrite e.task.output).2.2 hS
  dsimp only at hr
  by_cases hcan : e.task.canceled = false
  · refine ⟨report, dropped, _, runFinish_tail_no_report e.ScriptToDelete e.status
      e.task.exit_code h.exitcodePoweroff h.exitcodeReboot, ?_⟩
    unfold runFinish reportTerminal
    rcases hst : e.status with _ | _ | _ | _ <;> rcases herr : e.err with _ | err <;>
      simp only [hr, reduceCtorEq, if_false, if_true] <;>
      simp [hcan, IsCancled, sendOutput, SendError, List.append_assoc]
  · refine ⟨report, if e.status = ProcStatus.Fail ∨ e.status = ProcStatus.Timeout then dropped
        else e.task.droped, _, runFinish_tail_no_report e.ScriptToDelete e.status
      e.task.exit_code h.exitcodePoweroff h.exitcodeReboot, ?_⟩
    unfold runFinish reportTerminal
    rcases hst : e.status with _ | _ | _ | _ <;> rcases herr : e.err with _ | err <;>
      simp only [hr, reduceCtorEq, if_false, if_true] <;>
      simp [hcan, IsCancled, sendOutput, SendError, List.append_assoc]

/-- The middle part of Run without a concurrent Cancel: it returns, the task
differs in data_sended (at most 8048) and exit_code only, and no report is
posted. -/
theorem runChild_spec (h : Host) (p : Prepared) :
    ∃ n evs stdoutWrite stderrWrite, n ≤ 8048 ∧
      evs.filter (fun x => x.isRunTerminal || x.isCanceledReport) = [] ∧
      runChild h p none = some
        { task := { p.task with data_sended := n, exit_code := h.SyncRun.1 }
          events := p.events ++ evs
          status := h.SyncRun.2.1
          err := h.SyncRun.2.2
          stdoutWrite := stdoutWrite
          stderrWrite := stderrWrite
          ScriptToDelete := p.ScriptToDelete } := by
  obtain ⟨n, hn, h1, h2⟩ := sendRunningTicks_spec h h.tickWrites
    (decide (p.task.taskInfo.Cronat ≠ "")) { p.task with data_sended := 0 } [] []
    (Nat.zero_le _)
  refine ⟨n,
    ((if p.task.taskInfo.Username ≠ "" then [Event.setUserInfo p.task.taskInfo.Username] else [])
      ++ (if p.task.taskInfo.Password ≠ "" then [Event.setPasswordInfo p.task.taskInfo.Password]
          else [])
      ++ (if p.task.envHomeDir ≠ "" then [Event.setHomeDir p.task.envHomeDir] else [])
      ++ [Event.syncRun p.task.realWorkingDir p.fileName p.args p.timeout]) ++
      (sendRunningTicks h h.tickWrites (decide (p.task.taskInfo.Cronat ≠ ""))
        { p.task with data_sended := 0 } [] []).2.2.2,
    (sendRunningTicks h h.tickWrites (decide (p.task.taskInfo.Cronat ≠ ""))
        { p.task with data_sended := 0 } [] []).2.1 ++ h.lastWrites.1,
    (sendRunningTicks h h.tickWrites (decide (p.task.taskInfo.Cronat ≠ ""))
        { p.task with data_sended := 0 } [] []).2.2.1 ++ h.lastWrites.2,
    hn, ?_, ?_⟩
  · simp only [List.filter_append, h2, List.append_nil]
    repeat' split
    all_goals rfl
  · unfold runChild
    simp only [h1, List.append_assoc, List.append_nil]

/-- Early returns of Run carry an error; at the launch of the child the start
timestamp is the Unix-millisecond reading of startTime. -/
theorem runPrepare_spec (h : Host) (task : Task) :
    match runPrepare h task with
    | .error outcome => outcome.err ≠ none
    | .ok p => p.task.monotonicStartTimestamp = ToAccurateTime p.task.startTime := by
  generalize hp : runPrepare h task = r
  unfold runPrepare at hp
  dsimp only at hp
  repeat' split at hp
  all_goals subst hp
  all_goals simp

/-- Run always returns when no other goroutine interferes: the running-output
budget keeps data_sended below the quota, so the slice in getReportString is
in bounds. -/
theorem Run_spec (h : Host) (task : Task) :
    ∃ o, Run h task = some o ∧
      (o.err = none → o.task.monotonicStartTimestamp ≤ o.task.monotonicEndTimestamp) := by
  unfold Run
  have hprep := runPrepare_spec h task
  rcases hp : runPrepare h task with outcome | p
  · rw [hp] at hprep
    exact ⟨outcome, rfl, fun hnone => absurd hnone hprep⟩
  · rw [hp] at hprep
    obtain ⟨n, evs, so, se, hn, -, hchild⟩ := runChild_spec h p
    have hS : (n : Int) ≤ max p.task.taskInfo.Output.LogQuota 12000 := by
      have : (n : Int) ≤ 8048 := by exact_mod_cast hn
      omega
    obtain ⟨report, dropped, tail, -, hfin⟩ := runFinish_spec h
      { task := { p.task with data_sended := n, exit_code := h.SyncRun.1 }
        events := p.events ++ evs
        status := h.SyncRun.2.1
        err := h.SyncRun.2.2
        stdoutWrite := so
        stderrWrite := se
        ScriptToDelete := p.ScriptToDelete } hS
    simp only [hchild, hfin]
    refine ⟨_, rfl, fun _ => ?_⟩
    simp only [hprep]
    exact ToStableElapsedTime_ge h.endNow p.task.startTime

theorem tryReadAll_small (a b out : Bytes) (ha : a.length ≤ 1024) (hb : b.length ≤ 1024) :
    tryReadAll a b out = ([], [], out ++ a ++ b) := by
  have hta : List.take 1024 a = a := List.take_of_length_le ha
  have htb : List.take 1024 b = b := List.take_of_length_le hb
  have hda : List.drop 1024 a = [] := List.drop_of_length_le ha
  have hdb : List.drop 1024 b = [] := List.drop_of_length_le hb
  rw [tryReadAll]
  simp only [read1024, hta, htb, hda, hdb]
  split
  · rename_i hc
    have h1 : b = [] := List.length_eq_zero.mp hc.1
    have h2 : a = [] := List.length_eq_zero.mp hc.2
    subst h1 h2
    rfl
  · rw [tryReadAll]
    simp [read1024]

theorem ContainsTaskByName_iff (f : TaskFactory) (name : String) :
    f.ContainsTaskByName name = true ↔ ∃ e ∈ f, e.1 = name := by
  unfold TaskFactory.ContainsTaskByName
  simp [List.any_eq_true]

theorem ContainsTaskByName_AddTask (f : TaskFactory) (t : Task) (name : String) :
    (f.AddTask t).ContainsTaskByName name = true ↔
      t.taskInfo.TaskId = name ∨ f.ContainsTaskByName name = true := by
  simp only [ContainsTaskByName_iff, TaskFactory.AddTask, TaskFactory.RemoveTaskByName,
    List.mem_cons, List.mem_filter, decide_eq_true_eq]
  constructor
  · rintro ⟨e, he | ⟨he, -⟩, hn⟩
    · left; rw [← hn, he]
    · right; exact ⟨e, he, hn⟩
  · rintro (hn | ⟨e, he, hn⟩)
    · exact ⟨_, Or.inl rfl, hn⟩
    · by_cases hid : e.1 = t.taskInfo.TaskId
      · exact ⟨_, Or.inl rfl, by rw [← hid, hn]⟩
      · exact ⟨e, Or.inr ⟨he, hid⟩, hn⟩

theorem ContainsTaskByName_RemoveTaskByName (f : TaskFactory) (removed name : String) :
    (f.RemoveTaskByName removed).ContainsTaskByName name = true ↔
      name ≠ removed ∧ f.ContainsTaskByName name = true := by
  simp only [ContainsTaskByName_iff, TaskFactory.RemoveTaskByName, List.mem_filter,
    decide_eq_true_eq]
  constructor
  · rintro ⟨e, ⟨he, hne⟩, hn⟩
    exact ⟨by rw [← hn]; exact hne, e, he, hn⟩
  · rintro ⟨hne, e, he, hn⟩
    exact ⟨e, ⟨he, by rw [hn]; exact hne⟩, hn⟩

theorem countP_removeFirstJob (removed name : String) (jobs : List Task) :
    (removeFirstJob removed jobs).countP (fun t => decide (t.taskInfo.TaskId = name)) =
      if removed = name then
        jobs.countP (fun t => decide (t.taskInfo.TaskId = name)) - 1
      else jobs.countP (fun t => decide (t.taskInfo.TaskId = name)) := by
  induction jobs with
  | nil => simp [removeFirstJob]
  | cons t ts ih =>
    unfold removeFirstJob
    by_cases ht : t.taskInfo.TaskId = removed
    · rw [if_pos ht]
      by_cases hn : removed = name
      · rw [if_pos hn, List.countP_cons_of_pos _ _ (by simp [ht, hn])]
        simp
      · rw [if_neg hn, List.countP_cons_of_neg _ _ (by simp [ht, hn])]
    · rw [if_neg ht, List.countP_cons, ih, List.countP_cons]
      by_cases hn : removed = name
      · have : ¬ t.taskInfo.TaskId = name := by rw [← hn]; exact ht
        simp [hn, this]
      · simp [hn]

theorem Exclusive_init : Engine.init.Exclusive := by
  intro taskId
  simp [Engine.init, Engine.inFlight]

theorem Exclusive_startExclusiveInvocation (s : PeriodicTaskSchedule) (g : Engine)
    (hg : g.Exclusive) : (s.startExclusiveInvocation g).Exclusive := by
  unfold PeriodicTaskSchedule.startExclusiveInvocation
  by_cases hc : g.taskFactory.ContainsTaskByName s.reusableInvocation.taskInfo.TaskId = true
  · rw [if_pos hc]; exact hg
  · rw [if_neg hc]
    intro taskId
    obtain ⟨h1, h2⟩ := hg taskId
    simp only [Engine.inFlight, List.countP_append, List.countP_cons, List.countP_nil,
      ContainsTaskByName_AddTask, decide_eq_true_eq] at h1 h2 ⊢
    by_cases hid : s.reusableInvocation.taskInfo.TaskId = taskId
    · have hzero : List.countP (fun t => decide (t.taskInfo.TaskId = taskId)) g.runPool = 0 := by
        by_contra hne
        exact hc (by rw [hid]; exact h2 (Nat.pos_of_ne_zero hne))
      simp [hid, hzero]
    · simp only [hid, if_false, Nat.add_zero, false_or]
      exact ⟨h1, h2⟩

theorem Exclusive_completeInvocation (g : Engine) (taskId : String) (hg : g.Exclusive) :
    (g.completeInvocation taskId).Exclusive := by
  intro name
  obtain ⟨h1, h2⟩ := hg name
  simp only [Engine.completeInvocation, Engine.inFlight, countP_removeFirstJob,
    ContainsTaskByName_RemoveTaskByName] at h1 h2 ⊢
  by_cases hn : taskId = name
  · rw [if_pos hn]
    constructor
    · omega
    · intro hpos; omega
  · rw [if_neg hn]
    exact ⟨h1, fun hpos => ⟨fun hc => hn hc.symm, h2 hpos⟩⟩

theorem Exclusive_of_Reachable (g : Engine) (hg : g.Reachable) : g.Exclusive := by
  induction hg with
  | init => exact Exclusive_init
  | step _ hs ih =>
    cases hs with
    | fire s => exact Exclusive_startExclusiveInvocation s _ ih
    | complete taskId _ => exact Exclusive_completeInvocation _ taskId ih

theorem TryLockWithTimeout_acquired (releasedInTime : Bool) (s : FetchGlobals)
    (hacq : (TryLockWithTimeout releasedInTime s).1 = true) :
    TryLockWithTimeout releasedInTime s = (true, { s with lock := LockOwner.fetcher }) := by
  unfold TryLockWithTimeout at hacq ⊢
  rcases hl : s.lock with _ | _ | _ <;> simp only [hl] at hacq ⊢
  · cases hacq
  · cases releasedInTime
    · cases hacq
    · rfl

theorem TryLockWithTimeout_refused (releasedInTime : Bool) (s : FetchGlobals)
    (hacq : (TryLockWithTimeout releasedInTime s).1 = false) :
    TryLockWithTimeout releasedInTime s = (false, s) := by
  unfold TryLockWithTimeout at hacq ⊢
  rcases hl : s.lock with _ | _ | _ <;> simp only [hl] at hacq ⊢
  · cases hacq
  · cases releasedInTime
    · rfl
    · cases hacq

/-- Fetch when fetching is enabled and the lock is acquired: one call of
fetchTasks, and a second one after a kick that found nothing. -/
theorem Fetch_acquired {W : Type}
    (fetchTasks : FetchReason → String → Int → Bool → W → W × Int)
    (releasedInTime from_kick : Bool) (taskId : String) (taskType : Int) (isColdstart : Bool)
    (s : FetchGlobals) (w : W)
    (henabled : s.enabled = true)
    (hacq : (TryLockWithTimeout releasedInTime s).1 = true) :
    Fetch fetchTasks releasedInTime from_kick taskId taskType isColdstart s w =
      (if from_kick = true ∧
          (fetchTasks FetchOnKickoff taskId taskType false w).2 = 0 then
        { task_size :=
            (fetchTasks FetchOnKickoff taskId taskType false
              (fetchTasks FetchOnKickoff taskId taskType false w).1).2
          globals := { s with lock := LockOwner.free, counter := s.counter + 1 + -1 }
          world :=
            (fetchTasks FetchOnKickoff taskId taskType false
              (fetchTasks FetchOnKickoff taskId taskType false w).1).1
          trace :=
            [FetchEvent.tryLockWithTimeout 2 true, FetchEvent.unlock,
             FetchEvent.fetchTasks FetchOnKickoff taskId taskType false
               { s with lock := LockOwner.free, counter := s.counter + 1 } 0,
             FetchEvent.sleep 3,
             FetchEvent.fetchTasks FetchOnKickoff taskId taskType false
               { s with lock := LockOwner.free, counter := s.counter + 1 }
               (fetchTasks FetchOnKickoff taskId taskType false
                 (fetchTasks FetchOnKickoff taskId taskType false w).1).2] }
      else
        { task_size :=
            (fetchTasks (if from_kick then FetchOnKickoff else FetchOnStartup) taskId taskType
              (if from_kick then false else isColdstart) w).2
          globals := { s with lock := LockOwner.free, counter := s.counter + 1 + -1 }
          world :=
            (fetchTasks (if from_kick then FetchOnKickoff else FetchOnStartup) taskId taskType
              (if from_kick then false else isColdstart) w).1
          trace :=
            [FetchEvent.tryLockWithTimeout 2 true, FetchEvent.unlock,
             FetchEvent.fetchTasks (if from_kick then FetchOnKickoff else FetchOnStartup)
               taskId taskType (if from_kick then false else isColdstart)
               { s with lock := LockOwner.free, counter := s.counter + 1 }
               (fetchTasks (if from_kick then FetchOnKickoff else FetchOnStartup) taskId
                 taskType (if from_kick then false else isColdstart) w).2] }) := by
  unfold Fetch
  rw [if_neg (by simp [henabled]), TryLockWithTimeout_acquired releasedInTime s hacq]
  cases from_kick
  · simp [fetchRetry]
  · by_cases hzero : (fetchTasks FetchOnKickoff taskId taskType false w).2 = 0
    · simp [fetchRetry, hzero]
    · simp [fetchRetry, hzero]

theorem ScheduleMap.lookup_eq_none (m : ScheduleMap) (taskId : String) :
    m.lookup taskId = none ↔ taskId ∉ m.map Prod.fst := by
  unfold ScheduleMap.lookup
  simp only [Option.map_eq_none', List.find?_eq_none, decide_eq_true_eq, List.mem_map,
    not_exists, not_and]

theorem ScheduleMap.lookup_some_mem (m : ScheduleMap) (taskId : String)
    (s : PeriodicTaskSchedule) (hs : m.lookup taskId = some s) : (taskId, s) ∈ m := by
  unfold ScheduleMap.lookup at hs
  rcases hfind : m.find? (fun e => decide (e.1 = taskId)) with _ | e
  · rw [hfind] at hs; cases hs
  · rw [hfind] at hs
    have hmem := List.mem_of_find?_eq_some hfind
    have hkey := List.find?_some hfind
    simp only [Option.map_some', Option.some.injEq] at hs
    simp only [decide_eq_true_eq] at hkey
    have : e = (taskId, s) := by
      rcases e with ⟨k, v⟩
      simp only at hs hkey
      rw [hs, hkey]
    rw [← this]
    exact hmem

theorem ScheduleMap.mem_delete (m : ScheduleMap) (taskId : String)
    (e : String × PeriodicTaskSchedule) :
    e ∈ m.delete taskId ↔ e ∈ m ∧ e.1 ≠ taskId := by
  simp [ScheduleMap.delete, List.mem_filter]

theorem ScheduleMap.delete_absent (m : ScheduleMap) (taskId : String)
    (habs : taskId ∉ m.map Prod.fst) : m.delete taskId = m := by
  unfold ScheduleMap.delete
  rw [List.filter_eq_self]
  intro e he
  simp only [decide_eq_true_eq]
  intro heq
  exact habs (List.mem_map.mpr ⟨e, he, heq⟩)

theorem ScheduleMap.insert_delete_absent (m : ScheduleMap) (taskId : String)
    (s : PeriodicTaskSchedule) (habs : taskId ∉ m.map Prod.fst) :
    (m.insert taskId s).delete taskId = m := by
  unfold ScheduleMap.insert
  rw [ScheduleMap.delete_absent m taskId habs]
  unfold ScheduleMap.delete
  rw [List.filter_cons_of_neg (by simp)]
  exact ScheduleMap.delete_absent m taskId habs

theorem ScheduleMap.keys_delete_nodup (m : ScheduleMap) (taskId : String)
    (hnd : (m.map Prod.fst).Nodup) : ((m.delete taskId).map Prod.fst).Nodup := by
  unfold ScheduleMap.delete
  exact hnd.sublist ((List.filter_sublist m).map Prod.fst)

theorem ScheduleMap.unique_of_nodup (m : ScheduleMap) (hnd : (m.map Prod.fst).Nodup)
    (e e' : String × PeriodicTaskSchedule) (he : e ∈ m) (he' : e' ∈ m) (hk : e.1 = e'.1) :
    e = e' := by
  induction m with
  | nil => cases he
  | cons x xs ih =>
    simp only [List.map_cons, List.nodup_cons, List.mem_map, not_exists, not_and] at hnd
    rcases List.mem_cons.mp he with h1 | h1 <;> rcases List.mem_cons.mp he' with h2 | h2
    · rw [h1, h2]
    · subst h1
      exact absurd hk.symm (hnd.1 e' h2)
    · subst h2
      exact absurd hk (hnd.1 e h1)
    · exact ih hnd.2 h1 h2

/-- Starting the newest timer leaves the older ones as they are. -/
theorem map_start_fresh (timers : List Timer) (handle : Nat)
    (hfresh : ∀ t ∈ timers, t.handle < handle) :
    timers.map (fun t => if t.handle = handle then { t with running := true } else t)
      = timers := by
  conv_rhs => rw [← List.map_id timers]
  apply List.map_congr_left
  intro t ht
  have := hfresh t ht
  rw [if_neg (by omega)]
  rfl

/-- Deleting the newest timer gives back the older ones. -/
theorem filter_delete_fresh (timers : List Timer) (handle : Nat)
    (hfresh : ∀ t ∈ timers, t.handle < handle) :
    timers.filter (fun t => decide (t.handle ≠ handle)) = timers := by
  rw [List.filter_eq_self]
  intro t ht
  have := hfresh t ht
  simp only [ne_eq, decide_not, Bool.not_eq_true', decide_eq_false_iff_not]
  omega

/-- Function schedulePeriodicTask without a timer manager. -/
theorem schedulePeriodicTask_uninitialized (ts : TimerService) (taskInfo : RunTaskInfo)
    (g : Agent) (htm : g.timerManager = none) :
    schedulePeriodicTask ts taskInfo g =
      (g, some ⟨"Global TimerManager instance is not initialized", []⟩) := by
  unfold schedulePeriodicTask
  rw [htm]

/-- Function schedulePeriodicTask on a registered TaskId. -/
theorem schedulePeriodicTask_registered (ts : TimerService) (taskInfo : RunTaskInfo)
    (g : Agent) (tm : TimerManager) (htm : g.timerManager = some tm)
    (hkey : taskInfo.TaskId ∈ g.schedules.map Prod.fst) :
    schedulePeriodicTask ts taskInfo g = (g, none) := by
  unfold schedulePeriodicTask
  rw [htm]
  rcases hl : g.schedules.lookup taskInfo.TaskId with _ | s
  · exact absurd hkey ((ScheduleMap.lookup_eq_none _ _).mp hl)
  · rfl

/-- Function schedulePeriodicTask on a TaskId that is not registered: the three
outcomes. -/
theorem schedulePeriodicTask_fresh (ts : TimerService) (taskInfo : RunTaskInfo)
    (g : Agent) (tm : TimerManager) (htm : g.timerManager = some tm)
    (hfresh : ∀ t ∈ tm.timers, t.handle < tm.nextHandle)
    (habs : taskInfo.TaskId ∉ g.schedules.map Prod.fst) :
    schedulePeriodicTask ts taskInfo g =
      match ts.createErr taskInfo.Cronat with
      | some err => (g, some err)
      | none =>
        match ts.runErr taskInfo.Cronat with
        | some err =>
          ({ g with timerManager := some ⟨tm.timers, tm.nextHandle + 1⟩ }, some err)
        | none =>
          ({ g with
             timerManager := some
               ⟨tm.timers ++ [⟨tm.nextHandle, taskInfo.TaskId, taskInfo.Cronat, true⟩],
                 tm.nextHandle + 1⟩
             schedules :=
               (taskInfo.TaskId, ⟨some tm.nextHandle, NewTask taskInfo none false⟩)
                 :: g.schedules }, none) := by
  unfold schedulePeriodicTask
  rw [htm, (ScheduleMap.lookup_eq_none _ _).mpr habs]
  simp only [TimerManager.CreateCronTimer]
  rcases hc : ts.createErr taskInfo.Cronat with _ | err
  · simp only [TimerManager.RunTimer]
    rcases hr : ts.runErr taskInfo.Cronat with _ | err
    · simp only [List.map_append, map_start_fresh tm.timers tm.nextHandle hfresh,
        List.map_cons, List.map_nil, if_true]
      simp only [ScheduleMap.insert, ScheduleMap.delete_absent g.schedules _ habs]
    · simp only [TimerManager.DeleteTimer, List.filter_append,
        filter_delete_fresh tm.timers tm.nextHandle hfresh,
        ScheduleMap.insert_delete_absent g.schedules _ _ habs]
      simp
  · rfl

/-- The invariant reads the schedule map and the timer manager only. -/
theorem SchedulesArmed_congr (g g' : Agent) (hs : g'.schedules = g.schedules)
    (htm : g'.timerManager = g.timerManager) (hinv : g.SchedulesArmed) :
    g'.SchedulesArmed := by
  unfold Agent.SchedulesArmed at hinv ⊢
  rw [hs, htm]
  exact hinv

theorem SchedulesArmed_init : Agent.init.SchedulesArmed := by
  refine ⟨List.nodup_nil, fun _ => rfl, ?_⟩
  intro tm htm
  cases htm

/-- In a state satisfying the invariant a TaskId is registered exactly when a
timer created for it is armed. -/
theorem scheduled_iff_armed (g : Agent) (hinv : g.SchedulesArmed) (taskId : String) :
    g.scheduled taskId ↔ g.armed taskId := by
  obtain ⟨-, hnone, hsome⟩ := hinv
  unfold Agent.scheduled Agent.armed
  constructor
  · intro hkey
    obtain ⟨e, he, hk⟩ := List.mem_map.mp hkey
    rcases htm : g.timerManager with _ | tm
    · rw [hnone htm] at he
      cases he
    · obtain ⟨-, -, h3, -⟩ := hsome tm htm
      obtain ⟨t, ht, -, hid, hrun⟩ := h3 e he
      exact ⟨tm, t, rfl, ht, by rw [hid, hk], hrun⟩
  · rintro ⟨tm, t, htm, ht, hid, -⟩
    obtain ⟨-, -, -, h4⟩ := hsome tm htm
    obtain ⟨-, e, he, hk, -⟩ := h4 t ht
    exact List.mem_map.mpr ⟨e, he, by rw [hk, hid]⟩

/-- A registered TaskId has an initialised timer manager. -/
theorem timerManager_of_scheduled (g : Agent) (hinv : g.SchedulesArmed) (taskId : String)
    (hkey : g.scheduled taskId) : ∃ tm, g.timerManager = some tm := by
  obtain ⟨tm, -, htm, -⟩ := (scheduled_iff_armed g hinv taskId).mp hkey
  exact ⟨tm, htm⟩

/-- Function schedulePeriodicTask keeps the invariant, whatever it returns. -/
theorem schedulePeriodicTask_SchedulesArmed (ts : TimerService) (taskInfo : RunTaskInfo)
    (g : Agent) (hinv : g.SchedulesArmed) :
    (schedulePeriodicTask ts taskInfo g).1.SchedulesArmed := by
  rcases htm : g.timerManager with _ | tm
  · rw [schedulePeriodicTask_uninitialized ts taskInfo g htm]
    exact hinv
  · by_cases hkey : taskInfo.TaskId ∈ g.schedules.map Prod.fst
    · rw [schedulePeriodicTask_registered ts taskInfo g tm htm hkey]
      exact hinv
    · have hinv0 := hinv
      obtain ⟨hnd, -, hsome⟩ := hinv
      obtain ⟨hh, hb, h3, h4⟩ := hsome tm htm
      rw [schedulePeriodicTask_fresh ts taskInfo g tm htm hb hkey]
      rcases hc : ts.createErr taskInfo.Cronat with _ | err
      · rcases hr : ts.runErr taskInfo.Cronat with _ | err
        · -- the timer is created and started
          refine ⟨?_, ?_, ?_⟩
          · simp only [List.map_cons, List.nodup_cons]
            exact ⟨hkey, hnd⟩
          · intro hnone
            cases hnone
          · intro tm' htm'
            simp only [Option.some.injEq] at htm'
            subst htm'
            refine ⟨?_, ?_, ?_, ?_⟩
            · simp only [List.map_append, List.map_cons, List.map_nil]
              rw [List.nodup_append]
              refine ⟨hh, List.nodup_singleton _, ?_⟩
              intro a ha hb'
              simp only [List.mem_singleton] at hb'
              obtain ⟨t, ht, hta⟩ := List.mem_map.mp ha
              have := hb t ht
              omega
            · intro t ht
              rcases List.mem_append.mp ht with h1 | h1
              · have := hb t h1
                simp only
                omega
              · simp only [List.mem_singleton] at h1
                subst h1
                simp
            · intro e he
              rcases List.mem_cons.mp he with h1 | h1
              · subst h1
                exact ⟨_, List.mem_append_right _ (List.mem_singleton_self _), rfl, rfl, rfl⟩
              · obtain ⟨t, ht, hrest⟩ := h3 e h1
                exact ⟨t, List.mem_append_left _ ht, hrest⟩
            · intro t ht
              rcases List.mem_append.mp ht with h1 | h1
              · obtain ⟨hrun, e, he, hrest⟩ := h4 t h1
                exact ⟨hrun, e, List.mem_cons_of_mem _ he, hrest⟩
              · simp only [List.mem_singleton] at h1
                subst h1
                exact ⟨rfl, _, List.mem_cons_self _ _, rfl, rfl⟩
        · -- starting the timer failed: the timer and the entry are deleted
          refine ⟨hnd, ?_, ?_⟩
          · intro hnone
            cases hnone
          · intro tm' htm'
            simp only [Option.some.injEq] at htm'
            subst htm'
            refine ⟨hh, ?_, h3, h4⟩
            intro t ht
            have := hb t ht
            simp only
            omega
      · exact hinv0

/-- Method getReportString changes no field of the task but droped. -/
theorem getReportString_frame (task : Task) (output report : Bytes) (task' : Task)
    (hr : getReportString task output = some (report, task')) :
    task' = { task with droped := task'.droped } := by
  unfold getReportString at hr
  dsimp only at hr
  repeat' split at hr
  all_goals first
    | (simp only [Option.some.injEq, Prod.mk.injEq] at hr
       obtain ⟨-, ht⟩ := hr
       rw [← ht])
    | cases hr

/-- Method Cancel keeps the task information and the output budget counters. -/
theorem Cancel_frame (h : Host) (now : Time) (task task' : Task) (events : List Event)
    (hc : Cancel h now task = some (task', events)) :
    task'.taskInfo = task.taskInfo ∧ task'.data_sended = task.data_sended ∧
    task'.canceled = true := by
  unfold Cancel at hc
  dsimp only at hc
  split at hc
  · cases hc
  · rename_i report t hr
    have hf := getReportString_frame _ _ _ _ hr
    simp only [Option.some.injEq, Prod.mk.injEq] at hc
    obtain ⟨ht, -⟩ := hc
    rw [← ht, hf]
    split <;> exact ⟨rfl, rfl, rfl⟩

/-- Function cancelPeriodicTask without a timer manager. -/
theorem cancelPeriodicTask_uninitialized (h : Host) (now : Time) (taskInfo : RunTaskInfo)
    (g : Agent) (htm : g.timerManager = none) :
    cancelPeriodicTask h now taskInfo g =
      some (g, some ⟨"Global TimerManager instance is not initialized", []⟩, []) := by
  unfold cancelPeriodicTask
  rw [htm]

/-- Function cancelPeriodicTask on a TaskId that is not registered. -/
theorem cancelPeriodicTask_unregistered (h : Host) (now : Time) (taskInfo : RunTaskInfo)
    (g : Agent) (tm : TimerManager) (htm : g.timerManager = some tm)
    (habs : taskInfo.TaskId ∉ g.schedules.map Prod.fst) :
    cancelPeriodicTask h now taskInfo g =
      some (g, some ⟨"Unregistered periodic task " ++ taskInfo.TaskId, []⟩, []) := by
  unfold cancelPeriodicTask
  rw [htm, (ScheduleMap.lookup_eq_none _ _).mpr habs]

/-- Function cancelPeriodicTask on a registered TaskId, when it returns: the
timer of the schedule is deleted, the entry is removed, the error is nil, and
in the Task Factory only the task stored under the TaskId may differ. -/
theorem cancelPeriodicTask_registered (h : Host) (now : Time) (taskInfo : RunTaskInfo)
    (g : Agent) (tm : TimerManager) (s : PeriodicTaskSchedule)
    (htm : g.timerManager = some tm) (hl : g.schedules.lookup taskInfo.TaskId = some s)
    (g' : Agent) (err : Option GoError) (events : List Event)
    (hres : cancelPeriodicTask h now taskInfo g = some (g', err, events)) :
    g'.timerManager = some (tm.DeleteTimer s.timer) ∧
    g'.schedules = g.schedules.delete taskInfo.TaskId ∧
    err = none ∧
    g'.precheckPool = g.precheckPool ∧
    g'.engine.runPool = g.engine.runPool ∧
    (g'.engine.taskFactory = g.engine.taskFactory ∨
      ∃ t t' ev, g.engine.taskFactory.GetTask taskInfo.TaskId = some t ∧
        Cancel h now t = some (t', ev) ∧
        g'.engine.taskFactory = g.engine.taskFactory.store taskInfo.TaskId t') := by
  unfold cancelPeriodicTask at hres
  rw [htm, hl] at hres
  dsimp only at hres
  rcases hget : g.engine.taskFactory.GetTask taskInfo.TaskId with _ | t
  · rw [hget] at hres
    dsimp only at hres
    split at hres
    · cases hres
    · simp only [Option.some.injEq, Prod.mk.injEq] at hres
      obtain ⟨hg, herr, -⟩ := hres
      subst hg herr
      exact ⟨rfl, rfl, rfl, rfl, rfl, Or.inl rfl⟩
  · rw [hget] at hres
    dsimp only at hres
    rcases hc : Cancel h now t with _ | ⟨t', ev⟩
    · rw [hc] at hres; cases hres
    · rw [hc] at hres
      simp only [Option.some.injEq, Prod.mk.injEq] at hres
      obtain ⟨hg, herr, -⟩ := hres
      subst hg herr
      exact ⟨rfl, rfl, rfl, rfl, rfl, Or.inr ⟨t, t', ev, rfl, hc, rfl⟩⟩

/-- Deleting the timer and the entry of a registered schedule keeps the
invariant. -/
theorem SchedulesArmed_delete (g g' : Agent) (tm : TimerManager) (taskId : String)
    (s : PeriodicTaskSchedule) (hinv : g.SchedulesArmed)
    (htm : g.timerManager = some tm) (hl : g.schedules.lookup taskId = some s)
    (htm' : g'.timerManager = some (tm.DeleteTimer s.timer))
    (hs' : g'.schedules = g.schedules.delete taskId) : g'.SchedulesArmed := by
  obtain ⟨hnd, -, hsome⟩ := hinv
  obtain ⟨hh, hb, h3, h4⟩ := hsome tm htm
  have hmem := ScheduleMap.lookup_some_mem _ _ _ hl
  obtain ⟨t0, ht0, hs0, hid0, -⟩ := h3 _ hmem
  simp only at hs0 hid0
  have hdel : tm.DeleteTimer s.timer =
      { tm with timers := tm.timers.filter (fun t => decide (t.handle ≠ t0.handle)) } := by
    rw [hs0]; rfl
  rw [hdel] at htm'
  refine ⟨?_, ?_, ?_⟩
  · rw [hs']
    exact ScheduleMap.keys_delete_nodup _ _ hnd
  · intro hnone
    rw [htm'] at hnone
    cases hnone
  · intro tm' htm''
    rw [htm'] at htm''
    simp only [Option.some.injEq] at htm''
    subst htm''
    refine ⟨?_, ?_, ?_, ?_⟩
    · exact hh.sublist ((List.filter_sublist _).map Timer.handle)
    · intro t ht
      exact hb t (List.mem_of_mem_filter ht)
    · intro e he
      rw [hs', ScheduleMap.mem_delete] at he
      obtain ⟨t, ht, h1, h2, h3'⟩ := h3 e he.1
      refine ⟨t, List.mem_filter.mpr ⟨ht, ?_⟩, h1, h2, h3'⟩
      simp only [ne_eq, decide_not, Bool.not_eq_true', decide_eq_false_iff_not]
      intro heq
      have : t = t0 := List.inj_on_of_nodup_map hh ht ht0 heq
      apply he.2
      rw [← h2, this, hid0]
    · intro t ht
      obtain ⟨ht1, ht2⟩ := List.mem_filter.mp ht
      simp only [ne_eq, decide_not, Bool.not_eq_true', decide_eq_false_iff_not] at ht2
      obtain ⟨hrun, e, he, hk, hti⟩ := h4 t ht1
      refine ⟨hrun, e, ?_, hk, hti⟩
      rw [hs', ScheduleMap.mem_delete]
      refine ⟨he, ?_⟩
      intro heq
      have : e = (taskId, s) :=
        ScheduleMap.unique_of_nodup _ hnd e (taskId, s) he hmem heq
      rw [this] at hti
      simp only at hti
      rw [hs0] at hti
      exact ht2 (Option.some.inj hti).symm

/-- Function cancelPeriodicTask keeps the invariant, whatever it returns. -/
theorem cancelPeriodicTask_SchedulesArmed (h : Host) (now : Time) (taskInfo : RunTaskInfo)
    (g g' : Agent) (err : Option GoError) (events : List Event)
    (hinv : g.SchedulesArmed)
    (hres : cancelPeriodicTask h now taskInfo g = some (g', err, events)) :
    g'.SchedulesArmed := by
  rcases htm : g.timerManager with _ | tm
  · rw [cancelPeriodicTask_uninitialized h now taskInfo g htm] at hres
    cases hres
    exact hinv
  · rcases hl : g.schedules.lookup taskInfo.TaskId with _ | s
    · rw [cancelPeriodicTask_unregistered h now taskInfo g tm htm
        ((ScheduleMap.lookup_eq_none _ _).mp hl)] at hres
      cases hres
      exact hinv
    · obtain ⟨h1, h2, -⟩ :=
        cancelPeriodicTask_registered h now taskInfo g tm s htm hl g' err events hres
      exact SchedulesArmed_delete g g' tm taskInfo.TaskId s hinv htm hl h1 h2

theorem TaskFactory.mem_AddTask (f : TaskFactory) (t : Task) (e : String × Task)
    (he : e ∈ f.AddTask t) : e = (t.taskInfo.TaskId, t) ∨ e ∈ f := by
  unfold TaskFactory.AddTask TaskFactory.RemoveTaskByName at he
  rcases List.mem_cons.mp he with h1 | h1
  · exact Or.inl h1
  · exact Or.inr (List.mem_of_mem_filter h1)

theorem TaskFactory.mem_RemoveTaskByName (f : TaskFactory) (name : String) (e : String × Task)
    (he : e ∈ f.RemoveTaskByName name) : e ∈ f :=
  List.mem_of_mem_filter he

theorem TaskFactory.mem_store (f : TaskFactory) (name : String) (t : Task) (e : String × Task)
    (he : e ∈ f.store name t) : e ∈ f ∨ e.2 = t := by
  unfold TaskFactory.store at he
  obtain ⟨e0, he0, heq⟩ := List.mem_map.mp he
  by_cases hk : e0.1 = name
  · rw [if_pos hk] at heq
    right
    rw [← heq]
  · rw [if_neg hk] at heq
    left
    rw [← heq]
    exact he0

theorem TaskFactory.GetTask_mem (f : TaskFactory) (name : String) (t : Task)
    (hget : f.GetTask name = some t) : (name, t) ∈ f := by
  unfold TaskFactory.GetTask at hget
  rcases hfind : f.find? (fun e => decide (e.1 = name)) with _ | e
  · rw [hfind] at hget; cases hget
  · rw [hfind] at hget
    have hmem := List.mem_of_find?_eq_some hfind
    have hkey := List.find?_some hfind
    simp only [Option.map_some', Option.some.injEq] at hget
    simp only [decide_eq_true_eq] at hkey
    have : e = (name, t) := by
      rcases e with ⟨k, v⟩
      simp only at hget hkey
      rw [hget, hkey]
    rw [← this]
    exact hmem

/-- Storing the task that Cancel returned keeps the kinds of the factory. -/
theorem kinds_store_Cancel (f : TaskFactory) (h : Host) (now : Time) (name : String)
    (t t' : Task) (events : List Event)
    (hkinds : ∀ e ∈ f, NonPeriodic e.2.taskInfo.Repeat ∨ e.2.taskInfo.Repeat = RunTaskPeriod)
    (hget : f.GetTask name = some t) (hc : Cancel h now t = some (t', events)) :
    ∀ e ∈ f.store name t',
      NonPeriodic e.2.taskInfo.Repeat ∨ e.2.taskInfo.Repeat = RunTaskPeriod := by
  intro e he
  rcases TaskFactory.mem_store f name t' e he with h1 | h1
  · exact hkinds e h1
  · rw [h1, (Cancel_frame h now t t' events hc).1]
    exact hkinds _ (TaskFactory.GetTask_mem f name t hget)

theorem KindsSorted_init : Agent.init.KindsSorted := by
  refine ⟨?_, ?_⟩ <;> intro e he <;> cases he

/-- Function schedulePeriodicTask on a Period record keeps the kinds. -/
theorem schedulePeriodicTask_KindsSorted (ts : TimerService) (taskInfo : RunTaskInfo)
    (g : Agent) (hinv : g.SchedulesArmed) (hk : g.KindsSorted)
    (hperiod : taskInfo.Repeat = RunTaskPeriod) :
    (schedulePeriodicTask ts taskInfo g).1.KindsSorted := by
  rcases htm : g.timerManager with _ | tm
  · rw [schedulePeriodicTask_uninitialized ts taskInfo g htm]
    exact hk
  · by_cases hkey : taskInfo.TaskId ∈ g.schedules.map Prod.fst
    · rw [schedulePeriodicTask_registered ts taskInfo g tm htm hkey]
      exact hk
    · obtain ⟨-, -, hsome⟩ := hinv
      obtain ⟨-, hb, -, -⟩ := hsome tm htm
      rw [schedulePeriodicTask_fresh ts taskInfo g tm htm hb hkey]
      rcases hc : ts.createErr taskInfo.Cronat with _ | err
      · rcases hr : ts.runErr taskInfo.Cronat with _ | err
        · refine ⟨?_, hk.2⟩
          intro e he
          rcases List.mem_cons.mp he with h1 | h1
          · rw [h1]
            exact hperiod
          · exact hk.1 e h1
        · exact hk
      · exact hk

/-- Function cancelPeriodicTask keeps the kinds. -/
theorem cancelPeriodicTask_KindsSorted (h : Host) (now : Time) (taskInfo : RunTaskInfo)
    (g g' : Agent) (err : Option GoError) (events : List Event) (hk : g.KindsSorted)
    (hres : cancelPeriodicTask h now taskInfo g = some (g', err, events)) :
    g'.KindsSorted := by
  rcases htm : g.timerManager with _ | tm
  · rw [cancelPeriodicTask_uninitialized h now taskInfo g htm] at hres
    cases hres
    exact hk
  · rcases hl : g.schedules.lookup taskInfo.TaskId with _ | s
    · rw [cancelPeriodicTask_unregistered h now taskInfo g tm htm
        ((ScheduleMap.lookup_eq_none _ _).mp hl)] at hres
      cases hres
      exact hk
    · obtain ⟨-, h2, -, -, -, h6⟩ :=
        cancelPeriodicTask_registered h now taskInfo g tm s htm hl g' err events hres
      refine ⟨?_, ?_⟩
      · intro e he
        rw [h2, ScheduleMap.mem_delete] at he
        exact hk.1 e he.1
      · rcases h6 with h6 | ⟨t, t', ev, hget, hc, h6⟩
        · rw [h6]
          exact hk.2
        · rw [h6]
          exact kinds_store_Cancel _ h now _ t t' ev hk.2 hget hc

/-- Function dispatchRunTask keeps both invariants. -/
theorem dispatchRunTask_invariants (ts : TimerService) (taskInfo : RunTaskInfo) (g : Agent)
    (hinv : g.SchedulesArmed) (hk : g.KindsSorted) :
    (dispatchRunTask ts taskInfo g).SchedulesArmed ∧ (dispatchRunTask ts taskInfo g).KindsSorted := by
  unfold dispatchRunTask
  split
  · exact ⟨hinv, hk⟩
  · split
    · rename_i hnp
      refine ⟨SchedulesArmed_congr g _ rfl rfl hinv, hk.1, ?_⟩
      intro e he
      rcases TaskFactory.mem_AddTask _ _ e he with h1 | h1
      · rw [h1]
        exact Or.inl hnp
      · exact hk.2 e h1
    · split
      · rename_i hperiod
        exact ⟨schedulePeriodicTask_SchedulesArmed ts taskInfo g hinv,
          schedulePeriodicTask_KindsSorted ts taskInfo g hinv hk hperiod⟩
      · exact ⟨hinv, hk⟩

/-- Function dispatchStopTask keeps both invariants. -/
theorem dispatchStopTask_invariants (h : Host) (now : Time) (taskInfo : RunTaskInfo)
    (g g' : Agent) (events : List Event) (hinv : g.SchedulesArmed) (hk : g.KindsSorted)
    (hstop : dispatchStopTask h now taskInfo g = some (g', events)) :
    g'.SchedulesArmed ∧ g'.KindsSorted := by
  unfold dispatchStopTask at hstop
  split at hstop
  · split at hstop
    · cases hstop
      exact ⟨hinv, hk⟩
    · rcases hget : g.engine.taskFactory.GetTask taskInfo.TaskId with _ | t
      · rw [hget] at hstop; cases hstop
      · rw [hget] at hstop
        dsimp only at hstop
        rcases hc : Cancel h now t with _ | ⟨t', ev⟩
        · rw [hc] at hstop; cases hstop
        · rw [hc] at hstop
          simp only [Option.some.injEq, Prod.mk.injEq] at hstop
          obtain ⟨hg, -⟩ := hstop
          subst hg
          exact ⟨SchedulesArmed_congr g _ rfl rfl hinv, hk.1,
            kinds_store_Cancel _ h now _ t t' ev hk.2 hget hc⟩
  · split at hstop
    · rcases hres : cancelPeriodicTask h now taskInfo g with _ | ⟨g1, err, ev⟩
      · rw [hres] at hstop; cases hstop
      · rw [hres] at hstop
        simp only [Option.some.injEq, Prod.mk.injEq] at hstop
        obtain ⟨hg, -⟩ := hstop
        subst hg
        exact ⟨cancelPeriodicTask_SchedulesArmed h now taskInfo g g1 err ev hinv hres,
          cancelPeriodicTask_KindsSorted h now taskInfo g g1 err ev hk hres⟩
    · cases hstop
      exact ⟨hinv, hk⟩

/-- Function dispatchTestTask touches the pool of pre-checks only. -/
theorem dispatchTestTask_frame (taskInfo : RunTaskInfo) (g : Agent) :
    (dispatchTestTask taskInfo g).engine = g.engine ∧
    (dispatchTestTask taskInfo g).schedules = g.schedules ∧
    (dispatchTestTask taskInfo g).timerManager = g.timerManager := by
  unfold dispatchTestTask
  repeat' split
  all_goals exact ⟨rfl, rfl, rfl⟩

/-- Every reachable state of the dispatcher satisfies both invariants. -/
theorem Reachable_invariants (g : Agent) (hg : g.Reachable) :
    g.SchedulesArmed ∧ g.KindsSorted := by
  induction hg with
  | init => exact ⟨SchedulesArmed_init, KindsSorted_init⟩
  | step _ hs ih =>
    obtain ⟨hinv, hk⟩ := ih
    cases hs with
    | initTimerManager hnone =>
      refine ⟨⟨hinv.1, ?_, ?_⟩, hk⟩
      · intro hn
        cases hn
      · intro tm htm
        simp only [Option.some.injEq] at htm
        subst htm
        have hempty := hinv.2.1 hnone
        refine ⟨List.nodup_nil, ?_, ?_, ?_⟩
        · intro t ht; cases ht
        · intro e he
          simp only at he
          rw [hempty] at he
          cases he
        · intro t ht; cases ht
    | run ts taskInfo => exact dispatchRunTask_invariants ts taskInfo _ hinv hk
    | stop h now taskInfo _ events hstop =>
      exact dispatchStopTask_invariants h now taskInfo _ _ events hinv hk hstop
    | test taskInfo =>
      obtain ⟨h1, h2, h3⟩ := dispatchTestTask_frame taskInfo _
      refine ⟨SchedulesArmed_congr _ _ h2 h3 hinv, ?_, ?_⟩
      · rw [h2]; exact hk.1
      · rw [h1]; exact hk.2
    | fire taskId s hs harmed =>
      refine ⟨SchedulesArmed_congr _ _ rfl rfl hinv, hk.1, ?_⟩
      simp only [PeriodicTaskSchedule.startExclusiveInvocation]
      split
      · exact hk.2
      · intro e he
        rcases TaskFactory.mem_AddTask _ _ e he with h1 | h1
        · rw [h1]
          exact Or.inr (hk.1 _ (ScheduleMap.lookup_some_mem _ _ _ hs))
        · exact hk.2 e h1
    | complete taskId hrun =>
      refine ⟨SchedulesArmed_congr _ _ rfl rfl hinv, hk.1, ?_⟩
      intro e he
      exact hk.2 e (TaskFactory.mem_RemoveTaskByName _ _ e he)

theorem readyAgent_Reachable : readyAgent.Reachable :=
  Agent.Reachable.step Agent.Reachable.init (Agent.Step.initTimerManager Agent.init rfl)

theorem cronAgent_Reachable : cronAgent.Reachable :=
  Agent.Reachable.step readyAgent_Reachable (Agent.Step.run readyAgent okTimers periodInfo)

theorem cronAgent_lookup : cronAgent.schedules.lookup "t-cron" = some cronSchedule := by
  decide

theorem cronAgent_armed : cronAgent.armed "t-cron" :=
  ⟨⟨[⟨0, "t-cron", "0 * * * * *", true⟩], 1⟩, ⟨0, "t-cron", "0 * * * * *", true⟩,
    by decide, List.mem_singleton_self _, rfl, rfl⟩

theorem firedAgent_Reachable : firedAgent.Reachable :=
  Agent.Reachable.step cronAgent_Reachable
    (Agent.Step.fire cronAgent "t-cron" cronSchedule cronAgent_lookup cronAgent_armed)

theorem busyAgent_Reachable : busyAgent.Reachable :=
  Agent.Reachable.step readyAgent_Reachable (Agent.Step.run readyAgent okTimers demoInfo)


theorem TaskFactory.GetTask_AddTask (f : TaskFactory) (t : Task) :
    (f.AddTask t).GetTask t.taskInfo.TaskId = some t := by
  unfold TaskFactory.GetTask TaskFactory.AddTask
  rw [List.find?_cons_of_pos _ (by simp)]
  rfl


/-- When schedulePeriodicTask returns an error the map is the map before the
call. -/
theorem schedulePeriodicTask_error_map (ts : TimerService) (taskInfo : RunTaskInfo) (g : Agent)
    (hinv : g.SchedulesArmed) (herr : (schedulePeriodicTask ts taskInfo g).2 ≠ none) :
    (schedulePeriodicTask ts taskInfo g).1.schedules = g.schedules := by
  rcases htm : g.timerManager with _ | tm
  · rw [schedulePeriodicTask_uninitialized ts taskInfo g htm]
  · by_cases hkey : taskInfo.TaskId ∈ g.schedules.map Prod.fst
    · rw [schedulePeriodicTask_registered ts taskInfo g tm htm hkey]
    · obtain ⟨-, hb, -, -⟩ := hinv.2.2 tm htm
      rw [schedulePeriodicTask_fresh ts taskInfo g tm htm hb hkey] at herr ⊢
      rcases hc : ts.createErr taskInfo.Cronat with _ | err
      · rcases hr : ts.runErr taskInfo.Cronat with _ | err
        · rw [hc, hr] at herr
          exact absurd rfl herr
        · rfl
      · rfl


/-- Method PreCheck when the check of the user passes: the checks that follow. -/
theorem PreCheck_user_passed (h : Host) (task : Task) (reportVerified : Bool)
    (huser : checkUser h task = none) :
    PreCheck h task reportVerified =
      if task.taskInfo.CommandType ≠ "RunBatScript" ∧
          task.taskInfo.CommandType ≠ "RunPowerShellScript" ∧
          task.taskInfo.CommandType ≠ "RunShellScript" then
        (task,
          SendInvalidTask task "TypeInvalid" ("TypeInvalid_" ++ task.taskInfo.CommandType),
          some ⟨"Invalid command type: " ++ task.taskInfo.CommandType, []⟩)
      else
        match h.base64Decode task.taskInfo.Content with
        | .error err =>
          (task, SendInvalidTask task "CommandContentInvalid" err.msg,
            some (err.wrapf "Invalid command content: decode error: "))
        | .ok _ =>
          match h.detectWorkingDirectory
              (match h.detectHomeDirectory task with
               | .error _ => task
               | .ok envHomeDir => { task with envHomeDir := envHomeDir }) with
          | .error err =>
            ((match h.detectHomeDirectory task with
               | .error _ => task
               | .ok envHomeDir => { task with envHomeDir := envHomeDir }),
              (if err.Is ErrWorkingDirectoryNotExist then
                SendInvalidTask task "workingDirectory" ErrWorkingDirectoryNotExist
              else if err.Is ErrDefaultWorkingDirectoryNotAvailable then
                SendInvalidTask task "workingDirectory" ErrDefaultWorkingDirectoryNotAvailable
              else
                SendInvalidTask task "workingDirectory" err.msg), some err)
          | .ok realWorkingDir =>
            ({ (match h.detectHomeDirectory task with
                | .error _ => task
                | .ok envHomeDir => { task with envHomeDir := envHomeDir }) with
                realWorkingDir := realWorkingDir },
              (if reportVerified = true then [Event.taskVerified task.taskInfo.TaskId] else []),
              none) := by
  unfold PreCheck
  dsimp only
  split
  · rename_i heq
    exact absurd (huser.symm.trans heq) (by simp)
  · by_cases ht : task.taskInfo.CommandType ≠ "RunBatScript" ∧
        task.taskInfo.CommandType ≠ "RunPowerShellScript" ∧
        task.taskInfo.CommandType ≠ "RunShellScript"
    · rw [if_pos ht, if_pos ht]
    · rw [if_neg ht, if_neg ht]
      rcases hb : h.base64Decode task.taskInfo.Content with err | content
      · rfl
      · dsimp only
        rcases hh : h.detectHomeDirectory task with e | d <;> dsimp only
        · rcases hw : h.detectWorkingDirectory task with e2 | d2 <;>
            simp [SendInvalidTask, sendTaskVerified]
        · rcases hw : h.detectWorkingDirectory { task with envHomeDir := d } with e2 | d2 <;>
            simp [SendInvalidTask, sendTaskVerified]

/-- Method PreCheck when the check of the user fails. -/
theorem PreCheck_user_failed (h : Host) (task : Task) (reportVerified : Bool)
    (events : List Event) (err : GoError) (huser : checkUser h task = some (events, err)) :
    PreCheck h task reportVerified = (task, events, some err) := by
  unfold PreCheck
  dsimp only
  split
  · rename_i ev e heq
    have hsame := huser.symm.trans heq
    simp only [Option.some.injEq, Prod.mk.injEq] at hsame
    rw [hsame.1, hsame.2]
  · rename_i heq
    exact absurd (huser.symm.trans heq) (by simp)

/-- The check of the user, when it fails, sends one report of an invalid task. -/
theorem checkUser_events (h : Host) (task : Task) (events : List Event) (err : GoError)
    (huser : checkUser h task = some (events, err)) :
    ∃ param value, events = [Event.invalidTask task.taskInfo.TaskId param value] := by
  unfold checkUser at huser
  repeat' split at huser
  all_goals (cases huser <;> exact ⟨_, _, rfl⟩)

/-- Method PreCheck keeps the task information; it sends the verified-task
POST exactly when it returns nil with reportVerified set, and one report of an
invalid task exactly when it returns an error. -/
theorem PreCheck_events (h : Host) (task : Task) (reportVerified : Bool) :
    (PreCheck h task reportVerified).1.taskInfo = task.taskInfo ∧
    ((PreCheck h task reportVerified).2.2 = none →
      (PreCheck h task reportVerified).2.1 =
        if reportVerified = true then [Event.taskVerified task.taskInfo.TaskId] else []) ∧
    ((PreCheck h task reportVerified).2.2 ≠ none →
      ∃ param value,
        (PreCheck h task reportVerified).2.1 =
          [Event.invalidTask task.taskInfo.TaskId param value]) := by
  rcases hu : checkUser h task with _ | ⟨events, err⟩
  · rw [PreCheck_user_passed h task reportVerified hu]
    split
    · exact ⟨rfl, (by intro hn; cases hn), fun _ => ⟨_, _, rfl⟩⟩
    · split
      · exact ⟨rfl, (by intro hn; cases hn), fun _ => ⟨_, _, rfl⟩⟩
      · rcases hh : h.detectHomeDirectory task with e | d <;> dsimp only <;> split
        all_goals first
          | exact ⟨rfl, fun _ => rfl, (by intro hn; exact absurd rfl hn)⟩
          | (refine ⟨rfl, (by intro hn; cases hn), fun _ => ?_⟩
             dsimp only [SendInvalidTask]
             repeat' split
             all_goals exact ⟨_, _, rfl⟩)
  · rw [PreCheck_user_failed h task reportVerified events err hu]
    exact ⟨rfl, (by intro hn; cases hn), fun _ => checkUser_events h task events err hu⟩

/-- The path of the script file is derived from the task information only. -/
theorem scriptFileName_congr (task task' : Task) (scriptDir : String)
    (hinfo : task'.taskInfo = task.taskInfo) :
    scriptFileName task' scriptDir = scriptFileName task scriptDir := by
  unfold scriptFileName
  rw [hinfo]

theorem deadlineOf_congr (h : Host) (task task' : Task)
    (hinfo : task'.taskInfo = task.taskInfo) : deadlineOf h task' = deadlineOf h task := by
  unfold deadlineOf
  rw [hinfo]

/-- For a known command type the path of the script file is the one the
specification words. -/
theorem scriptFileName_known (task : Task) (scriptDir : String)
    (hvalid : task.taskInfo.CommandType = "RunBatScript" ∨
      task.taskInfo.CommandType = "RunShellScript" ∨
      task.taskInfo.CommandType = "RunPowerShellScript") :
    scriptFileName task scriptDir = some (specScriptPath task scriptDir) := by
  unfold scriptFileName specScriptPath
  rcases hvalid with hbat | hsh | hps
  · simp only [hbat]
    by_cases hname : task.taskInfo.CommandName = ""
    · simp [hname, String.append_assoc]
    · simp [hname, String.append_assoc]
  · simp only [hsh]
    by_cases hname : task.taskInfo.CommandName = "" <;>
      by_cases huser : task.taskInfo.Username = "" <;>
      simp [hname, huser, String.append_assoc]
  · simp only [hps]
    by_cases hname : task.taskInfo.CommandName = ""
    · simp [hname, String.append_assoc]
    · simp [hname, String.append_assoc]

theorem setScriptPermission_no_syncRun (h : Host) (task : Task) (fileName : String) :
    (setScriptPermission h task fileName).filter Event.isSyncRun = [] := by
  unfold setScriptPermission SendError
  repeat' split
  all_goals rfl

theorem chooseInterpreter_no_syncRun (h : Host) (task : Task) (fileName exe : String)
    (args : List String) (events : List Event)
    (hci : chooseInterpreter h task fileName = .ok (exe, args, events)) :
    events.filter Event.isSyncRun = [] := by
  unfold chooseInterpreter at hci
  repeat' split at hci
  all_goals (cases hci <;> rfl)

theorem sendTaskStart_no_syncRun (task : Task) :
    (sendTaskStart task).filter Event.isSyncRun = [] := by
  unfold sendTaskStart
  split <;> rfl

/-- When Run reaches the launch of the child: the task information is the one
Run started with, the script was saved under the path derived from the script
directory, the deadline is the parsed TimeOut or 3600, and no call of SyncRun
has been made yet. -/
theorem runPrepare_ok (h : Host) (task : Task) (p : Prepared)
    (hp : runPrepare h task = .ok p) :
    p.task.taskInfo = task.taskInfo ∧
    p.timeout = deadlineOf h task ∧
    (∃ scriptDir fileName content,
      h.GetScriptPath = .ok scriptDir ∧ scriptFileName task scriptDir = some fileName ∧
      Event.saveScriptFile fileName content ∈ p.events) ∧
    p.events.filter Event.isSyncRun = [] := by
  have hinfo := (PreCheck_events h task false).1
  have hev := (PreCheck_events h task false).2.1
  unfold runPrepare at hp
  rcases hP : PreCheck h task false with ⟨t0, ev0, e0⟩
  rw [hP] at hp hinfo hev
  dsimp only at hp hinfo hev
  rcases e0 with _ | e0
  · have hev0 : ev0 = [] := by simpa using hev rfl
    subst hev0
    dsimp only at hp
    rcases hsp : h.GetScriptPath with e | scriptDir
    · rw [hsp] at hp
      dsimp only at hp
      split at hp <;> cases hp
    · rw [hsp] at hp
      dsimp only at hp
      rcases hfn : scriptFileName t0 scriptDir with _ | fileName
      · rw [hfn] at hp
        cases hp
      · rw [hfn] at hp
        dsimp only at hp
        rcases hb : h.base64Decode t0.taskInfo.Content with e | content
        · rw [hb] at hp
          cases hp
        · rw [hb] at hp
          dsimp only at hp
          rcases hr : resolveParameters h t0 fileName content with e | ⟨content2, del⟩
          · rw [hr] at hp
            cases hp
          · rw [hr] at hp
            dsimp only at hp
            split at hp
            · cases hp
            · split at hp
              · cases hp
              · rename_i exe args ev3 hci
                simp only [Except.ok.injEq] at hp
                subst hp
                refine ⟨hinfo, ?_, ⟨scriptDir, fileName, encodeContent h t0 content2, rfl, ?_, ?_⟩, ?_⟩
                · dsimp only
                  rw [← deadlineOf_congr h task t0 hinfo]
                  rfl
                · rw [← scriptFileName_congr task t0 scriptDir hinfo]
                  exact hfn
                · simp
                · simp only [List.filter_append, setScriptPermission_no_syncRun,
                    chooseInterpreter_no_syncRun h _ fileName exe args ev3 hci,
                    sendTaskStart_no_syncRun, List.append_nil]
                  rfl
  · dsimp only at hp
    cases hp

theorem sendRunningOutput_no_syncRun (h : Host) (task : Task) (data : Bytes) :
    (sendRunningOutput h task data).filter Event.isSyncRun = [] := by
  unfold sendRunningOutput
  split <;> rfl

theorem sendRunningTicks_no_syncRun (h : Host) (ws : List (Bytes × Bytes)) :
    ∀ (stopped : Bool) (task : Task) (stdoutWrite stderrWrite : Bytes),
      (sendRunningTicks h ws stopped task stdoutWrite stderrWrite).2.2.2.filter
        Event.isSyncRun = [] := by
  induction ws with
  | nil =>
    intro stopped task so se
    rfl
  | cons w ws ih =>
    intro stopped task so se
    unfold sendRunningTicks
    by_cases hst : stopped = true
    · simp only [hst, if_true]
      exact ih true task _ _
    · simp only [hst, Bool.false_eq_true, if_false]
      by_cases hq : task.data_sended > defaultQuotoPre
      · simp only [hq, if_true]
        exact ih true task _ _
      · simp only [hq, if_false, List.filter_append, sendRunningOutput_no_syncRun,
          List.nil_append]
        exact ih false _ _ _

theorem sendOutput_no_syncRun (h : Host) (task : Task) (status : String) (output : Bytes) :
    (sendOutput h task status output).filter Event.isSyncRun = [] := by
  unfold sendOutput
  repeat' split
  all_goals rfl

theorem reportTerminal_no_syncRun (h : Host) (task task' : Task) (status : ProcStatus)
    (err : Option GoError) (events : List Event)
    (hr : reportTerminal h task status err = some (task', events)) :
    events.filter Event.isSyncRun = [] := by
  unfold reportTerminal at hr
  repeat' split at hr
  all_goals (cases hr <;> first | exact sendOutput_no_syncRun _ _ _ _ | rfl)

/-- The middle part of Run without a concurrent Cancel returns, and makes one
call of SyncRun, with the working directory, executable, arguments and
deadline prepared. -/
theorem runChild_syncRun (h : Host) (p : Prepared) :
    ∃ e, runChild h p none = some e ∧
      e.task.data_sended ≤ 8048 ∧
      e.task.taskInfo = p.task.taskInfo ∧
      e.events.filter Event.isSyncRun =
        p.events.filter Event.isSyncRun ++
          [Event.syncRun p.task.realWorkingDir p.fileName p.args p.timeout] := by
  obtain ⟨n, hn, h1, -⟩ := sendRunningTicks_spec h h.tickWrites
    (decide (p.task.taskInfo.Cronat ≠ "")) { p.task with data_sended := 0 } [] []
    (Nat.zero_le _)
  have h2 := sendRunningTicks_no_syncRun h h.tickWrites
    (decide (p.task.taskInfo.Cronat ≠ "")) { p.task with data_sended := 0 } [] []
  unfold runChild
  dsimp only
  refine ⟨_, rfl, ?_, ?_, ?_⟩
  · dsimp only
    rw [h1]
    exact hn
  · dsimp only
    rw [h1]
  · dsimp only
    simp only [List.filter_append, h2, List.append_nil]
    congr 1
    repeat' split
    all_goals rfl

/-- The last part of Run makes no call of SyncRun. -/
theorem runFinish_no_syncRun (h : Host) (e : Ended) (o : RunOutcome)
    (hf : runFinish h e = some o) :
    o.events.filter Event.isSyncRun = e.events.filter Event.isSyncRun := by
  unfold runFinish at hf
  dsimp only at hf
  split at hf
  · cases hf
  · rename_i t ev1 hrep
    simp only [Option.some.injEq] at hf
    subst hf
    dsimp only
    simp only [List.filter_append, reportTerminal_no_syncRun h _ _ _ _ _ hrep, List.append_nil]
    have htail : ∀ (l1 l2 : List Event), l1.filter Event.isSyncRun = [] →
        l2.filter Event.isSyncRun = [] →
        e.events.filter Event.isSyncRun ++ l1.filter Event.isSyncRun ++
          l2.filter Event.isSyncRun = e.events.filter Event.isSyncRun := by
      intro l1 l2 h1 h2
      rw [h1, h2, List.append_nil, List.append_nil]
    apply htail
    · split <;> rfl
    · repeat' split
      all_goals rfl

/-- The last part of Run adds to the trace. -/
theorem runFinish_keeps_events (h : Host) (e : Ended) (o : RunOutcome)
    (hf : runFinish h e = some o) : ∀ x ∈ e.events, x ∈ o.events := by
  unfold runFinish at hf
  dsimp only at hf
  split at hf
  · cases hf
  · simp only [Option.some.injEq] at hf
    subst hf
    intro x hx
    simp only [List.append_assoc]
    exact List.mem_append_left _ hx

/-- When Run reaches the launch of the child and nobody cancels, it returns;
its trace holds the events issued before the launch, and exactly one call of
SyncRun, with the deadline prepared. -/
theorem Run_launched (h : Host) (task : Task) (p : Prepared)
    (hp : runPrepare h task = .ok p) :
    ∃ o, Run h task = some o ∧ (∀ e ∈ p.events, e ∈ o.events) ∧
      o.events.filter Event.isSyncRun =
        [Event.syncRun p.task.realWorkingDir p.fileName p.args p.timeout] := by
  obtain ⟨-, -, -, hnone⟩ := runPrepare_ok h task p hp
  obtain ⟨n, evs, so, se, -, -, hchild'⟩ := runChild_spec h p
  obtain ⟨e, hchild, hsent, hinfo, hsync⟩ := runChild_syncRun h p
  have hS : (e.task.data_sended : Int) ≤ max e.task.taskInfo.Output.LogQuota 12000 := by
    have : (e.task.data_sended : Int) ≤ 8048 := by exact_mod_cast hsent
    omega
  have hpre : ∀ x ∈ p.events, x ∈ e.events := by
    rw [hchild] at hchild'
    simp only [Option.some.injEq] at hchild'
    rw [hchild']
    intro x hx
    exact List.mem_append_left _ hx
  obtain ⟨o, hfin⟩ : ∃ o, runFinish h e = some o := by
    obtain ⟨report, dropped, tail, -, hfin⟩ := runFinish_spec h e hS
    exact ⟨_, hfin⟩
  refine ⟨o, ?_, ?_, ?_⟩
  · unfold Run
    rw [hp]
    dsimp only
    rw [hchild]
    exact hfin
  · intro x hx
    exact runFinish_keeps_events h e o hfin x (hpre x hx)
  · rw [runFinish_no_syncRun h e _ hfin, hsync, hnone, List.nil_append]

/-- Without a running reader goroutine SwitchChannel never gets past
StopChannel. -/
theorem SwitchChannel_blocked (m : ChannelMgr) (c : GshellChannel)
    (hreader : c.readerRunning = false) : SwitchChannel m c = none := by
  unfold SwitchChannel StopChannel
  rw [hreader]
  rfl

theorem chunkAt_zero (buf : Bytes) : chunkAt buf 0 = buf.take 1024 := by
  simp [chunkAt]

theorem chunkAt_succ (buf : Bytes) (k : Nat) :
    chunkAt buf (k + 1) = chunkAt (buf.drop 1024) k := by
  unfold chunkAt
  rw [List.drop_drop]
  congr 2
  omega

theorem chunkRounds_nil : chunkRounds [] [] = 0 := by
  decide

theorem chunkRounds_step (a b : Bytes) (hne : ¬ (a = [] ∧ b = [])) :
    chunkRounds a b = chunkRounds (a.drop 1024) (b.drop 1024) + 1 := by
  have hpos : 0 < a.length ∨ 0 < b.length := by
    by_contra hcon
    push_neg at hcon
    exact hne ⟨List.length_eq_zero.mp (by omega), List.length_eq_zero.mp (by omega)⟩
  unfold chunkRounds
  simp only [List.length_drop]
  omega

/-- One round of alternation: a chunk of stdout, a chunk of stderr, then the
alternation of what is left. -/
theorem alternateChunks_step (a b : Bytes) (hne : ¬ (a = [] ∧ b = [])) :
    alternateChunks a b =
      a.take 1024 ++ b.take 1024 ++ alternateChunks (a.drop 1024) (b.drop 1024) := by
  unfold alternateChunks
  rw [chunkRounds_step a b hne, List.range_succ_eq_map, List.flatMap_cons, List.flatMap_map]
  simp only [chunkAt_zero, Nat.succ_eq_add_one, chunkAt_succ]

theorem alternateChunks_nil : alternateChunks [] [] = [] := by
  decide

/-- Function tryReadAll empties both buffers and appends the alternating
chunks to out. -/
theorem tryReadAll_eq (a b : Bytes) :
    ∀ out, tryReadAll a b out = ([], [], out ++ alternateChunks a b) := by
  have key : ∀ n (a b : Bytes), a.length + b.length = n →
      ∀ out, tryReadAll a b out = ([], [], out ++ alternateChunks a b) := by
    intro n
    induction n using Nat.strong_induction_on with
    | _ n ih =>
    intro a b hn out
    by_cases hne : a = [] ∧ b = []
    · obtain ⟨ha, hb⟩ := hne
      subst ha hb
      rw [tryReadAll_small [] [] out (by simp) (by simp), alternateChunks_nil]
      simp
    · rw [tryReadAll]
      have hcond : ¬ ((read1024 b).1.length = 0 ∧ (read1024 a).1.length = 0) := by
        intro hc
        simp only [read1024, List.length_take] at hc
        apply hne
        constructor
        · apply List.length_eq_zero.mp
          omega
        · apply List.length_eq_zero.mp
          omega
      rw [if_neg hcond]
      simp only [read1024]
      have hlt : (a.drop 1024).length + (b.drop 1024).length < n := by
        have hpos : 0 < a.length ∨ 0 < b.length := by
          by_contra hcon
          push_neg at hcon
          exact hne ⟨List.length_eq_zero.mp (by omega), List.length_eq_zero.mp (by omega)⟩
        simp only [List.length_drop]
        omega
      rw [ih _ hlt (a.drop 1024) (b.drop 1024) rfl, alternateChunks_step a b hne]
      simp only [List.append_assoc]
  exact key _ a b rfl

theorem alternateChunks_length (a b : Bytes) :
    (alternateChunks a b).length = a.length + b.length := by
  have key : ∀ n (a b : Bytes), a.length + b.length = n →
      (alternateChunks a b).length = a.length + b.length := by
    intro n
    induction n using Nat.strong_induction_on with
    | _ n ih =>
    intro a b hn
    by_cases hne : a = [] ∧ b = []
    · obtain ⟨ha, hb⟩ := hne
      subst ha hb
      rw [alternateChunks_nil]
      rfl
    · have hpos : 0 < a.length ∨ 0 < b.length := by
        by_contra hcon
        push_neg at hcon
        exact hne ⟨List.length_eq_zero.mp (by omega), List.length_eq_zero.mp (by omega)⟩
      have hlt : (a.drop 1024).length + (b.drop 1024).length < n := by
        simp only [List.length_drop]
        omega
      rw [alternateChunks_step a b hne, List.length_append, List.length_append,
        ih _ hlt (a.drop 1024) (b.drop 1024) rfl]
      simp only [List.length_take, List.length_drop]
      omega
  exact key _ a b rfl

/-- Each stream keeps its order in the alternation. -/
theorem alternateChunks_sublist (a b : Bytes) :
    a.Sublist (alternateChunks a b) ∧ b.Sublist (alternateChunks a b) := by
  have key : ∀ n (a b : Bytes), a.length + b.length = n →
      a.Sublist (alternateChunks a b) ∧ b.Sublist (alternateChunks a b) := by
    intro n
    induction n using Nat.strong_induction_on with
    | _ n ih =>
    intro a b hn
    by_cases hne : a = [] ∧ b = []
    · obtain ⟨ha, hb⟩ := hne
      subst ha hb
      rw [alternateChunks_nil]
      exact ⟨List.Sublist.refl _, List.Sublist.refl _⟩
    · have hpos : 0 < a.length ∨ 0 < b.length := by
        by_contra hcon
        push_neg at hcon
        exact hne ⟨List.length_eq_zero.mp (by omega), List.length_eq_zero.mp (by omega)⟩
      have hlt : (a.drop 1024).length + (b.drop 1024).length < n := by
        simp only [List.length_drop]
        omega
      obtain ⟨iha, ihb⟩ := ih _ hlt (a.drop 1024) (b.drop 1024) rfl
      rw [alternateChunks_step a b hne]
      constructor
      · have h1 : a = a.take 1024 ++ a.drop 1024 := (List.take_append_drop 1024 a).symm
        rw [List.append_assoc]
        nth_rewrite 1 [h1]
        exact List.Sublist.append (List.Sublist.refl _)
          (List.Sublist.trans iha (List.sublist_append_right _ _))
      · have h1 : b = b.take 1024 ++ b.drop 1024 := (List.take_append_drop 1024 b).symm
        rw [List.append_assoc]
        nth_rewrite 1 [h1]
        exact List.Sublist.trans (List.Sublist.append (List.Sublist.refl _) ihb)
          (List.sublist_append_right _ _)
  exact key _ a b rfl

theorem alternateChunks_nil_left (b : Bytes) : alternateChunks [] b = b := by
  have key : ∀ n (b : Bytes), b.length = n → alternateChunks [] b = b := by
    intro n
    induction n using Nat.strong_induction_on with
    | _ n ih =>
    intro b hn
    by_cases hb : b = []
    · subst hb
      exact alternateChunks_nil
    · have hlt : (b.drop 1024).length < n := by
        have : 0 < b.length := List.length_pos.mpr hb
        simp only [List.length_drop]
        omega
      rw [alternateChunks_step [] b (fun hc => hb hc.2)]
      simp only [List.take_nil, List.drop_nil, List.nil_append]
      rw [ih _ hlt (b.drop 1024) rfl, List.take_append_drop]
  exact key _ b rfl

theorem alternateChunks_nil_right (a : Bytes) : alternateChunks a [] = a := by
  have key : ∀ n (a : Bytes), a.length = n → alternateChunks a [] = a := by
    intro n
    induction n using Nat.strong_induction_on with
    | _ n ih =>
    intro a hn
    by_cases ha : a = []
    · subst ha
      exact alternateChunks_nil
    · have hlt : (a.drop 1024).length < n := by
        have : 0 < a.length := List.length_pos.mpr ha
        simp only [List.length_drop]
        omega
      rw [alternateChunks_step a [] (fun hc => ha hc.1)]
      simp only [List.take_nil, List.drop_nil, List.append_nil]
      rw [ih _ hlt (a.drop 1024) rfl, List.take_append_drop]
  exact key _ a rfl

/-- When stdout holds at most 1024 bytes, or stderr is empty, the alternation
is stdout followed by stderr. -/
theorem alternateChunks_concat (a b : Bytes) (hsmall : a.length ≤ 1024 ∨ b = []) :
    alternateChunks a b = a ++ b := by
  rcases hsmall with ha | hb
  · by_cases hne : a = [] ∧ b = []
    · obtain ⟨ha0, hb0⟩ := hne
      subst ha0 hb0
      exact alternateChunks_nil
    · rw [alternateChunks_step a b hne, List.take_of_length_le ha, List.drop_of_length_le ha,
        alternateChunks_nil_left, List.append_assoc, List.take_append_drop]
  · subst hb
    rw [alternateChunks_nil_right, List.append_nil]

theorem NewTask_WithinQuota (taskInfo : RunTaskInfo) (loc : Option String) (onFinish : Bool) :
    (NewTask taskInfo loc onFinish).WithinQuota := by
  unfold Task.WithinQuota NewTask
  dsimp only
  omega

theorem WithinQuota_init : Agent.init.WithinQuota := by
  constructor
  · intro e he
    cases he
  · intro e he
    cases he

/-- Method Cancel keeps a task within its quota. -/
theorem Cancel_WithinQuota (h : Host) (now : Time) (task task' : Task) (events : List Event)
    (hq : task.WithinQuota) (hc : Cancel h now task = some (task', events)) :
    task'.WithinQuota := by
  obtain ⟨hinfo, hsent, -⟩ := Cancel_frame h now task task' events hc
  unfold Task.WithinQuota at hq ⊢
  rw [hinfo, hsent]
  exact hq

theorem TaskFactory.GetTask_of_Contains (f : TaskFactory) (name : String)
    (hc : f.ContainsTaskByName name = true) : ∃ t, f.GetTask name = some t := by
  obtain ⟨e, he, hk⟩ := (ContainsTaskByName_iff f name).mp hc
  unfold TaskFactory.GetTask
  rcases hfind : f.find? (fun e => decide (e.1 = name)) with _ | e0
  · rw [List.find?_eq_none] at hfind
    exact absurd (by simpa using hk) (hfind e he)
  · exact ⟨e0.2, by rw [hfind]; rfl⟩

/-- Function schedulePeriodicTask keeps the dispatcher within quota. -/
theorem schedulePeriodicTask_WithinQuota (ts : TimerService) (taskInfo : RunTaskInfo)
    (g : Agent) (hq : g.WithinQuota) : (schedulePeriodicTask ts taskInfo g).1.WithinQuota := by
  unfold schedulePeriodicTask
  rcases htm : g.timerManager with _ | tm
  · exact hq
  · dsimp only
    rcases hl : g.schedules.lookup taskInfo.TaskId with _ | s
    · dsimp only
      simp only [TimerManager.CreateCronTimer]
      rcases hc : ts.createErr taskInfo.Cronat with _ | err
      · dsimp only
        simp only [TimerManager.RunTimer]
        have hins : ∀ e ∈ g.schedules.insert taskInfo.TaskId
            ⟨some tm.nextHandle, NewTask taskInfo none false⟩,
            e.2.reusableInvocation.WithinQuota := by
          intro e he
          unfold ScheduleMap.insert at he
          rcases List.mem_cons.mp he with h1 | h1
          · rw [h1]
            exact NewTask_WithinQuota taskInfo none false
          · exact hq.2 e ((ScheduleMap.mem_delete _ _ _).mp h1).1
        rcases hr : ts.runErr taskInfo.Cronat with _ | err
        · exact ⟨hq.1, hins⟩
        · refine ⟨hq.1, ?_⟩
          intro e he
          exact hins e ((ScheduleMap.mem_delete _ _ _).mp he).1
      · exact hq
    · exact hq

/-- Function dispatchRunTask keeps the dispatcher within quota. -/
theorem dispatchRunTask_WithinQuota (ts : TimerService) (taskInfo : RunTaskInfo) (g : Agent)
    (hq : g.WithinQuota) : (dispatchRunTask ts taskInfo g).WithinQuota := by
  unfold dispatchRunTask
  split
  · exact hq
  · split
    · refine ⟨?_, hq.2⟩
      intro e he
      rcases TaskFactory.mem_AddTask _ _ e he with h1 | h1
      · rw [h1]
        exact NewTask_WithinQuota taskInfo none false
      · exact hq.1 e h1
    · split
      · exact schedulePeriodicTask_WithinQuota ts taskInfo g hq
      · exact hq

/-- Storing the task that Cancel returned keeps the factory within quota. -/
theorem store_Cancel_WithinQuota (f : TaskFactory) (h : Host) (now : Time) (name : String)
    (t t' : Task) (events : List Event) (hq : ∀ e ∈ f, e.2.WithinQuota)
    (hget : f.GetTask name = some t) (hc : Cancel h now t = some (t', events)) :
    ∀ e ∈ f.store name t', e.2.WithinQuota := by
  intro e he
  rcases TaskFactory.mem_store f name t' e he with h1 | h1
  · exact hq e h1
  · rw [h1]
    exact Cancel_WithinQuota h now t t' events (hq _ (TaskFactory.GetTask_mem f name t hget)) hc

/-- Within quota, cancelPeriodicTask returns, and keeps the dispatcher within
quota. -/
theorem cancelPeriodicTask_WithinQuota (h : Host) (now : Time) (taskInfo : RunTaskInfo)
    (g : Agent) (hq : g.WithinQuota) :
    ∃ g' err events, cancelPeriodicTask h now taskInfo g = some (g', err, events) ∧
      g'.WithinQuota := by
  unfold cancelPeriodicTask
  rcases htm : g.timerManager with _ | tm
  · exact ⟨_, _, _, rfl, hq⟩
  · dsimp only
    rcases hl : g.schedules.lookup taskInfo.TaskId with _ | s
    · exact ⟨_, _, _, rfl, hq⟩
    · dsimp only
      have hdel : ∀ e ∈ g.schedules.delete taskInfo.TaskId,
          e.2.reusableInvocation.WithinQuota := by
        intro e he
        exact hq.2 e ((ScheduleMap.mem_delete _ _ _).mp he).1
      rcases hget : g.engine.taskFactory.GetTask taskInfo.TaskId with _ | t
      · dsimp only
        have hs := hq.2 _ (ScheduleMap.lookup_some_mem _ _ _ hl)
        obtain ⟨report, dropped, hr⟩ :=
          getReportString_some s.reusableInvocation s.reusableInvocation.output hs
        rw [hr]
        exact ⟨_, _, _, rfl, hq.1, hdel⟩
      · dsimp only
        have ht := hq.1 _ (TaskFactory.GetTask_mem _ _ _ hget)
        obtain ⟨report, dropped, hc⟩ := Cancel_spec h now t ht
        rw [hc]
        exact ⟨_, _, _, rfl,
          store_Cancel_WithinQuota _ h now _ t _ _ hq.1 hget hc, hdel⟩

/-- Within quota, dispatchStopTask returns, and keeps the dispatcher within
quota. -/
theorem dispatchStopTask_WithinQuota (h : Host) (now : Time) (taskInfo : RunTaskInfo)
    (g : Agent) (hq : g.WithinQuota) :
    ∃ g' events, dispatchStopTask h now taskInfo g = some (g', events) ∧ g'.WithinQuota := by
  unfold dispatchStopTask
  split
  · split
    · exact ⟨_, _, rfl, hq⟩
    · rename_i hc
      have hc' : g.engine.taskFactory.ContainsTaskByName taskInfo.TaskId = true := by
        simpa using hc
      obtain ⟨t, hget⟩ := TaskFactory.GetTask_of_Contains _ _ hc'
      rw [hget]
      dsimp only
      have ht := hq.1 _ (TaskFactory.GetTask_mem _ _ _ hget)
      obtain ⟨report, dropped, hcancel⟩ := Cancel_spec h now t ht
      rw [hcancel]
      exact ⟨_, _, rfl, store_Cancel_WithinQuota _ h now _ t _ _ hq.1 hget hcancel, hq.2⟩
  · split
    · obtain ⟨g', err, events, hres, hq'⟩ := cancelPeriodicTask_WithinQuota h now taskInfo g hq
      rw [hres]
      exact ⟨_, _, rfl, hq'⟩
    · exact ⟨_, _, rfl, hq⟩

theorem dispatchTestTask_WithinQuota (taskInfo : RunTaskInfo) (g : Agent)
    (hq : g.WithinQuota) : (dispatchTestTask taskInfo g).WithinQuota := by
  obtain ⟨h1, h2, -⟩ := dispatchTestTask_frame taskInfo g
  unfold Agent.WithinQuota
  rw [h1, h2]
  exact hq

theorem foldl_dispatchRunTask_WithinQuota (ts : TimerService) (vs : List RunTaskInfo) :
    ∀ g : Agent, g.WithinQuota →
      (vs.foldl (fun g v => dispatchRunTask ts v g) g).WithinQuota := by
  induction vs with
  | nil => intro g hq; exact hq
  | cons v vs ih =>
    intro g hq
    exact ih _ (dispatchRunTask_WithinQuota ts v g hq)

theorem foldl_dispatchTestTask_WithinQuota (vs : List RunTaskInfo) :
    ∀ g : Agent, g.WithinQuota →
      (vs.foldl (fun g v => dispatchTestTask v g) g).WithinQuota := by
  induction vs with
  | nil => intro g hq; exact hq
  | cons v vs ih =>
    intro g hq
    exact ih _ (dispatchTestTask_WithinQuota v g hq)

theorem dispatchStopTasks_WithinQuota (h : Host) (now : Time) (vs : List RunTaskInfo) :
    ∀ g : Agent, g.WithinQuota →
      ∃ g' events, dispatchStopTasks h now vs g = some (g', events) ∧ g'.WithinQuota := by
  induction vs with
  | nil => intro g hq; exact ⟨g, [], rfl, hq⟩
  | cons v vs ih =>
    intro g hq
    obtain ⟨g1, ev1, h1, hq1⟩ := dispatchStopTask_WithinQuota h now v g hq
    obtain ⟨g2, ev2, h2, hq2⟩ := ih g1 hq1
    unfold dispatchStopTasks
    rw [h1]
    dsimp only
    rw [h2]
    exact ⟨_, _, rfl, hq2⟩

/-- Function FetchTaskList does not touch the dispatcher. -/
theorem FetchTaskList_agent (reason : FetchReason) (taskId : String) (taskType : Int)
    (isColdstart : Bool) (w : FetchWorld) :
    (FetchTaskList reason taskId taskType isColdstart w).2.agent = w.agent := by
  unfold FetchTaskList
  repeat' split
  all_goals rfl

/-- Within quota, fetchTasks returns; its count is the number of run, stop,
session and file records of the batch; the dispatcher stays within quota; and
a batch without run and stop records leaves the dispatcher as the dispatch of
the test records leaves it. -/
theorem fetchTasks_returns (ts : TimerService) (h : Host) (now : Time) (reason : FetchReason)
    (taskId : String) (taskType : Int) (isColdstart : Bool) (w : FetchWorld)
    (hq : w.agent.WithinQuota) :
    ∃ w', fetchTasks ts h now reason taskId taskType isColdstart w =
        some (w',
          ((FetchTaskList reason taskId taskType isColdstart w).1.runInfos.length : Int) +
          ((FetchTaskList reason taskId taskType isColdstart w).1.stopInfos.length : Int) +
          ((FetchTaskList reason taskId taskType isColdstart w).1.sessionInfos.length : Int) +
          ((FetchTaskList reason taskId taskType isColdstart w).1.sendFiles.length : Int)) ∧
      w'.agent.WithinQuota ∧
      ((FetchTaskList reason taskId taskType isColdstart w).1.runInfos = [] →
        (FetchTaskList reason taskId taskType isColdstart w).1.stopInfos = [] →
        w'.agent =
          (FetchTaskList reason taskId taskType isColdstart w).1.testInfos.foldl
            (fun g v => dispatchTestTask v g) w.agent) := by
  have hagent := FetchTaskList_agent reason taskId taskType isColdstart w
  rcases hF : FetchTaskList reason taskId taskType isColdstart w with ⟨batch, w1⟩
  rw [hF] at hagent
  dsimp only at hagent
  have hq1 : (batch.runInfos.foldl (fun g v => dispatchRunTask ts v g) w1.agent).WithinQuota := by
    rw [hagent]
    exact foldl_dispatchRunTask_WithinQuota ts _ _ hq
  obtain ⟨g2, ev2, h2, hq2⟩ := dispatchStopTasks_WithinQuota h now batch.stopInfos _ hq1
  unfold fetchTasks
  rw [hF]
  dsimp only
  rw [h2]
  refine ⟨_, rfl, foldl_dispatchTestTask_WithinQuota _ _ hq2, ?_⟩
  intro hrun hstop
  dsimp only at hrun hstop ⊢
  rw [hrun, hstop] at h2
  simp only [List.foldl_nil, dispatchStopTasks, Option.some.injEq, Prod.mk.injEq] at h2
  rw [← h2.1, hagent]

/-- Every reachable state of the dispatcher is within quota. -/
theorem Reachable_WithinQuota (g : Agent) (hg : g.Reachable) : g.WithinQuota := by
  induction hg with
  | init => exact WithinQuota_init
  | step _ hs ih =>
    cases hs with
    | initTimerManager hnone => exact ⟨ih.1, ih.2⟩
    | run ts taskInfo => exact dispatchRunTask_WithinQuota ts taskInfo _ ih
    | stop h now taskInfo _ events hstop =>
      obtain ⟨g1, ev1, h1, hq1⟩ := dispatchStopTask_WithinQuota h now taskInfo _ ih
      rw [h1] at hstop
      simp only [Option.some.injEq, Prod.mk.injEq] at hstop
      rw [← hstop.1]
      exact hq1
    | test taskInfo => exact dispatchTestTask_WithinQuota taskInfo _ ih
    | fire taskId s hs harmed =>
      refine ⟨?_, ih.2⟩
      simp only [PeriodicTaskSchedule.startExclusiveInvocation]
      split
      · exact ih.1
      · intro e he
        rcases TaskFactory.mem_AddTask _ _ e he with h1 | h1
        · rw [h1]
          exact ih.2 _ (ScheduleMap.lookup_some_mem _ _ _ hs)
        · exact ih.1 e h1
    | complete taskId hrun =>
      refine ⟨?_, ih.2⟩
      intro e he
      exact ih.1 e (TaskFactory.mem_RemoveTaskByName _ _ e he)

/-- Method PreCheck when the user, the command type, the content and the
working directory pass: it returns nil, and posts to the verified-task service
when reportVerified is set. -/
theorem PreCheck_all_passed (h : Host) (task : Task) (reportVerified : Bool)
    (content realWorkingDir : String)
    (huser : checkUser h task = none)
    (htype : task.taskInfo.CommandType = "RunBatScript" ∨
      task.taskInfo.CommandType = "RunPowerShellScript" ∨
      task.taskInfo.CommandType = "RunShellScript")
    (hdecode : h.base64Decode task.taskInfo.Content = .ok content)
    (hwork : h.detectWorkingDirectory (resolveHome h task) = .ok realWorkingDir) :
    PreCheck h task reportVerified =
      ({ resolveHome h task with realWorkingDir := realWorkingDir },
        (if reportVerified = true then [Event.taskVerified task.taskInfo.TaskId] else []),
        none) := by
  have hknown : ¬ (task.taskInfo.CommandType ≠ "RunBatScript" ∧
      task.taskInfo.CommandType ≠ "RunPowerShellScript" ∧
      task.taskInfo.CommandType ≠ "RunShellScript") := by
    rintro ⟨h1, h2, h3⟩
    rcases htype with ht | ht | ht
    · exact h1 ht
    · exact h2 ht
    · exact h3 ht
  rw [PreCheck_user_passed h task reportVerified huser, if_neg hknown, hdecode]
  dsimp only
  unfold resolveHome at hwork ⊢
  rcases hh : h.detectHomeDirectory task with e | d
  · rw [hh] at hwork
    dsimp only at hwork ⊢
    rw [hwork]
  · rw [hh] at hwork
    dsimp only at hwork ⊢
    rw [hwork]

/-- Method PreCheck when the working directory cannot be resolved: it returns
the error, with one report of an invalid task. -/
theorem PreCheck_workdir_failed (h : Host) (task : Task) (reportVerified : Bool)
    (content : String) (err : GoError)
    (huser : checkUser h task = none)
    (htype : task.taskInfo.CommandType = "RunBatScript" ∨
      task.taskInfo.CommandType = "RunPowerShellScript" ∨
      task.taskInfo.CommandType = "RunShellScript")
    (hdecode : h.base64Decode task.taskInfo.Content = .ok content)
    (hwork : h.detectWorkingDirectory (resolveHome h task) = .error err) :
    (PreCheck h task reportVerified).2.2 = some err ∧
    ∃ value, (PreCheck h task reportVerified).2.1 =
      [Event.invalidTask task.taskInfo.TaskId "workingDirectory" value] := by
  have hknown : ¬ (task.taskInfo.CommandType ≠ "RunBatScript" ∧
      task.taskInfo.CommandType ≠ "RunPowerShellScript" ∧
      task.taskInfo.CommandType ≠ "RunShellScript") := by
    rintro ⟨h1, h2, h3⟩
    rcases htype with ht | ht | ht
    · exact h1 ht
    · exact h2 ht
    · exact h3 ht
  rw [PreCheck_user_passed h task reportVerified huser, if_neg hknown, hdecode]
  dsimp only
  unfold resolveHome at hwork
  have hev : ∃ value,
      (if err.Is ErrWorkingDirectoryNotExist then
        SendInvalidTask task "workingDirectory" ErrWorkingDirectoryNotExist
      else if err.Is ErrDefaultWorkingDirectoryNotAvailable then
        SendInvalidTask task "workingDirectory" ErrDefaultWorkingDirectoryNotAvailable
      else
        SendInvalidTask task "workingDirectory" err.msg) =
      [Event.invalidTask task.taskInfo.TaskId "workingDirectory" value] := by
    unfold SendInvalidTask
    repeat' split
    all_goals exact ⟨_, rfl⟩
  rcases hh : h.detectHomeDirectory task with e | d
  · rw [hh] at hwork
    dsimp only at hwork ⊢
    rw [hwork]
    exact ⟨rfl, hev⟩
  · rw [hh] at hwork
    dsimp only at hwork ⊢
    rw [hwork]
    exact ⟨rfl, hev⟩

/-- When Run reaches the launch of the child, startTime is the reading of the
clock at the launch and the start timestamp its Unix milliseconds. -/
theorem runPrepare_start (h : Host) (task : Task) (p : Prepared)
    (hp : runPrepare h task = .ok p) :
    p.task.startTime = h.startNow ∧
    p.task.monotonicStartTimestamp = ToAccurateTime h.startNow := by
  unfold runPrepare at hp
  dsimp only at hp
  repeat' split at hp
  all_goals (cases hp <;> exact ⟨rfl, rfl⟩)

/-- When Run reaches the launch of the child and nobody cancels, it returns
nil; it keeps the start time and start timestamp prepared, sets endTime to the
reading of the clock after the child has ended, and the end timestamp to the
Unix milliseconds of the stable elapsed time. -/
theorem Run_timestamps (h : Host) (task : Task) (p : Prepared)
    (hp : runPrepare h task = .ok p) :
    ∃ o, Run h task = some o ∧ o.code = 0 ∧ o.err = none ∧
      o.task.startTime = p.task.startTime ∧ o.task.endTime = h.endNow ∧
      o.task.monotonicStartTimestamp = p.task.monotonicStartTimestamp ∧
      o.task.monotonicEndTimestamp =
        ToAccurateTime (ToStableElapsedTime h.endNow p.task.startTime) := by
  obtain ⟨n, evs, so, se, hn, -, hchild⟩ := runChild_spec h p
  have hS : (n : Int) ≤ max p.task.taskInfo.Output.LogQuota 12000 := by
    have : (n : Int) ≤ 8048 := by exact_mod_cast hn
    omega
  obtain ⟨report, dropped, tail, -, hfin⟩ := runFinish_spec h
    { task := { p.task with data_sended := n, exit_code := h.SyncRun.1 }
      events := p.events ++ evs
      status := h.SyncRun.2.1
      err := h.SyncRun.2.2
      stdoutWrite := so
      stderrWrite := se
      ScriptToDelete := p.ScriptToDelete } hS
  unfold Run
  simp only [hp, hchild, hfin]
  exact ⟨_, rfl, rfl, rfl, rfl, rfl, rfl, rfl⟩

/-- An early return of Run is the outcome of its first part, and carries an
error. -/
theorem Run_early_return (h : Host) (task : Task) (outcome : RunOutcome)
    (hp : runPrepare h task = .error outcome) :
    Run h task = some outcome ∧ outcome.err ≠ none := by
  have hprep := runPrepare_spec h task
  rw [hp] at hprep
  refine ⟨?_, hprep⟩
  unfold Run
  rw [hp]

/-! ## Claims -/

/-- Claim C1: for every task and output buffer of length L, with
Q = max(LogQuota, 12000) and S = data_sended ≤ Q, getReportString returns, and
what it returns is exactly the last min(L, Q - S) bytes of the output (the
whole output when L ≤ Q - S), so the body has length min(L, Q - S). -/
theorem getReportString_returns_last_bytes (task : Task) (output : Bytes)
    (hS : (task.data_sended : Int) ≤ max task.taskInfo.Output.LogQuota 12000) :
    ∃ report task',
      getReportString task output = some (report, task') ∧
      report = output.drop (output.length - min output.length
        (max task.taskInfo.Output.LogQuota 12000 - (task.data_sended : Int)).toNat) ∧
      report.length = min output.length
        (max task.taskInfo.Output.LogQuota 12000 - (task.data_sended : Int)).toNat ∧
      ((output.length : Int) ≤
          max task.taskInfo.Output.LogQuota 12000 - (task.data_sended : Int) →
        report = output) := by
  by_cases hfit : (output.length : Int) ≤
      max task.taskInfo.Output.LogQuota 12000 - (task.data_sended : Int)
  · refine ⟨output, task, getReportString_fits task output hfit, ?_, ?_, fun _ => rfl⟩
    · have : output.length - min output.length
          (max task.taskInfo.Output.LogQuota 12000 - (task.data_sended : Int)).toNat = 0 := by
        omega
      rw [this, List.drop_zero]
    · omega
  · refine ⟨_, _, getReportString_over task output hS hfit, ?_, ?_, fun h => absurd h hfit⟩
    · have : min output.length
          (max task.taskInfo.Output.LogQuota 12000 - (task.data_sended : Int)).toNat =
          (max task.taskInfo.Output.LogQuota 12000 - (task.data_sended : Int)).toNat := by
        omega
      rw [this]
    · rw [List.length_drop]
      omega

theorem getReportString_returns_last_bytes_witness :
    ((demoTask.data_sended : Int) ≤ max demoTask.taskInfo.Output.LogQuota 12000) ∧
    ∃ report task',
      getReportString demoTask [104, 105, 10] = some (report, task') ∧
      report = ([104, 105, 10] : Bytes).drop (([104, 105, 10] : Bytes).length -
        min ([104, 105, 10] : Bytes).length
        (max demoTask.taskInfo.Output.LogQuota 12000 - (demoTask.data_sended : Int)).toNat) ∧
      report.length = min ([104, 105, 10] : Bytes).length
        (max demoTask.taskInfo.Output.LogQuota 12000 - (demoTask.data_sended : Int)).toNat ∧
      ((([104, 105, 10] : Bytes).length : Int) ≤
          max demoTask.taskInfo.Output.LogQuota 12000 - (demoTask.data_sended : Int) →
        report = [104, 105, 10]) :=
  ⟨by decide, getReportString_returns_last_bytes demoTask [104, 105, 10] (by decide)⟩

/-- Claim C2, evaluation of the code at the failing input: a first call on a
12400-byte output sets droped to 400; on the next invocation of the same
(reusable) task a 3-byte output fits in the quota, the whole output is
returned, and droped is still 400, although max(0, L - (Q - S)) = 0. -/
theorem getReportString_keeps_stale_droped :
    ∃ report1 task1 report2 task2,
      getReportString demoTask (List.replicate 12400 0) = some (report1, task1) ∧
      task1.droped = 400 ∧
      getReportString { task1 with output := [], data_sended := 0 } [104, 105, 10]
        = some (report2, task2) ∧
      report2 = [104, 105, 10] ∧
      task2.droped = 400 ∧
      max 0 ((([104, 105, 10] : Bytes).length : Int) -
        (max task1.taskInfo.Output.LogQuota 12000 - 0)) = 0 := by
  have hS : (demoTask.data_sended : Int) ≤ max demoTask.taskInfo.Output.LogQuota 12000 := by
    decide
  have hover : ¬ ((List.replicate 12400 (0 : UInt8)).length : Int) ≤
      max demoTask.taskInfo.Output.LogQuota 12000 - (demoTask.data_sended : Int) := by
    rw [List.length_replicate]; decide
  refine ⟨_, _, _, _, getReportString_over demoTask _ hS hover, ?_,
    getReportString_fits _ _ ?_, rfl, ?_, ?_⟩
  · rw [List.length_replicate]; decide
  · decide
  · rw [List.length_replicate]; decide
  · decide

/-- Claim C3 refuted at LogQuota = 100, data_sended = 0 and a 500-byte output:
getReportString returns all 500 bytes and leaves droped at 0; it does not
return a 100-byte body with droped = 400. -/
theorem quota_overflow_100_refuted :
    demoTask.taskInfo.Output.LogQuota = 100 ∧ demoTask.data_sended = 0 ∧
    (List.replicate 500 (0 : UInt8)).length = 500 ∧
    getReportString demoTask (List.replicate 500 0) = some (List.replicate 500 0, demoTask) ∧
    demoTask.droped = 0 ∧
    ¬ ∃ report task',
      getReportString demoTask (List.replicate 500 0) = some (report, task') ∧
      report.length = 100 ∧ task'.droped = 400 := by
  have hfit : ((List.replicate 500 (0 : UInt8)).length : Int) ≤
      max demoTask.taskInfo.Output.LogQuota 12000 - (demoTask.data_sended : Int) := by
    rw [List.length_replicate]; decide
  refine ⟨rfl, rfl, List.length_replicate _ _, getReportString_fits demoTask _ hfit, rfl, ?_⟩
  rw [getReportString_fits demoTask _ hfit]
  rintro ⟨report, task', heq, hlen, -⟩
  have h1 : report = List.replicate 500 0 := by
    have := congrArg Prod.fst (Option.some.inj heq)
    exact this.symm
  rw [h1, List.length_replicate] at hlen
  exact absurd hlen (by decide)

/-- Claim C3 as amended: with LogQuota = 100 the quota in force is the floor
12000, so for data_sended = 0 and a 500-byte output getReportString returns the
whole output (500 bytes) and leaves droped as it was. -/
theorem quota_floor_keeps_500_bytes (task : Task) (output : Bytes)
    (hquota : task.taskInfo.Output.LogQuota = 100) (hsent : task.data_sended = 0)
    (hlen : output.length = 500) :
    ∃ report task',
      getReportString task output = some (report, task') ∧
      report = output ∧ report.length = 500 ∧ task'.droped = task.droped := by
  have hfit : (output.length : Int) ≤
      max task.taskInfo.Output.LogQuota 12000 - (task.data_sended : Int) := by
    rw [hquota, hsent, hlen]; decide
  exact ⟨output, task, getReportString_fits task output hfit, rfl, hlen, rfl⟩

theorem quota_floor_keeps_500_bytes_witness :
    demoTask.taskInfo.Output.LogQuota = 100 ∧ demoTask.data_sended = 0 ∧
    (List.replicate 500 (7 : UInt8)).length = 500 ∧
    ∃ report task',
      getReportString demoTask (List.replicate 500 7) = some (report, task') ∧
      report = List.replicate 500 7 ∧ report.length = 500 ∧ task'.droped = demoTask.droped :=
  ⟨rfl, rfl, List.length_replicate _ _,
    quota_floor_keeps_500_bytes demoTask (List.replicate 500 7) rfl rfl
      (List.length_replicate _ _)⟩

/-- Claim C4: toRunTaskInfo never returns an error, and the Repeat of its
result is the record's repeat field when that is non-empty, Period when it is
empty and Cronat is non-empty, Once when both are empty. -/
theorem toRunTaskInfo_repeat (t : taskInfo) (instanceId : String) :
    ∃ r, t.toRunTaskInfo instanceId = Except.ok r ∧
      (t.Repeat ≠ "" → r.Repeat = t.Repeat) ∧
      (t.Repeat = "" → t.TaskInfo.Cronat ≠ "" → r.Repeat = "Period") ∧
      (t.Repeat = "" → t.TaskInfo.Cronat = "" → r.Repeat = "Once") := by
  refine ⟨_, rfl, ?_, ?_, ?_⟩
  · intro h
    simp only [h, if_false]
    split <;> rfl
  · intro h hc
    simp only [h, hc, if_true, ne_eq, not_false_eq_true]
    split <;> rfl
  · intro h hc
    simp only [h, hc, if_true, ne_eq, not_true_eq_false, if_false]
    split <;> rfl

/-- Claim C5 refuted: Cancel is called while the child runs, SyncRun then
returns Timeout, and Run still posts a timeout report after the canceled one. -/
theorem run_posts_timeout_after_cancel :
    (RunWithCancel timeoutHost ⟨2000000000⟩ demoTask).map
        (fun o => (o.task.canceled,
          o.events.filter (fun x => x.isRunTerminal || x.isCanceledReport))) =
      some (true,
        [Event.stoppedOutput "t-1" 1000 2000 0 0 [] "killed",
         Event.timeoutOutput "t-1" 1000 3000 1 0 [104, 105, 10]]) := by
  simp [RunWithCancel, runPrepare, PreCheck, timeoutHost, demoHost, demoTask, demoInfo, NewTask,
    scriptFileName, resolveParameters, encodeContent, checkSaved, setScriptPermission,
    chooseInterpreter, runChild, sendRunningTicks, Cancel, runFinish, reportTerminal,
    getReportString, tryReadAll_small, IsCancled, defaultQuoto, sendOutput, SendError,
    sendTaskStart, convertOutput, ToAccurateTime, ToStableElapsedTime, Time.IsZero, Time.zero,
    Event.isRunTerminal, Event.isCanceledReport, stopReasonKilled]

/-- Claim C5 as amended: when the canceled flag is set before Run reaches its
terminal-reporting step and SyncRun returned status Success, the last part of
Run returns and posts no finished, failed, error, timeout or canceled report;
the flag stays set. -/
theorem runFinish_canceled_success_posts_nothing (h : Host) (e : Ended)
    (hcan : e.task.canceled = true) (hst : e.status = ProcStatus.Success) :
    ∃ o rest, runFinish h e = some o ∧ o.events = e.events ++ rest ∧
      rest.filter (fun x => x.isRunTerminal || x.isCanceledReport) = [] ∧
      o.task.canceled = true := by
  refine ⟨{ code := 0
            err := none
            task :=
              { e.task with
                output := []
                endTime := h.endNow
                monotonicEndTimestamp :=
                  ToAccurateTime (ToStableElapsedTime h.endNow e.task.startTime) }
            events := e.events ++
              ((if e.ScriptToDelete ≠ "" then [Event.removeFile e.ScriptToDelete] else []) ++
                (if e.status = ProcStatus.Success then
                  if e.task.exit_code = h.exitcodePoweroff then [Event.powerdown]
                  else if e.task.exit_code = h.exitcodeReboot then [Event.reboot]
                  else []
                else [])) }, _, ?_, rfl,
    runFinish_tail_no_report e.ScriptToDelete e.status
      e.task.exit_code h.exitcodePoweroff h.exitcodeReboot, hcan⟩
  unfold runFinish reportTerminal
  simp [hst, hcan, IsCancled]

theorem runFinish_canceled_success_posts_nothing_witness :
    ∃ o rest, runFinish demoHost { demoEnded with task := { demoEnded.task with canceled := true } }
        = some o ∧
      o.events = ({ demoEnded with task := { demoEnded.task with canceled := true } } : Ended).events
        ++ rest ∧
      rest.filter (fun x => x.isRunTerminal || x.isCanceledReport) = [] ∧
      o.task.canceled = true :=
  runFinish_canceled_success_posts_nothing demoHost
    { demoEnded with task := { demoEnded.task with canceled := true } } rfl rfl

/-- Claim C6 refuted: a second Cancel on the same task posts a second canceled
report, two calls yield two canceled posts. -/
theorem second_cancel_posts_again :
    ∃ t1 ev1 t2 ev2,
      Cancel demoHost ⟨2000000000⟩ demoTask = some (t1, ev1) ∧
      Cancel demoHost ⟨2500000000⟩ t1 = some (t2, ev2) ∧
      t2.canceled = true ∧
      ev2.countP Event.isCanceledReport = 1 ∧
      (ev1 ++ ev2).countP Event.isCanceledReport = 2 := by
  refine ⟨_, _, _, _, rfl, rfl, ?_, ?_, ?_⟩ <;> decide

/-- Claim C6 as amended: Cancel is idempotent on the canceled flag only.  For
every task within quota, a first and a second Cancel both return, both leave
canceled = true, and each posts exactly one canceled report. -/
theorem cancel_twice_posts_twice (h : Host) (now1 now2 : Time) (task : Task)
    (hS : (task.data_sended : Int) ≤ max task.taskInfo.Output.LogQuota 12000) :
    ∃ t1 ev1 t2 ev2,
      Cancel h now1 task = some (t1, ev1) ∧
      Cancel h now2 t1 = some (t2, ev2) ∧
      t1.canceled = true ∧ t2.canceled = true ∧
      ev1.countP Event.isCanceledReport = 1 ∧
      ev2.countP Event.isCanceledReport = 1 := by
  obtain ⟨r1, d1, h1⟩ := Cancel_spec h now1 task hS
  obtain ⟨r2, d2, h2⟩ := Cancel_spec h now2
    { task with
      canceled := true
      endTime := now1
      monotonicEndTimestamp :=
        if task.startTime.IsZero then ToAccurateTime now1
        else ToAccurateTime (ToStableElapsedTime now1 task.startTime)
      droped := d1 } hS
  exact ⟨_, _, _, _, h1, h2, rfl, rfl, rfl, rfl⟩

theorem cancel_twice_posts_twice_witness :
    ((demoTask.data_sended : Int) ≤ max demoTask.taskInfo.Output.LogQuota 12000) ∧
    ∃ t1 ev1 t2 ev2,
      Cancel demoHost ⟨2000000000⟩ demoTask = some (t1, ev1) ∧
      Cancel demoHost ⟨2500000000⟩ t1 = some (t2, ev2) ∧
      t1.canceled = true ∧ t2.canceled = true ∧
      ev1.countP Event.isCanceledReport = 1 ∧
      ev2.countP Event.isCanceledReport = 1 :=
  ⟨by decide, cancel_twice_posts_twice demoHost ⟨2000000000⟩ ⟨2500000000⟩ demoTask (by decide)⟩

/-- Claim C7: for a task that is not canceled (and within quota), the last part
of Run returns and posts exactly one report, determined by the result of
SyncRun: Fail with nil error gives an error-output post without error code
(sendOutput "failed"); Fail with an error gives an error-output post carrying
the code and description prefix chosen by categorizeSyscallErrno (SendError);
Timeout gives a timeout-output post; Success gives a finish-output post. -/
theorem run_terminal_report_by_status (h : Host) (e : Ended)
    (hcan : e.task.canceled = false)
    (hS : (e.task.data_sended : Int) ≤ max e.task.taskInfo.Output.LogQuota 12000) :
    ∃ o ev rest dropped body,
      runFinish h e = some o ∧
      o.events = e.events ++ rest ∧
      rest.filter (fun x => x.isRunTerminal || x.isCanceledReport) = [ev] ∧
      (e.status = ProcStatus.Fail → e.err = none →
        ev = Event.errorOutput e.task.taskInfo.TaskId e.task.monotonicStartTimestamp
          (ToAccurateTime (ToStableElapsedTime h.endNow e.task.startTime))
          e.task.exit_code dropped none body) ∧
      (∀ err, e.status = ProcStatus.Fail → e.err = some err →
        ev = Event.errorOutput e.task.taskInfo.TaskId e.task.monotonicStartTimestamp
          (ToAccurateTime (ToStableElapsedTime h.endNow e.task.startTime))
          e.task.exit_code dropped
          (some ((h.categorizeSyscallErrno err h.wrapErrExecuteScriptFailed).1,
            (h.categorizeSyscallErrno err h.wrapErrExecuteScriptFailed).2 ++ ": " ++ err.msg))
          body) ∧
      (e.status = ProcStatus.Timeout →
        ev = Event.timeoutOutput e.task.taskInfo.TaskId e.task.monotonicStartTimestamp
          (ToAccurateTime (ToStableElapsedTime h.endNow e.task.startTime))
          e.task.exit_code dropped body) ∧
      (e.status = ProcStatus.Success →
        ev = Event.finishOutput e.task.taskInfo.TaskId e.task.monotonicStartTimestamp
          (ToAccurateTime (ToStableElapsedTime h.endNow e.task.startTime))
          e.task.exit_code dropped body) := by
  obtain ⟨report, dropped, tail, htail, hfin⟩ := runFinish_spec h e hS
  have hflag : ∀ ev : Event, (ev.isRunTerminal || ev.isCanceledReport) = true →
      ((ev :: (if e.task.onFinish = true then [Event.onFinish] else [])) ++ tail).filter
        (fun x => x.isRunTerminal || x.isCanceledReport) = [ev] := by
    intro ev hev
    rw [List.filter_append, htail, List.append_nil, List.filter_cons, if_pos hev]
    split <;> rfl
  rcases hst : e.status with _ | _ | _ | _
  · -- Success
    simp only [hst, hcan, if_true] at hfin
    exact ⟨_, Event.finishOutput e.task.taskInfo.TaskId e.task.monotonicStartTimestamp
        (ToAccurateTime (ToStableElapsedTime h.endNow e.task.startTime))
        e.task.exit_code dropped (convertOutput h report), _, dropped, convertOutput h report,
      hfin, rfl, hflag _ rfl, (by intro hc; cases hc), (by intro _ hc; cases hc),
      (by intro hc; cases hc), fun _ => rfl⟩
  · -- Timeout
    simp only [hst] at hfin
    exact ⟨_, Event.timeoutOutput e.task.taskInfo.TaskId e.task.monotonicStartTimestamp
        (ToAccurateTime (ToStableElapsedTime h.endNow e.task.startTime))
        e.task.exit_code dropped (convertOutput h report), _, dropped, convertOutput h report,
      hfin, rfl, hflag _ rfl, (by intro hc; cases hc), (by intro _ hc; cases hc),
      fun _ => rfl, (by intro hc; cases hc)⟩
  · -- Fail
    rcases herr : e.err with _ | err
    · simp only [hst, herr] at hfin
      exact ⟨_, Event.errorOutput e.task.taskInfo.TaskId e.task.monotonicStartTimestamp
          (ToAccurateTime (ToStableElapsedTime h.endNow e.task.startTime))
          e.task.exit_code dropped none (convertOutput h report), _, dropped,
        convertOutput h report,
        hfin, rfl, hflag _ rfl, fun _ _ => rfl, (by intro _ _ hc; cases hc),
        (by intro hc; cases hc), (by intro hc; cases hc)⟩
    · simp only [hst, herr, SendError] at hfin
      refine ⟨_,
        Event.errorOutput e.task.taskInfo.TaskId e.task.monotonicStartTimestamp
          (ToAccurateTime (ToStableElapsedTime h.endNow e.task.startTime))
          e.task.exit_code dropped
          (some ((h.categorizeSyscallErrno err h.wrapErrExecuteScriptFailed).1,
            (h.categorizeSyscallErrno err h.wrapErrExecuteScriptFailed).2 ++ ": " ++ err.msg))
          (if 0 < report.length ∧ h.G_IsWindows = true then
            if h.GetDefaultLang ≠ 0x409 then h.GbkToUtf8 report else report
          else report),
        _, dropped,
        (if 0 < report.length ∧ h.G_IsWindows = true then
            if h.GetDefaultLang ≠ 0x409 then h.GbkToUtf8 report else report
          else report),
        hfin, rfl, ?_, (by intro _ hc; cases hc), ?_,
        (by intro hc; cases hc), (by intro hc; cases hc)⟩
      · rw [List.filter_append, htail, List.append_nil]
        rfl
      · intro err' _ herr'
        cases herr'
        rfl
  · -- a status outside the three constants is not covered by the claim
    simp only [hst, hcan, if_true] at hfin
    exact ⟨_, Event.finishOutput e.task.taskInfo.TaskId e.task.monotonicStartTimestamp
        (ToAccurateTime (ToStableElapsedTime h.endNow e.task.startTime))
        e.task.exit_code dropped (convertOutput h report), _, dropped, convertOutput h report,
      hfin, rfl, hflag _ rfl, (by intro hc; cases hc), (by intro _ hc; cases hc),
      (by intro hc; cases hc), (by intro hc; cases hc)⟩

theorem run_terminal_report_by_status_witness :
    demoEnded.task.canceled = false ∧
    ((demoEnded.task.data_sended : Int) ≤ max demoEnded.task.taskInfo.Output.LogQuota 12000) ∧
    ∃ o ev rest dropped body,
      runFinish demoHost demoEnded = some o ∧
      o.events = demoEnded.events ++ rest ∧
      rest.filter (fun x => x.isRunTerminal || x.isCanceledReport) = [ev] ∧
      ev = Event.finishOutput "t-1" 1000
        (ToAccurateTime (ToStableElapsedTime demoHost.endNow demoEnded.task.startTime))
        0 dropped body := by
  obtain ⟨o, ev, rest, dropped, body, h1, h2, h3, -, -, -, h7⟩ :=
    run_terminal_report_by_status demoHost demoEnded rfl (by decide)
  exact ⟨rfl, by decide, o, ev, rest, dropped, body, h1, h2, h3, h7 rfl⟩

/-- Claim C8, evaluation of the code at the failing input: PreCheck passes,
setting the permission of the shell script fails, the child is launched and
ends with Success, nobody cancels; Run posts two terminal reports, an
error-output for the permission failure and a finish-output. -/
theorem run_chmod_failure_posts_two_reports :
    (PreCheck chmodFailHost demoTask false).2.2 = none ∧
    (Run chmodFailHost demoTask).map (fun o => (o.err, o.task.canceled, o.events)) =
      some (none, false,
        [Event.saveScriptFile "/var/scripts/t-1.sh" "echo hi",
         Event.chmod "/var/scripts/t-1.sh",
         Event.errorOutput "t-1" 0 0 0 0
           (some (8, "SetExecutablePermissionFailed: Failed to set executable permission of shell script: operation not permitted"))
           [],
         Event.setHomeDir "/root",
         Event.syncRun "/root" "sh" ["-c", "/var/scripts/t-1.sh"] 60,
         Event.finishOutput "t-1" 1000 3000 0 0 [104, 105, 10]]) ∧
    (Run chmodFailHost demoTask).map (fun o => o.events.countP Event.isRunTerminal) = some 2 := by
  refine ⟨?_, ?_, ?_⟩ <;>
  simp [Run, runPrepare, PreCheck, chmodFailHost, demoHost, demoTask, demoInfo, NewTask,
    scriptFileName, resolveParameters, encodeContent, checkSaved, setScriptPermission,
    chooseInterpreter, runChild, sendRunningTicks, runFinish, reportTerminal,
    getReportString, tryReadAll_small, IsCancled, defaultQuoto, sendOutput, SendError,
    sendTaskStart, convertOutput, ToAccurateTime, ToStableElapsedTime,
    Event.isRunTerminal, SendInvalidTask, sendTaskVerified]

/-- Claim C9: with stableElapsedTime(end, start) = start + max(0, end - start)
and toAccurateTime = Unix milliseconds, the end timestamp never precedes the
start timestamp.  For all readings (also end before start).  For Run on any
task: whenever Run gets as far as launching the child it returns nil with
startTime and endTime the two readings of the clock, monotonicStartTimestamp
the Unix milliseconds of the start reading and monotonicEndTimestamp the Unix
milliseconds of stableElapsedTime(end reading, start reading), which is not
below the start timestamp; an early return of Run carries an error and
computes no end timestamp.  For Cancel on a started task (non-zero startTime,
start timestamp taken from it) within quota: monotonicEndTimestamp is the Unix
milliseconds of stableElapsedTime(now, startTime), not below the start
timestamp. -/
theorem monotonicEnd_ge_monotonicStart (h : Host) (now : Time) (task : Task) :
    (∀ startTime endTime : Time,
      ToAccurateTime startTime ≤ ToAccurateTime (ToStableElapsedTime endTime startTime)) ∧
    (∀ p, runPrepare h task = .ok p →
      ∃ o, Run h task = some o ∧ o.err = none ∧
        o.task.startTime = h.startNow ∧ o.task.endTime = h.endNow ∧
        o.task.monotonicStartTimestamp = ToAccurateTime h.startNow ∧
        o.task.monotonicEndTimestamp =
          ToAccurateTime (ToStableElapsedTime h.endNow h.startNow) ∧
        o.task.monotonicStartTimestamp ≤ o.task.monotonicEndTimestamp) ∧
    (∀ outcome, runPrepare h task = .error outcome →
      Run h task = some outcome ∧ outcome.err ≠ none) ∧
    (task.startTime.IsZero = false →
      task.monotonicStartTimestamp = ToAccurateTime task.startTime →
      (task.data_sended : Int) ≤ max task.taskInfo.Output.LogQuota 12000 →
      ∃ t ev, Cancel h now task = some (t, ev) ∧
        t.monotonicEndTimestamp = ToAccurateTime (ToStableElapsedTime now task.startTime) ∧
        t.monotonicStartTimestamp ≤ t.monotonicEndTimestamp) := by
  refine ⟨fun s e => ToStableElapsedTime_ge e s, ?_, Run_early_return h task, ?_⟩
  · intro p hp
    obtain ⟨hst, hms⟩ := runPrepare_start h task p hp
    obtain ⟨o, hrun, -, herr, h1, h2, h3, h4⟩ := Run_timestamps h task p hp
    refine ⟨o, hrun, herr, ?_, h2, ?_, ?_, ?_⟩
    · rw [h1, hst]
    · rw [h3, hms]
    · rw [h4, hst]
    · rw [h3, hms, h4, hst]
      exact ToStableElapsedTime_ge h.endNow h.startNow
  · intro hnz hstart hS
    obtain ⟨report, dropped, hc⟩ := Cancel_spec h now task hS
    refine ⟨_, _, hc, ?_, ?_⟩
    · simp only [hnz, Bool.false_eq_true, if_false]
    · simp only [hnz, Bool.false_eq_true, if_false, hstart]
      exact ToStableElapsedTime_ge now task.startTime

theorem monotonicEnd_ge_monotonicStart_witness :
    (Run demoHost demoTask).map
        (fun o => (o.task.monotonicStartTimestamp, o.task.monotonicEndTimestamp))
      = some (1000, 3000) ∧
    clockSetBackHost.endNow.unixNano < clockSetBackHost.startNow.unixNano ∧
    (Run clockSetBackHost demoTask).map
        (fun o => (o.task.monotonicStartTimestamp, o.task.monotonicEndTimestamp))
      = some (1000, 1000) ∧
    demoEnded.task.startTime.IsZero = false ∧
    (⟨500000000⟩ : Time).unixNano < demoEnded.task.startTime.unixNano ∧
    ∃ t ev, Cancel demoHost ⟨500000000⟩ demoEnded.task = some (t, ev) ∧
      t.monotonicStartTimestamp ≤ t.monotonicEndTimestamp := by
  obtain ⟨-, hrun, -, hcancel⟩ :=
    monotonicEnd_ge_monotonicStart demoHost ⟨500000000⟩ demoEnded.task
  obtain ⟨-, hrun1, -, -⟩ := monotonicEnd_ge_monotonicStart demoHost ⟨0⟩ demoTask
  obtain ⟨-, hrun2, -, -⟩ := monotonicEnd_ge_monotonicStart clockSetBackHost ⟨0⟩ demoTask
  obtain ⟨o1, ho1, -, -, -, hs1, he1, -⟩ := hrun1
    { task := { demoTask with
                  envHomeDir := "/root", realWorkingDir := "/root"
                  startTime := ⟨1000000000⟩, monotonicStartTimestamp := 1000 }
      events := [Event.saveScriptFile "/var/scripts/t-1.sh" "echo hi",
                 Event.chmod "/var/scripts/t-1.sh"]
      fileName := "sh"
      args := ["-c", "/var/scripts/t-1.sh"]
      timeout := 60
      ScriptToDelete := "" } rfl
  obtain ⟨o2, ho2, -, -, -, hs2, he2, -⟩ := hrun2
    { task := { demoTask with
                  envHomeDir := "/root", realWorkingDir := "/root"
                  startTime := ⟨1000000000⟩, monotonicStartTimestamp := 1000 }
      events := [Event.saveScriptFile "/var/scripts/t-1.sh" "echo hi",
                 Event.chmod "/var/scripts/t-1.sh"]
      fileName := "sh"
      args := ["-c", "/var/scripts/t-1.sh"]
      timeout := 60
      ScriptToDelete := "" } rfl
  obtain ⟨t, ev, h1, -, h3⟩ := hcancel (by decide) (by decide) (by decide)
  refine ⟨?_, by decide, ?_, by decide, by decide, t, ev, h1, h3⟩
  · rw [ho1, Option.map_some', hs1, he1]
    decide
  · rw [ho2, Option.map_some', hs2, he2]
    decide

/-- Claim C10: in every state reachable by timer firings and completions, each
TaskId has at most one invocation in flight, an invocation in flight is in the
Task Factory, and a timer firing that finds the id in the factory leaves the
state (factory and pool) unchanged. -/
theorem periodic_invocations_never_overlap (g : Engine) (hg : g.Reachable) :
    (∀ taskId, g.inFlight taskId ≤ 1) ∧
    (∀ taskId, 0 < g.inFlight taskId → g.taskFactory.ContainsTaskByName taskId = true) ∧
    (∀ s : PeriodicTaskSchedule,
      g.taskFactory.ContainsTaskByName s.reusableInvocation.taskInfo.TaskId = true →
      s.startExclusiveInvocation g = g) := by
  refine ⟨fun taskId => (Exclusive_of_Reachable g hg taskId).1,
    fun taskId => (Exclusive_of_Reachable g hg taskId).2, ?_⟩
  intro s hc
  unfold PeriodicTaskSchedule.startExclusiveInvocation
  rw [if_pos hc]

theorem periodic_invocations_never_overlap_witness :
    (PeriodicTaskSchedule.startExclusiveInvocation ⟨some 1, demoTask⟩ Engine.init).Reachable ∧
    (PeriodicTaskSchedule.startExclusiveInvocation ⟨some 1, demoTask⟩ Engine.init).inFlight "t-1"
      = 1 ∧
    PeriodicTaskSchedule.startExclusiveInvocation ⟨some 1, demoTask⟩
        (PeriodicTaskSchedule.startExclusiveInvocation ⟨some 1, demoTask⟩ Engine.init) =
      PeriodicTaskSchedule.startExclusiveInvocation ⟨some 1, demoTask⟩ Engine.init :=
  ⟨Engine.Reachable.step Engine.Reachable.init (Engine.Step.fire _ _),
    by decide,
    (periodic_invocations_never_overlap _
      (Engine.Reachable.step Engine.Reachable.init (Engine.Step.fire _ _))).2.2
      ⟨some 1, demoTask⟩ (by decide)⟩

/-- Claim C11 refuted: after a Period record has been dispatched and its timer
has fired once, a state reachable through dispatchRunTask and
startExclusiveInvocation, the Task Factory holds a task whose Repeat is Period,
none of the non-periodic kinds. -/
theorem factory_holds_periodic_task :
    firedAgent.Reachable ∧
    ∃ e ∈ firedAgent.engine.taskFactory,
      e.2.taskInfo.Repeat = RunTaskPeriod ∧ ¬ NonPeriodic e.2.taskInfo.Repeat := by
  refine ⟨firedAgent_Reachable, ("t-cron", NewTask periodInfo none false), by decide, rfl, ?_⟩
  unfold NonPeriodic
  decide

/-- Claim C11 as amended: in every reachable state every task in the Task
Factory is non-periodic (Once, NextRebootOnly, EveryReboot) or a Period task;
dispatchRunTask adds non-periodic tasks only and dispatchTestTask adds none, so
a Period task in the factory is the invocation registered by
startExclusiveInvocation. -/
theorem factory_kinds (g : Agent) (hg : g.Reachable) :
    (∀ e ∈ g.engine.taskFactory,
      NonPeriodic e.2.taskInfo.Repeat ∨ e.2.taskInfo.Repeat = RunTaskPeriod) ∧
    (∀ ts taskInfo, ∀ e ∈ (dispatchRunTask ts taskInfo g).engine.taskFactory,
      e ∈ g.engine.taskFactory ∨ NonPeriodic e.2.taskInfo.Repeat) ∧
    (∀ taskInfo, (dispatchTestTask taskInfo g).engine.taskFactory = g.engine.taskFactory) := by
  refine ⟨(Reachable_invariants g hg).2.2, ?_, fun taskInfo => ?_⟩
  · intro ts taskInfo e he
    unfold dispatchRunTask at he
    split at he
    · exact Or.inl he
    · split at he
      · rename_i hnp
        rcases TaskFactory.mem_AddTask _ _ e he with h1 | h1
        · rw [h1]
          exact Or.inr hnp
        · exact Or.inl h1
      · split at he
        · rcases htm : g.timerManager with _ | tm
          · rw [schedulePeriodicTask_uninitialized ts taskInfo g htm] at he
            exact Or.inl he
          · by_cases hkey : taskInfo.TaskId ∈ g.schedules.map Prod.fst
            · rw [schedulePeriodicTask_registered ts taskInfo g tm htm hkey] at he
              exact Or.inl he
            · obtain ⟨-, hb, -, -⟩ := (Reachable_invariants g hg).1.2.2 tm htm
              rw [schedulePeriodicTask_fresh ts taskInfo g tm htm hb hkey] at he
              left
              rcases hc : ts.createErr taskInfo.Cronat with _ | err
              · rcases hr : ts.runErr taskInfo.Cronat with _ | err
                · rw [hc, hr] at he; exact he
                · rw [hc, hr] at he; exact he
              · rw [hc] at he; exact he
        · exact Or.inl he
  · rw [(dispatchTestTask_frame taskInfo g).1]

theorem factory_kinds_witness :
    firedAgent.Reachable ∧
    ∀ e ∈ firedAgent.engine.taskFactory,
      NonPeriodic e.2.taskInfo.Repeat ∨ e.2.taskInfo.Repeat = RunTaskPeriod :=
  ⟨firedAgent_Reachable, (factory_kinds firedAgent firedAgent_Reachable).1⟩


/-- Claim C12: when fetching is enabled and the try-lock on FetchingTaskLock
fails, Fetch returns ErrUpdatingProcedureRunning = -7, leaves the process-wide
variables (FetchingTaskCounter included) as they were, never calls fetchTasks
(so nothing is fetched or dispatched) and leaves the dispatcher state alone. -/
theorem Fetch_lock_timeout {W : Type}
    (fetchTasks : FetchReason → String → Int → Bool → W → W × Int)
    (releasedInTime from_kick : Bool) (taskId : String) (taskType : Int) (isColdstart : Bool)
    (s : FetchGlobals) (w : W)
    (henabled : s.enabled = true)
    (hrefused : (TryLockWithTimeout releasedInTime s).1 = false) :
    (Fetch fetchTasks releasedInTime from_kick taskId taskType isColdstart s w).task_size = -7 ∧
    (Fetch fetchTasks releasedInTime from_kick taskId taskType isColdstart s w).globals = s ∧
    (Fetch fetchTasks releasedInTime from_kick taskId taskType isColdstart s w).world = w ∧
    (Fetch fetchTasks releasedInTime from_kick taskId taskType isColdstart s w).trace =
      [FetchEvent.tryLockWithTimeout 2 false] := by
  unfold Fetch
  rw [if_neg (by simp [henabled]), TryLockWithTimeout_refused releasedInTime s hrefused]
  exact ⟨rfl, rfl, rfl, rfl⟩

theorem Fetch_lock_timeout_witness :
    demoGlobals.enabled = true ∧
    (TryLockWithTimeout false { demoGlobals with lock := LockOwner.other }).1 = false ∧
    (Fetch countingFetchTasks false true "" NormalTaskType false
      { demoGlobals with lock := LockOwner.other } 0).task_size = ErrUpdatingProcedureRunning ∧
    (Fetch countingFetchTasks false true "" NormalTaskType false
      { demoGlobals with lock := LockOwner.other } 0).globals.counter = 2 ∧
    (Fetch countingFetchTasks false true "" NormalTaskType false
      { demoGlobals with lock := LockOwner.other } 0).world = 0 :=
  ⟨rfl, rfl,
    (Fetch_lock_timeout countingFetchTasks false true "" NormalTaskType false
      { demoGlobals with lock := LockOwner.other } 0 rfl rfl).1,
    rfl, rfl⟩

/-- Claim C13: on every return path of Fetch (disabled, lock timeout, normal,
kick retry) FetchingTaskCounter is back at its value before the call and the
fetcher does not hold FetchingTaskLock; at every call of fetchTasks the counter
is one higher than before the call of Fetch and the lock is released. -/
theorem Fetch_counter_and_lock {W : Type}
    (fetchTasks : FetchReason → String → Int → Bool → W → W × Int)
    (releasedInTime from_kick : Bool) (taskId : String) (taskType : Int) (isColdstart : Bool)
    (s : FetchGlobals) (w : W) (hnot : s.lock ≠ LockOwner.fetcher) :
    (Fetch fetchTasks releasedInTime from_kick taskId taskType isColdstart s w).globals.counter
      = s.counter ∧
    (Fetch fetchTasks releasedInTime from_kick taskId taskType isColdstart s w).globals.lock
      ≠ LockOwner.fetcher ∧
    ∀ reason id ty cold globals task_size,
      FetchEvent.fetchTasks reason id ty cold globals task_size ∈
        (Fetch fetchTasks releasedInTime from_kick taskId taskType isColdstart s w).trace →
      globals.counter = s.counter + 1 ∧ globals.lock = LockOwner.free := by
  by_cases hen : s.enabled = true
  · rcases hacq : (TryLockWithTimeout releasedInTime s).1 with _ | _
    · obtain ⟨-, h2, -, h4⟩ := Fetch_lock_timeout fetchTasks releasedInTime from_kick taskId
        taskType isColdstart s w hen hacq
      rw [h2, h4]
      exact ⟨rfl, hnot, by simp⟩
    · rw [Fetch_acquired fetchTasks releasedInTime from_kick taskId taskType isColdstart s w
        hen hacq]
      split
      · refine ⟨by simp, by simp, ?_⟩
        intro reason id ty cold globals task_size hmem
        simp only [List.mem_cons, List.mem_singleton, FetchEvent.fetchTasks.injEq,
          reduceCtorEq, false_or, List.not_mem_nil, or_false] at hmem
        rcases hmem with h | h <;>
          · obtain ⟨-, -, -, -, hg, -⟩ := h
            subst hg
            exact ⟨rfl, rfl⟩
      · refine ⟨by simp, by simp, ?_⟩
        intro reason id ty cold globals task_size hmem
        simp only [List.mem_cons, List.mem_singleton, FetchEvent.fetchTasks.injEq,
          reduceCtorEq, false_or, List.not_mem_nil, or_false] at hmem
        obtain ⟨-, -, -, -, hg, -⟩ := hmem
        subst hg
        exact ⟨rfl, rfl⟩
  · have hdis : s.enabled = false := by simpa using hen
    unfold Fetch
    rw [if_pos hdis]
    exact ⟨rfl, hnot, by simp⟩

theorem Fetch_counter_and_lock_witness :
    demoGlobals.lock ≠ LockOwner.fetcher ∧
    (Fetch countingFetchTasks false true "" NormalTaskType false demoGlobals 0).globals.counter
      = 2 ∧
    (Fetch countingFetchTasks false true "" NormalTaskType false demoGlobals 0).trace =
      [FetchEvent.tryLockWithTimeout 2 true, FetchEvent.unlock,
       FetchEvent.fetchTasks "kickoff" "" 0 false
         { enabled := true, counter := 3, lock := LockOwner.free } 0,
       FetchEvent.sleep 3,
       FetchEvent.fetchTasks "kickoff" "" 0 false
         { enabled := true, counter := 3, lock := LockOwner.free } 3] :=
  ⟨by decide,
    (Fetch_counter_and_lock countingFetchTasks false true "" NormalTaskType false demoGlobals 0
      (by decide)).1,
    by decide⟩

/-- Claim C14: an enabled Fetch that acquires the lock calls fetchTasks twice
when from_kick is true and the first call returned 0, once otherwise, and
returns the result of the last call. -/
theorem Fetch_calls_fetchTasks {W : Type}
    (fetchTasks : FetchReason → String → Int → Bool → W → W × Int)
    (releasedInTime from_kick : Bool) (taskId : String) (taskType : Int) (isColdstart : Bool)
    (s : FetchGlobals) (w : W)
    (henabled : s.enabled = true)
    (hacq : (TryLockWithTimeout releasedInTime s).1 = true) :
    (Fetch fetchTasks releasedInTime from_kick taskId taskType isColdstart s w).trace.countP
        FetchEvent.isFetchTasks =
      (if from_kick = true ∧
          (fetchTasks FetchOnKickoff taskId taskType false w).2 = 0 then 2 else 1) ∧
    ∃ reason cold globals,
      (Fetch fetchTasks releasedInTime from_kick taskId taskType isColdstart s w).trace.getLast?
        = some (FetchEvent.fetchTasks reason taskId taskType cold globals
            (Fetch fetchTasks releasedInTime from_kick taskId taskType isColdstart s w).task_size)
      := by
  rw [Fetch_acquired fetchTasks releasedInTime from_kick taskId taskType isColdstart s w
    henabled hacq]
  split
  · exact ⟨rfl, _, _, _, rfl⟩
  · exact ⟨rfl, _, _, _, rfl⟩

theorem Fetch_calls_fetchTasks_witness :
    demoGlobals.enabled = true ∧ (TryLockWithTimeout false demoGlobals).1 = true ∧
    (Fetch countingFetchTasks false true "" NormalTaskType false demoGlobals 0).trace.countP
      FetchEvent.isFetchTasks = 2 ∧
    (Fetch countingFetchTasks false true "" NormalTaskType false demoGlobals 0).task_size = 3 ∧
    (Fetch countingFetchTasks false false "" NormalTaskType true demoGlobals 0).trace.countP
      FetchEvent.isFetchTasks = 1 :=
  ⟨rfl, rfl,
    (Fetch_calls_fetchTasks countingFetchTasks false true "" NormalTaskType false demoGlobals 0
      rfl rfl).1,
    by decide,
    (Fetch_calls_fetchTasks countingFetchTasks false false "" NormalTaskType true demoGlobals 0
      rfl rfl).1⟩

/-- Claim C15: for a run record whose TaskId is in the Task Factory,
dispatchRunTask returns the state unchanged, whatever the Repeat value: Task
Factory, schedule map, timer manager and run pool are as before. -/
theorem dispatchRunTask_duplicate (ts : TimerService) (taskInfo : RunTaskInfo) (g : Agent)
    (hdup : g.engine.taskFactory.ContainsTaskByName taskInfo.TaskId = true) :
    dispatchRunTask ts taskInfo g = g ∧
    (dispatchRunTask ts taskInfo g).engine.taskFactory = g.engine.taskFactory ∧
    (dispatchRunTask ts taskInfo g).schedules = g.schedules ∧
    (dispatchRunTask ts taskInfo g).timerManager = g.timerManager ∧
    (dispatchRunTask ts taskInfo g).engine.runPool = g.engine.runPool := by
  have hsame : dispatchRunTask ts taskInfo g = g := by
    unfold dispatchRunTask
    rw [if_pos hdup]
  rw [hsame]
  exact ⟨rfl, rfl, rfl, rfl, rfl⟩

theorem dispatchRunTask_duplicate_witness :
    busyAgent.engine.taskFactory.ContainsTaskByName "t-1" = true ∧
    dispatchRunTask okTimers { demoInfo with Repeat := "Period", Cronat := "0 * * * * *" }
      busyAgent = busyAgent :=
  ⟨by decide,
    (dispatchRunTask_duplicate okTimers
      { demoInfo with Repeat := "Period", Cronat := "0 * * * * *" } busyAgent (by decide)).1⟩

/-- Claim C16 refuted: a Rate record and an At record whose TaskId is not in the
Task Factory are dispatched on a dispatcher with an initialised timer manager
and a working timer service; the state is unchanged, no task, schedule or timer
is registered. -/
theorem rate_and_at_not_scheduled :
    rateInfo.Repeat = RunTaskRate ∧ atInfo.Repeat = RunTaskAt ∧
    readyAgent.engine.taskFactory.ContainsTaskByName rateInfo.TaskId = false ∧
    readyAgent.engine.taskFactory.ContainsTaskByName atInfo.TaskId = false ∧
    dispatchRunTask okTimers rateInfo readyAgent = readyAgent ∧
    dispatchRunTask okTimers atInfo readyAgent = readyAgent ∧
    readyAgent.engine.taskFactory = [] ∧ readyAgent.engine.runPool = [] ∧
    readyAgent.schedules = [] ∧ readyAgent.timerManager = some ⟨[], 0⟩ := by
  decide

/-- Claim C16 as amended: for a run record whose TaskId is not in the Task
Factory, Once, NextRebootOnly and EveryReboot records are added to the Task
Factory and submitted to the run pool (schedule map and timers untouched), a
Period record is handed to schedulePeriodicTask, and a record of any other
kind, Rate and At included, leaves the state unchanged. -/
theorem dispatchRunTask_schedules (ts : TimerService) (taskInfo : RunTaskInfo) (g : Agent)
    (hnew : g.engine.taskFactory.ContainsTaskByName taskInfo.TaskId = false) :
    (NonPeriodic taskInfo.Repeat →
      (dispatchRunTask ts taskInfo g).engine.taskFactory.GetTask taskInfo.TaskId
        = some (NewTask taskInfo none false) ∧
      (dispatchRunTask ts taskInfo g).engine.runPool
        = g.engine.runPool ++ [NewTask taskInfo none false] ∧
      (dispatchRunTask ts taskInfo g).schedules = g.schedules ∧
      (dispatchRunTask ts taskInfo g).timerManager = g.timerManager) ∧
    (taskInfo.Repeat = RunTaskPeriod →
      dispatchRunTask ts taskInfo g = (schedulePeriodicTask ts taskInfo g).1) ∧
    (¬ NonPeriodic taskInfo.Repeat → taskInfo.Repeat ≠ RunTaskPeriod →
      dispatchRunTask ts taskInfo g = g) := by
  have hnew' : ¬ g.engine.taskFactory.ContainsTaskByName taskInfo.TaskId = true := by
    rw [hnew]; decide
  refine ⟨?_, ?_, ?_⟩
  · intro hnp
    unfold NonPeriodic at hnp
    unfold dispatchRunTask
    rw [if_neg hnew', if_pos hnp]
    exact ⟨TaskFactory.GetTask_AddTask _ (NewTask taskInfo none false), rfl, rfl, rfl⟩
  · intro hperiod
    have hnp : ¬ (taskInfo.Repeat = RunTaskOnce ∨ taskInfo.Repeat = RunTaskNextRebootOnly ∨
        taskInfo.Repeat = RunTaskEveryReboot) := by
      rw [hperiod]; decide
    unfold dispatchRunTask
    rw [if_neg hnew', if_neg hnp, if_pos hperiod]
  · intro hnp hperiod
    unfold NonPeriodic at hnp
    unfold dispatchRunTask
    rw [if_neg hnew', if_neg hnp, if_neg hperiod]

theorem dispatchRunTask_schedules_witness :
    readyAgent.engine.taskFactory.ContainsTaskByName demoInfo.TaskId = false ∧
    NonPeriodic demoInfo.Repeat ∧
    (dispatchRunTask okTimers demoInfo readyAgent).engine.taskFactory.GetTask "t-1"
      = some (NewTask demoInfo none false) ∧
    (dispatchRunTask okTimers demoInfo readyAgent).engine.runPool
      = [NewTask demoInfo none false] :=
  ⟨by decide, Or.inl rfl,
    ((dispatchRunTask_schedules okTimers demoInfo readyAgent (by decide)).1 (Or.inl rfl)).1,
    ((dispatchRunTask_schedules okTimers demoInfo readyAgent (by decide)).1 (Or.inl rfl)).2.1⟩

/-- Claim C17: schedulePeriodicTask is idempotent per id.  On a TaskId that is
already registered it returns nil and leaves the whole state (map, timers)
unchanged; scheduling the same info twice yields the same map as scheduling it
once; and once a call has returned nil every further call returns nil and
changes nothing. -/
theorem schedulePeriodicTask_idempotent (ts : TimerService) (taskInfo : RunTaskInfo) (g : Agent)
    (hinv : g.SchedulesArmed) :
    (g.scheduled taskInfo.TaskId → schedulePeriodicTask ts taskInfo g = (g, none)) ∧
    (schedulePeriodicTask ts taskInfo (schedulePeriodicTask ts taskInfo g).1).1.schedules
      = (schedulePeriodicTask ts taskInfo g).1.schedules ∧
    ((schedulePeriodicTask ts taskInfo g).2 = none →
      ∀ ts', schedulePeriodicTask ts' taskInfo (schedulePeriodicTask ts taskInfo g).1
        = ((schedulePeriodicTask ts taskInfo g).1, none)) := by
  have hreg : ∀ (g0 : Agent), g0.SchedulesArmed → g0.scheduled taskInfo.TaskId →
      ∀ ts0, schedulePeriodicTask ts0 taskInfo g0 = (g0, none) := by
    intro g0 hinv0 hkey ts0
    obtain ⟨tm, htm⟩ := timerManager_of_scheduled g0 hinv0 _ hkey
    exact schedulePeriodicTask_registered ts0 taskInfo g0 tm htm hkey
  refine ⟨fun hkey => hreg g hinv hkey ts, ?_, ?_⟩
  · rcases htm : g.timerManager with _ | tm
    · rw [schedulePeriodicTask_uninitialized ts taskInfo g htm,
        schedulePeriodicTask_uninitialized ts taskInfo g htm]
    · by_cases hkey : taskInfo.TaskId ∈ g.schedules.map Prod.fst
      · rw [schedulePeriodicTask_registered ts taskInfo g tm htm hkey,
          schedulePeriodicTask_registered ts taskInfo g tm htm hkey]
      · obtain ⟨-, hb, -, -⟩ := hinv.2.2 tm htm
        rw [schedulePeriodicTask_fresh ts taskInfo g tm htm hb hkey]
        rcases hc : ts.createErr taskInfo.Cronat with _ | err
        · rcases hr : ts.runErr taskInfo.Cronat with _ | err
          · simp only
            rw [schedulePeriodicTask_registered ts taskInfo _ _ rfl
              (List.mem_map.mpr ⟨_, List.mem_cons_self _ _, rfl⟩)]
          · simp only
            rw [schedulePeriodicTask_fresh ts taskInfo
              { g with timerManager := some ⟨tm.timers, tm.nextHandle + 1⟩ }
              ⟨tm.timers, tm.nextHandle + 1⟩ rfl
              (fun t ht => Nat.lt_succ_of_lt (hb t ht)) hkey, hc, hr]
        · simp only
          rw [schedulePeriodicTask_fresh ts taskInfo g tm htm hb hkey, hc]
  · intro hnil ts'
    apply hreg _ (schedulePeriodicTask_SchedulesArmed ts taskInfo g hinv)
    rcases htm : g.timerManager with _ | tm
    · rw [schedulePeriodicTask_uninitialized ts taskInfo g htm] at hnil
      cases hnil
    · by_cases hkey : taskInfo.TaskId ∈ g.schedules.map Prod.fst
      · rw [schedulePeriodicTask_registered ts taskInfo g tm htm hkey]
        exact hkey
      · obtain ⟨-, hb, -, -⟩ := hinv.2.2 tm htm
        rw [schedulePeriodicTask_fresh ts taskInfo g tm htm hb hkey] at hnil ⊢
        rcases hc : ts.createErr taskInfo.Cronat with _ | err
        · rcases hr : ts.runErr taskInfo.Cronat with _ | err
          · exact List.mem_map.mpr ⟨_, List.mem_cons_self _ _, rfl⟩
          · rw [hc, hr] at hnil
            cases hnil
        · rw [hc] at hnil
          cases hnil

theorem schedulePeriodicTask_idempotent_witness :
    cronAgent.SchedulesArmed ∧ cronAgent.scheduled periodInfo.TaskId ∧
    schedulePeriodicTask okTimers periodInfo cronAgent = (cronAgent, none) :=
  ⟨(Reachable_invariants cronAgent cronAgent_Reachable).1,
    List.mem_map.mpr ⟨("t-cron", cronSchedule), by decide, rfl⟩,
    (schedulePeriodicTask_idempotent okTimers periodInfo cronAgent
      (Reachable_invariants cronAgent cronAgent_Reachable).1).1
      (List.mem_map.mpr ⟨("t-cron", cronSchedule), by decide, rfl⟩)⟩

/-- Claim C18: in every reachable state, and after every return of
schedulePeriodicTask and of cancelPeriodicTask from it (success or failure), a
TaskId is a key of _periodicTaskSchedules exactly when a timer created for it
is armed; when schedulePeriodicTask returns an error the map is the map before
the call. -/
theorem schedule_timer_invariant (g : Agent) (hg : g.Reachable) (ts : TimerService)
    (h : Host) (now : Time) (taskInfo : RunTaskInfo) :
    (∀ taskId, g.scheduled taskId ↔ g.armed taskId) ∧
    (∀ taskId, (schedulePeriodicTask ts taskInfo g).1.scheduled taskId ↔
      (schedulePeriodicTask ts taskInfo g).1.armed taskId) ∧
    ((schedulePeriodicTask ts taskInfo g).2 ≠ none →
      (schedulePeriodicTask ts taskInfo g).1.schedules = g.schedules) ∧
    (∀ g' err events, cancelPeriodicTask h now taskInfo g = some (g', err, events) →
      ∀ taskId, g'.scheduled taskId ↔ g'.armed taskId) := by
  have hinv := (Reachable_invariants g hg).1
  refine ⟨scheduled_iff_armed g hinv, ?_, schedulePeriodicTask_error_map ts taskInfo g hinv, ?_⟩
  · exact scheduled_iff_armed _ (schedulePeriodicTask_SchedulesArmed ts taskInfo g hinv)
  · intro g' err events hres
    exact scheduled_iff_armed _
      (cancelPeriodicTask_SchedulesArmed h now taskInfo g g' err events hinv hres)

theorem schedule_timer_invariant_witness :
    readyAgent.Reachable ∧
    (schedulePeriodicTask okTimers periodInfo readyAgent).1 = cronAgent ∧
    (cronAgent.scheduled "t-cron" ↔ cronAgent.armed "t-cron") ∧
    ((schedulePeriodicTask ⟨fun _ => none, fun _ => some ⟨"timer has been started", []⟩⟩
        periodInfo readyAgent).1.schedules = readyAgent.schedules) :=
  ⟨readyAgent_Reachable, by decide,
    (schedule_timer_invariant cronAgent cronAgent_Reachable okTimers demoHost ⟨0⟩ periodInfo).1
      "t-cron",
    (schedule_timer_invariant readyAgent readyAgent_Reachable
      ⟨fun _ => none, fun _ => some ⟨"timer has been started", []⟩⟩ demoHost ⟨0⟩
      periodInfo).2.2.1 (by decide)⟩

/-- Claim C19: with the timer manager initialised, cancelPeriodicTask on a
TaskId that is not registered returns the error "Unregistered periodic task
<TaskId>" and changes nothing: no timer deleted, map and Task Factory
unchanged, no Cancel and no report (no event at all). -/
theorem cancelPeriodicTask_not_registered (h : Host) (now : Time) (taskInfo : RunTaskInfo)
    (g : Agent) (tm : TimerManager) (htm : g.timerManager = some tm)
    (habs : ¬ g.scheduled taskInfo.TaskId) :
    ∃ g' err events,
      cancelPeriodicTask h now taskInfo g = some (g', some err, events) ∧
      err.msg = "Unregistered periodic task " ++ taskInfo.TaskId ∧
      g'.timerManager = some tm ∧
      g'.schedules = g.schedules ∧
      g'.engine.taskFactory = g.engine.taskFactory ∧
      g' = g ∧
      events = [] :=
  ⟨g, ⟨"Unregistered periodic task " ++ taskInfo.TaskId, []⟩, [],
    cancelPeriodicTask_unregistered h now taskInfo g tm htm habs, rfl, htm, rfl, rfl, rfl, rfl⟩

theorem cancelPeriodicTask_not_registered_witness :
    readyAgent.timerManager = some ⟨[], 0⟩ ∧ ¬ readyAgent.scheduled periodInfo.TaskId ∧
    ∃ g' err events,
      cancelPeriodicTask demoHost ⟨2000000000⟩ periodInfo readyAgent
        = some (g', some err, events) ∧
      err.msg = "Unregistered periodic task t-cron" ∧ g' = readyAgent ∧ events = [] := by
  have hreg : ¬ readyAgent.scheduled periodInfo.TaskId := by
    unfold Agent.scheduled
    decide
  obtain ⟨g', err, events, h1, h2, -, -, -, h6, h7⟩ :=
    cancelPeriodicTask_not_registered demoHost ⟨2000000000⟩ periodInfo readyAgent ⟨[], 0⟩ rfl
      hreg
  exact ⟨rfl, hreg, g', err, events, h1, h2, h6, h7⟩

/-- Claim C20: on a registered TaskId (tasks within their output quota)
cancelPeriodicTask returns nil, removes the id from the map, deletes the timer
of the schedule so that no timer is armed for the id, and posts exactly one
canceled report: the one of Cancel on the task the Task Factory holds under the
id, or else the one synthesised by sendOutput("canceled") from the output
buffer of the reusable task. -/
theorem cancelPeriodicTask_posts_one_canceled (h : Host) (now : Time) (taskInfo : RunTaskInfo)
    (g : Agent) (s : PeriodicTaskSchedule)
    (hinv : g.SchedulesArmed)
    (hreg : g.schedules.lookup taskInfo.TaskId = some s)
    (hrunning : ∀ t, g.engine.taskFactory.GetTask taskInfo.TaskId = some t →
      (t.data_sended : Int) ≤ max t.taskInfo.Output.LogQuota 12000)
    (hlast : (s.reusableInvocation.data_sended : Int) ≤
      max s.reusableInvocation.taskInfo.Output.LogQuota 12000) :
    ∃ g' events,
      cancelPeriodicTask h now taskInfo g = some (g', none, events) ∧
      ¬ g'.scheduled taskInfo.TaskId ∧
      ¬ g'.armed taskInfo.TaskId ∧
      (∃ tm, g.timerManager = some tm ∧ g'.timerManager = some (tm.DeleteTimer s.timer)) ∧
      events.countP Event.isCanceledReport = 1 ∧
      (∀ t, g.engine.taskFactory.GetTask taskInfo.TaskId = some t →
        ∃ t', Cancel h now t = some (t', events)) ∧
      (g.engine.taskFactory.GetTask taskInfo.TaskId = none →
        ∃ report t',
          getReportString s.reusableInvocation s.reusableInvocation.output = some (report, t') ∧
          events = sendOutput h t' "canceled" report) := by
  have hkey : g.scheduled taskInfo.TaskId :=
    List.mem_map.mpr ⟨_, ScheduleMap.lookup_some_mem _ _ _ hreg, rfl⟩
  obtain ⟨tm, htm⟩ := timerManager_of_scheduled g hinv _ hkey
  have hreturns : ∃ g' events, cancelPeriodicTask h now taskInfo g = some (g', none, events) ∧
      events.countP Event.isCanceledReport = 1 ∧
      (∀ t, g.engine.taskFactory.GetTask taskInfo.TaskId = some t →
        ∃ t', Cancel h now t = some (t', events)) ∧
      (g.engine.taskFactory.GetTask taskInfo.TaskId = none →
        ∃ report t',
          getReportString s.reusableInvocation s.reusableInvocation.output = some (report, t') ∧
          events = sendOutput h t' "canceled" report) := by
    unfold cancelPeriodicTask
    rw [htm, hreg]
    dsimp only
    rcases hget : g.engine.taskFactory.GetTask taskInfo.TaskId with _ | t
    · obtain ⟨report, dropped, hr⟩ :=
        getReportString_some s.reusableInvocation s.reusableInvocation.output hlast
      rw [hr]
      refine ⟨_, _, rfl, ?_, ?_, fun _ => ⟨report, _, rfl, rfl⟩⟩
      · simp [sendOutput, Event.isCanceledReport]
      · intro t ht
        cases ht
    · obtain ⟨report, dropped, hc⟩ := Cancel_spec h now t (hrunning t hget)
      dsimp only
      rw [hc]
      refine ⟨_, _, rfl, ?_, ?_, fun hnone => by cases hnone⟩
      · simp [Event.isCanceledReport]
      · intro t0 ht0
        cases ht0
        exact ⟨_, hc⟩
  obtain ⟨g', events, hres, hcount, hvia, hsynth⟩ := hreturns
  obtain ⟨h1, h2, -⟩ :=
    cancelPeriodicTask_registered h now taskInfo g tm s htm hreg g' none events hres
  have hinv' := cancelPeriodicTask_SchedulesArmed h now taskInfo g g' none events hinv hres
  have hgone : ¬ g'.scheduled taskInfo.TaskId := by
    unfold Agent.scheduled
    rw [h2]
    intro hmem
    obtain ⟨e, he, hk⟩ := List.mem_map.mp hmem
    exact ((ScheduleMap.mem_delete _ _ e).mp he).2 hk
  exact ⟨g', events, hres, hgone,
    fun ha => hgone ((scheduled_iff_armed g' hinv' _).mpr ha),
    ⟨tm, htm, h1⟩, hcount, hvia, hsynth⟩

theorem cancelPeriodicTask_posts_one_canceled_witness :
    firedAgent.SchedulesArmed ∧
    firedAgent.schedules.lookup periodInfo.TaskId = some cronSchedule ∧
    ∃ g' events,
      cancelPeriodicTask demoHost ⟨2000000000⟩ periodInfo firedAgent
        = some (g', none, events) ∧
      ¬ g'.scheduled periodInfo.TaskId ∧ events.countP Event.isCanceledReport = 1 := by
  have hinv := (Reachable_invariants firedAgent firedAgent_Reachable).1
  obtain ⟨g', events, h1, h2, -, -, h5, -⟩ :=
    cancelPeriodicTask_posts_one_canceled demoHost ⟨2000000000⟩ periodInfo firedAgent
      cronSchedule hinv (by decide)
      (by
        intro t ht
        have : t = NewTask periodInfo none false := by
          have h0 : firedAgent.engine.taskFactory.GetTask periodInfo.TaskId
              = some (NewTask periodInfo none false) := by decide
          rw [h0] at ht
          exact (Option.some.inj ht).symm
        rw [this]
        decide)
      (by decide)
  exact ⟨hinv, by decide, g', events, h1, h2, h5⟩

/-- Claim C21: for every task that passes the check of the user, PreCheck
reports the first failing check only.  With a CommandType that is none of
RunBatScript, RunPowerShellScript, RunShellScript it sends exactly one
InvalidTask of kind "TypeInvalid" and returns an error, whatever the content
decodes to; with a known CommandType and a Content that does not base64-decode
it sends exactly one InvalidTask of kind "CommandContentInvalid" and returns an
error.  In both cases the task is returned as it was (realWorkingDir and
envHomeDir unchanged) and the result does not depend on the home or working
directory, which are not looked at. -/
theorem PreCheck_first_failure (h : Host) (task : Task) (reportVerified : Bool)
    (huser : checkUser h task = none) :
    ((task.taskInfo.CommandType ≠ "RunBatScript" ∧
        task.taskInfo.CommandType ≠ "RunPowerShellScript" ∧
        task.taskInfo.CommandType ≠ "RunShellScript") →
      PreCheck h task reportVerified =
        (task,
          [Event.invalidTask task.taskInfo.TaskId "TypeInvalid"
            ("TypeInvalid_" ++ task.taskInfo.CommandType)],
          some ⟨"Invalid command type: " ++ task.taskInfo.CommandType, []⟩)) ∧
    (¬ (task.taskInfo.CommandType ≠ "RunBatScript" ∧
        task.taskInfo.CommandType ≠ "RunPowerShellScript" ∧
        task.taskInfo.CommandType ≠ "RunShellScript") →
      ∀ err, h.base64Decode task.taskInfo.Content = .error err →
        PreCheck h task reportVerified =
          (task, [Event.invalidTask task.taskInfo.TaskId "CommandContentInvalid" err.msg],
            some (err.wrapf "Invalid command content: decode error: "))) := by
  rw [PreCheck_user_passed h task reportVerified huser]
  constructor
  · intro htype
    rw [if_pos htype]
    rfl
  · intro htype err hdecode
    rw [if_neg htype, hdecode]
    rfl

theorem PreCheck_first_failure_witness :
    checkUser noDecodeHost (NewTask badTypeInfo none false) = none ∧
    PreCheck noDecodeHost (NewTask badTypeInfo none false) true =
      (NewTask badTypeInfo none false,
        [Event.invalidTask "t-bad" "TypeInvalid" ("TypeInvalid_" ++ "RunPython")],
        some ⟨"Invalid command type: " ++ "RunPython", []⟩) ∧
    PreCheck noDecodeHost demoTask true =
      (demoTask,
        [Event.invalidTask "t-1" "CommandContentInvalid" "illegal base64 data at input byte 0"],
        some (GoError.wrapf "Invalid command content: decode error: "
          ⟨"illegal base64 data at input byte 0", []⟩)) :=
  ⟨by decide,
   (PreCheck_first_failure noDecodeHost (NewTask badTypeInfo none false) true (by decide)).1
     (by decide),
   (PreCheck_first_failure noDecodeHost demoTask true (by decide)).2 (by decide) _ rfl⟩

/-- Claim C22: PreCheck returns nil exactly when every fatal check passes: the
check of the user, a CommandType among the three known, a Content that
base64-decodes, and a working directory that resolves (for the task as the
HOME statements leave it).  It posts to the verified-task service if and only
if reportVerified is true and all of these pass, and then the POST is its only
event and realWorkingDir is set.  A failure to resolve HOME is none of these
checks: when the others pass, PreCheck returns nil with the task otherwise as
it was, and posts when reportVerified is set.  When PreCheck(false) fails
inside Run, Run returns code 0 with that error, and its only event is the one
InvalidTask report of PreCheck: no call of SyncRun and no start, running or
terminal output. -/
theorem PreCheck_verified_post (h : Host) (task : Task) (reportVerified : Bool) :
    ((PreCheck h task reportVerified).2.2 = none ↔
      (checkUser h task = none ∧
       (task.taskInfo.CommandType = "RunBatScript" ∨
        task.taskInfo.CommandType = "RunPowerShellScript" ∨
        task.taskInfo.CommandType = "RunShellScript") ∧
       (∃ content, h.base64Decode task.taskInfo.Content = .ok content) ∧
       (∃ realWorkingDir,
         h.detectWorkingDirectory (resolveHome h task) = .ok realWorkingDir))) ∧
    ((∃ e ∈ (PreCheck h task reportVerified).2.1, e.isTaskVerified = true) ↔
      (reportVerified = true ∧
       checkUser h task = none ∧
       (task.taskInfo.CommandType = "RunBatScript" ∨
        task.taskInfo.CommandType = "RunPowerShellScript" ∨
        task.taskInfo.CommandType = "RunShellScript") ∧
       (∃ content, h.base64Decode task.taskInfo.Content = .ok content) ∧
       (∃ realWorkingDir,
         h.detectWorkingDirectory (resolveHome h task) = .ok realWorkingDir))) ∧
    (∀ content realWorkingDir,
      checkUser h task = none →
      (task.taskInfo.CommandType = "RunBatScript" ∨
        task.taskInfo.CommandType = "RunPowerShellScript" ∨
        task.taskInfo.CommandType = "RunShellScript") →
      h.base64Decode task.taskInfo.Content = .ok content →
      h.detectWorkingDirectory (resolveHome h task) = .ok realWorkingDir →
      PreCheck h task reportVerified =
        ({ resolveHome h task with realWorkingDir := realWorkingDir },
          (if reportVerified = true then [Event.taskVerified task.taskInfo.TaskId] else []),
          none)) ∧
    (∀ homeErr content realWorkingDir,
      checkUser h task = none →
      ¬ (task.taskInfo.CommandType ≠ "RunBatScript" ∧
          task.taskInfo.CommandType ≠ "RunPowerShellScript" ∧
          task.taskInfo.CommandType ≠ "RunShellScript") →
      h.base64Decode task.taskInfo.Content = .ok content →
      h.detectHomeDirectory task = .error homeErr →
      h.detectWorkingDirectory task = .ok realWorkingDir →
      PreCheck h task reportVerified =
        ({ task with realWorkingDir := realWorkingDir },
          (if reportVerified = true then [Event.taskVerified task.taskInfo.TaskId] else []),
          none)) ∧
    (∀ err, (PreCheck h task false).2.2 = some err →
      Run h task =
        some ⟨0, some err, (PreCheck h task false).1, (PreCheck h task false).2.1⟩ ∧
      (∃ param value,
        (PreCheck h task false).2.1 = [Event.invalidTask task.taskInfo.TaskId param value]) ∧
      ∀ e ∈ (PreCheck h task false).2.1,
        e.isSyncRun = false ∧ e.isOutputPost = false ∧ e.isTaskVerified = false) := by
  -- the result of PreCheck by cases on the checks
  have hcases :
      ((checkUser h task = none ∧
         (task.taskInfo.CommandType = "RunBatScript" ∨
          task.taskInfo.CommandType = "RunPowerShellScript" ∨
          task.taskInfo.CommandType = "RunShellScript") ∧
         (∃ content, h.base64Decode task.taskInfo.Content = .ok content) ∧
         (∃ realWorkingDir,
           h.detectWorkingDirectory (resolveHome h task) = .ok realWorkingDir)) ∧
        (PreCheck h task reportVerified).2.2 = none) ∨
      (¬ (checkUser h task = none ∧
         (task.taskInfo.CommandType = "RunBatScript" ∨
          task.taskInfo.CommandType = "RunPowerShellScript" ∨
          task.taskInfo.CommandType = "RunShellScript") ∧
         (∃ content, h.base64Decode task.taskInfo.Content = .ok content) ∧
         (∃ realWorkingDir,
           h.detectWorkingDirectory (resolveHome h task) = .ok realWorkingDir)) ∧
        (PreCheck h task reportVerified).2.2 ≠ none) := by
    rcases hu : checkUser h task with _ | ⟨events, err⟩
    · by_cases htype : task.taskInfo.CommandType = "RunBatScript" ∨
          task.taskInfo.CommandType = "RunPowerShellScript" ∨
          task.taskInfo.CommandType = "RunShellScript"
      · rcases hd : h.base64Decode task.taskInfo.Content with derr | content
        · right
          refine ⟨?_, ?_⟩
          · rintro ⟨-, -, ⟨c, hc⟩, -⟩
            cases hc
          · have hknown : ¬ (task.taskInfo.CommandType ≠ "RunBatScript" ∧
                task.taskInfo.CommandType ≠ "RunPowerShellScript" ∧
                task.taskInfo.CommandType ≠ "RunShellScript") := by
              rintro ⟨h1, h2, h3⟩
              rcases htype with ht | ht | ht
              · exact h1 ht
              · exact h2 ht
              · exact h3 ht
            rw [PreCheck_user_passed h task reportVerified hu, if_neg hknown, hd]
            simp
        · rcases hw : h.detectWorkingDirectory (resolveHome h task) with werr | dir
          · right
            refine ⟨?_, ?_⟩
            · rintro ⟨-, -, -, ⟨d, hdir⟩⟩
              cases hdir
            · rw [(PreCheck_workdir_failed h task reportVerified content werr hu htype hd hw).1]
              simp
          · left
            refine ⟨⟨rfl, htype, ⟨content, rfl⟩, ⟨dir, rfl⟩⟩, ?_⟩
            rw [PreCheck_all_passed h task reportVerified content dir hu htype hd hw]
      · right
        refine ⟨fun hc => htype hc.2.1, ?_⟩
        have hbad : task.taskInfo.CommandType ≠ "RunBatScript" ∧
            task.taskInfo.CommandType ≠ "RunPowerShellScript" ∧
            task.taskInfo.CommandType ≠ "RunShellScript" := by
          refine ⟨?_, ?_, ?_⟩
          · intro hc
            exact htype (Or.inl hc)
          · intro hc
            exact htype (Or.inr (Or.inl hc))
          · intro hc
            exact htype (Or.inr (Or.inr hc))
        rw [PreCheck_user_passed h task reportVerified hu, if_pos hbad]
        simp
    · right
      refine ⟨?_, ?_⟩
      · rintro ⟨hc, -⟩
        cases hc
      · rw [PreCheck_user_failed h task reportVerified events err hu]
        simp
  obtain ⟨-, hok, hfail⟩ := PreCheck_events h task reportVerified
  refine ⟨?_, ?_, ?_, ?_, ?_⟩
  · constructor
    · intro hnone
      rcases hcases with ⟨hall, -⟩ | ⟨-, hne⟩
      · exact hall
      · exact absurd hnone hne
    · intro hall
      rcases hcases with ⟨-, hnone⟩ | ⟨hnot, -⟩
      · exact hnone
      · exact absurd hall hnot
  · constructor
    · rintro ⟨e, he, hv⟩
      rcases hcases with ⟨hall, hnone⟩ | ⟨-, hne⟩
      · rw [hok hnone] at he
        by_cases hrv : reportVerified = true
        · exact ⟨hrv, hall⟩
        · rw [if_neg hrv] at he
          cases he
      · obtain ⟨param, value, hev⟩ := hfail hne
        rw [hev, List.mem_singleton] at he
        subst he
        cases hv
    · rintro ⟨hrv, hall⟩
      rcases hcases with ⟨-, hnone⟩ | ⟨hnot, -⟩
      · rw [hok hnone, if_pos hrv]
        exact ⟨_, List.mem_singleton_self _, rfl⟩
      · exact absurd hall hnot
  · intro content realWorkingDir huser htype hdecode hwork
    exact PreCheck_all_passed h task reportVerified content realWorkingDir huser htype
      hdecode hwork
  · intro homeErr content realWorkingDir huser htype hdecode hhome hwork
    rw [PreCheck_user_passed h task reportVerified huser, if_neg htype, hdecode]
    dsimp only
    rw [hhome]
    dsimp only
    rw [hwork]
  · intro err herr
    obtain ⟨-, -, hfail0⟩ := PreCheck_events h task false
    obtain ⟨param, value, hev⟩ := hfail0 (by rw [herr]; simp)
    refine ⟨?_, ⟨param, value, hev⟩, ?_⟩
    · rcases hP : PreCheck h task false with ⟨t, ev, e⟩
      rw [hP] at herr
      dsimp only at herr
      subst herr
      unfold Run runPrepare
      rw [hP]
    · intro e he
      rw [hev, List.mem_singleton] at he
      subst he
      exact ⟨rfl, rfl, rfl⟩

theorem PreCheck_verified_post_witness :
    (PreCheck noHomeHost demoTask true =
      ({ demoTask with realWorkingDir := "/root" }, [Event.taskVerified "t-1"], none)) ∧
    (PreCheck noWorkDirHost demoTask true).2.2 ≠ none ∧
    (¬ ∃ e ∈ (PreCheck noWorkDirHost demoTask true).2.1, e.isTaskVerified = true) ∧
    (∃ e ∈ (PreCheck demoHost demoTask true).2.1, e.isTaskVerified = true) ∧
    (¬ ∃ e ∈ (PreCheck demoHost (NewTask badTypeInfo none false) true).2.1,
        e.isTaskVerified = true) ∧
    (Run noDecodeHost demoTask =
      some ⟨0, some (GoError.wrapf "Invalid command content: decode error: "
          ⟨"illegal base64 data at input byte 0", []⟩), demoTask,
        [Event.invalidTask "t-1" "CommandContentInvalid"
          "illegal base64 data at input byte 0"]⟩) := by
  refine ⟨?_, ?_, ?_, ?_, ?_, ?_⟩
  · exact (PreCheck_verified_post noHomeHost demoTask true).2.2.2.1
      ⟨"HomeDirectoryNotAvailable", []⟩ "echo hi" "/root" (by decide) (by decide) rfl rfl rfl
  · intro hnone
    obtain ⟨-, -, -, dir, hdir⟩ :=
      (PreCheck_verified_post noWorkDirHost demoTask true).1.mp hnone
    cases hdir
  · intro hpost
    obtain ⟨-, -, -, -, dir, hdir⟩ :=
      (PreCheck_verified_post noWorkDirHost demoTask true).2.1.mp hpost
    cases hdir
  · exact (PreCheck_verified_post demoHost demoTask true).2.1.mpr
      ⟨rfl, by decide, by decide, ⟨"echo hi", rfl⟩, ⟨"/root", rfl⟩⟩
  · intro hpost
    obtain ⟨-, -, htype, -⟩ :=
      (PreCheck_verified_post demoHost (NewTask badTypeInfo none false) true).2.1.mp hpost
    revert htype
    decide
  · exact ((PreCheck_verified_post noDecodeHost demoTask false).2.2.2.2
      (GoError.wrapf "Invalid command content: decode error: "
        ⟨"illegal base64 data at input byte 0", []⟩) (by decide)).1

/-- Claim C23: for every task with a known CommandType, the script path Run
computes from the script directory is dir + "/" + lead + TaskId + ext, with
ext .bat, .sh or .ps1 for RunBatScript, RunShellScript, RunPowerShellScript,
lead CommandName + "-" for a non-empty CommandName and empty otherwise, and
dir "/tmp" for RunShellScript with a non-empty Username and the configured
script directory otherwise; and whenever Run gets as far as launching the
child it has saved the script under that path. -/
theorem Run_script_path (h : Host) (task : Task) (scriptDir : String)
    (hvalid : task.taskInfo.CommandType = "RunBatScript" ∨
      task.taskInfo.CommandType = "RunShellScript" ∨
      task.taskInfo.CommandType = "RunPowerShellScript") :
    scriptFileName task scriptDir =
      some
        ((if task.taskInfo.CommandType = "RunShellScript" ∧ task.taskInfo.Username ≠ "" then "/tmp"
          else scriptDir) ++ "/" ++
         (if task.taskInfo.CommandName ≠ "" then task.taskInfo.CommandName ++ "-" else "") ++
         task.taskInfo.TaskId ++
         (if task.taskInfo.CommandType = "RunBatScript" then ".bat"
          else if task.taskInfo.CommandType = "RunShellScript" then ".sh"
          else ".ps1")) ∧
    scriptFileName task scriptDir = some (specScriptPath task scriptDir) ∧
    (∀ p, h.GetScriptPath = .ok scriptDir → runPrepare h task = .ok p →
      ∃ o content, Run h task = some o ∧
        Event.saveScriptFile (specScriptPath task scriptDir) content ∈ o.events) := by
  refine ⟨scriptFileName_known task scriptDir hvalid,
    scriptFileName_known task scriptDir hvalid, ?_⟩
  intro p hdir hp
  obtain ⟨-, -, ⟨scriptDir', fileName, content, hdir', hfn, hmem⟩, -⟩ := runPrepare_ok h task p hp
  rw [hdir] at hdir'
  simp only [Except.ok.injEq] at hdir'
  subst hdir'
  rw [scriptFileName_known task scriptDir hvalid] at hfn
  simp only [Option.some.injEq] at hfn
  subst hfn
  obtain ⟨o, hrun, hpre, -⟩ := Run_launched h task p hp
  exact ⟨o, content, hrun, hpre _ hmem⟩

theorem Run_script_path_witness :
    scriptFileName demoTask "/var/scripts" = some "/var/scripts/t-1.sh" ∧
    scriptFileName (NewTask { demoInfo with CommandName := "cmd", Username := "alice" } none false)
      "/var/scripts" = some "/tmp/cmd-t-1.sh" ∧
    ∃ o content, Run demoHost demoTask = some o ∧
      Event.saveScriptFile "/var/scripts/t-1.sh" content ∈ o.events := by
  have h1 := Run_script_path demoHost demoTask "/var/scripts" (by decide)
  have h2 := Run_script_path demoHost
    (NewTask { demoInfo with CommandName := "cmd", Username := "alice" } none false)
    "/var/scripts" (by decide)
  refine ⟨h1.1, h2.1, ?_⟩
  obtain ⟨o, content, hrun, hmem⟩ := h1.2.2
    { task := { demoTask with
                  envHomeDir := "/root", realWorkingDir := "/root"
                  startTime := ⟨1000000000⟩, monotonicStartTimestamp := 1000 }
      events := [Event.saveScriptFile "/var/scripts/t-1.sh" "echo hi",
                 Event.chmod "/var/scripts/t-1.sh"]
      fileName := "sh"
      args := ["-c", "/var/scripts/t-1.sh"]
      timeout := 60
      ScriptToDelete := "" } rfl rfl
  exact ⟨o, content, hrun, hmem⟩

/-- Claim C24, refuted for Repeat = Rate: for a rate task the suffix is only
"&currentTime=" followed by the accurate time; it holds neither an offset nor
a timeZone parameter. -/
theorem rate_suffix_lacks_offset_and_timeZone :
    (NewTask rateInfo none false).taskInfo.Repeat = RunTaskRate ∧
    wallClockQueryParams demoClock (NewTask rateInfo none false) =
      "&currentTime=1700000000000" ∧
    stringsContains (wallClockQueryParams demoClock (NewTask rateInfo none false)) "offset"
      = false ∧
    stringsContains (wallClockQueryParams demoClock (NewTask rateInfo none false)) "timeZone"
      = false := by
  decide

/-- Claim C24, amended: for Repeat = Period the suffix of wallClockQueryParams
is "&currentTime=..&offset=..&timeZone=.." with the URL-escaped zone name (of
the schedule location when the task has one, of the local clock otherwise);
for Repeat = Rate it is "&currentTime=.." alone; for every other Repeat value
it is the empty string. -/
theorem wallClockQueryParams_by_repeat (c : WallClock) (task : Task) :
    (task.taskInfo.Repeat = RunTaskCron →
      (∀ location, task.scheduleLocation = some location →
        wallClockQueryParams c task =
          "&currentTime=" ++ fmtInt (ToAccurateTime c.Now) ++ "&offset=" ++
            fmtInt (c.ZoneOffset location c.Now) ++ "&timeZone=" ++ c.QueryEscape location) ∧
      (task.scheduleLocation = none →
        wallClockQueryParams c task =
          "&currentTime=" ++ fmtInt (ToAccurateTime c.NowWithTimezoneName.1) ++ "&offset=" ++
            fmtInt c.NowWithTimezoneName.2.1 ++ "&timeZone=" ++
            c.QueryEscape c.NowWithTimezoneName.2.2)) ∧
    (task.taskInfo.Repeat = RunTaskRate →
      wallClockQueryParams c task = "&currentTime=" ++ fmtInt c.GetAccurateTime) ∧
    (task.taskInfo.Repeat ≠ RunTaskCron → task.taskInfo.Repeat ≠ RunTaskRate →
      wallClockQueryParams c task = "") := by
  refine ⟨?_, ?_, ?_⟩
  · intro hcron
    have hrate : ¬ task.taskInfo.Repeat = RunTaskRate := by
      rw [hcron]
      decide
    unfold wallClockQueryParams
    rw [if_neg hrate, if_pos hcron]
    constructor
    · intro location hloc
      rw [hloc]
    · intro hloc
      rw [hloc]
  · intro hrate
    unfold wallClockQueryParams
    rw [if_pos hrate]
  · intro hcron hrate
    unfold wallClockQueryParams
    rw [if_neg hrate, if_neg hcron]

theorem wallClockQueryParams_by_repeat_witness :
    wallClockQueryParams demoClock (NewTask periodInfo none false) =
      "&currentTime=1700000000000&offset=28800&timeZone=Asia%2FShanghai" ∧
    wallClockQueryParams demoClock (NewTask periodInfo (some "Europe/Paris") false) =
      "&currentTime=1700000000000&offset=28800&timeZone=Europe%2FParis" ∧
    wallClockQueryParams demoClock (NewTask rateInfo none false) =
      "&currentTime=1700000000000" ∧
    wallClockQueryParams demoClock demoTask = "" := by
  have hp := wallClockQueryParams_by_repeat demoClock (NewTask periodInfo none false)
  have hl := wallClockQueryParams_by_repeat demoClock
    (NewTask periodInfo (some "Europe/Paris") false)
  have hr := wallClockQueryParams_by_repeat demoClock (NewTask rateInfo none false)
  have hd := wallClockQueryParams_by_repeat demoClock demoTask
  refine ⟨?_, ?_, ?_, ?_⟩
  · rw [(hp.1 (by decide)).2 rfl]
    decide
  · rw [(hl.1 (by decide)).1 "Europe/Paris" rfl]
    decide
  · rw [hr.2.1 (by decide)]
    decide
  · exact hd.2.2 (by decide) (by decide)

/-- Claim C25: whenever Run gets as far as launching the child, the deadline it
hands to SyncRun is the integer parsed from TimeOut when strconv.Atoi returns
one, and 3600 when strconv.Atoi returns an error (as it does for the empty
string); Run then makes exactly one call of SyncRun, with that deadline. -/
theorem Run_deadline (h : Host) (task : Task) (p : Prepared)
    (hp : runPrepare h task = .ok p) :
    (∀ n, h.Atoi task.taskInfo.TimeOut = some n → p.timeout = n) ∧
    (h.Atoi task.taskInfo.TimeOut = none → p.timeout = 3600) ∧
    ∃ o, Run h task = some o ∧
      o.events.filter Event.isSyncRun =
        [Event.syncRun p.task.realWorkingDir p.fileName p.args p.timeout] := by
  obtain ⟨-, htimeout, -, -⟩ := runPrepare_ok h task p hp
  obtain ⟨o, hrun, -, hsync⟩ := Run_launched h task p hp
  refine ⟨?_, ?_, o, hrun, hsync⟩
  · intro n hn
    rw [htimeout]
    unfold deadlineOf
    rw [hn]
  · intro hn
    rw [htimeout]
    unfold deadlineOf
    rw [hn]

theorem Run_deadline_witness :
    strconvAtoi "" = none ∧ strconvAtoi "abc" = none ∧ strconvAtoi "90" = some 90 ∧
    ∃ o, Run parsingHost noTimeOutTask = some o ∧
      o.events.filter Event.isSyncRun =
        [Event.syncRun "/root" "sh" ["-c", "/var/scripts/t-1.sh"] 3600] := by
  have hp : runPrepare parsingHost noTimeOutTask = .ok
      { task := { noTimeOutTask with
                    envHomeDir := "/root", realWorkingDir := "/root"
                    startTime := ⟨1000000000⟩, monotonicStartTimestamp := 1000 }
        events := [Event.saveScriptFile "/var/scripts/t-1.sh" "echo hi",
                   Event.chmod "/var/scripts/t-1.sh"]
        fileName := "sh"
        args := ["-c", "/var/scripts/t-1.sh"]
        timeout := 3600
        ScriptToDelete := "" } := rfl
  exact ⟨by decide, by decide, by decide, (Run_deadline parsingHost noTimeOutTask _ hp).2.2⟩

/-- Claim C26: on a channel whose reader goroutine is running (so that
StopChannel returns), for every sequence of outcomes of
SelectAvailableChannel, SwitchChannel returns after n calls of it,
1 ≤ n ≤ 6: call 0 with the gshell channel type and the later ones with
ChannelNone; every call but the last failed; it returns nil exactly when the
last call succeeded, and otherwise the error "no available channel" after
exactly 6 failed calls; and in every outcome it sends exactly one report, of
type "switch_channel_in_gshell". -/
theorem SwitchChannel_retries (m : ChannelMgr) (c : GshellChannel)
    (hreader : c.readerRunning = true) :
    ∃ r n, SwitchChannel m c = some r ∧ 1 ≤ n ∧ n ≤ 6 ∧ r.calls = n ∧
      r.trace.filter ChannelEvent.isSelect =
        (List.range n).map (fun k =>
          ChannelEvent.selectAvailableChannel
            (if k = 0 then m.ChannelGshellType else m.ChannelNone) (m.selectErr k)) ∧
      (∀ k, k + 1 < n → m.selectErr k ≠ none) ∧
      (r.err = none ↔ m.selectErr (n - 1) = none) ∧
      (r.err = none ↔ ∃ k, k < n ∧ m.selectErr k = none) ∧
      (r.err ≠ none →
        n = 6 ∧ r.err = some ⟨"no available channel", []⟩ ∧ ∀ k, k < 6 → m.selectErr k ≠ none) ∧
      ∃ info, r.trace.filter ChannelEvent.isReport =
        [ChannelEvent.sendReport "switch_channel_in_gshell" info] := by
  have hstop : StopChannel c =
      some ({ c with readerRunning := false, hGshellOpen := false, Working := false },
        [ChannelEvent.stopChanelEvent, ChannelEvent.waitCheckDone, ChannelEvent.closeGshell]) := by
    unfold StopChannel
    rw [if_pos hreader]
  rcases h0 : m.selectErr 0 with _ | e0
  · -- call 0 succeeds
    rcases hS : SwitchChannel m c with _ | r
    · simp [SwitchChannel, hstop, switchRetry, h0] at hS
    · simp only [SwitchChannel, hstop, switchRetry, h0, Option.some.injEq] at hS
      subst hS
      refine ⟨_, 1, rfl, by omega, by omega, rfl, ?_, ?_, ?_, ?_, ?_, ⟨_, rfl⟩⟩
      · simp [List.range_succ, List.filter, ChannelEvent.isSelect, switchSucceeded, h0]
      · intro k hk
        have hk2 : k < 0 := by omega
        omega
      · simp [h0]
      · simp only [true_iff]
        exact ⟨0, by omega, h0⟩
      · intro hne
        exact absurd rfl hne
  rcases h1 : m.selectErr 1 with _ | e1
  · -- call 1 succeeds
    rcases hS : SwitchChannel m c with _ | r
    · simp [SwitchChannel, hstop, switchRetry, h0, h1] at hS
    · simp only [SwitchChannel, hstop, switchRetry, h0, h1, Option.some.injEq] at hS
      subst hS
      refine ⟨_, 2, rfl, by omega, by omega, rfl, ?_, ?_, ?_, ?_, ?_, ⟨_, rfl⟩⟩
      · simp [List.range_succ, List.filter, ChannelEvent.isSelect, switchSucceeded, h0, h1]
      · intro k hk
        have hk2 : k < 1 := by omega
        interval_cases k
        simp [h0, h1]
      · simp [h0, h1]
      · simp only [true_iff]
        exact ⟨1, by omega, h1⟩
      · intro hne
        exact absurd rfl hne
  rcases h2 : m.selectErr 2 with _ | e2
  · -- call 2 succeeds
    rcases hS : SwitchChannel m c with _ | r
    · simp [SwitchChannel, hstop, switchRetry, h0, h1, h2] at hS
    · simp only [SwitchChannel, hstop, switchRetry, h0, h1, h2, Option.some.injEq] at hS
      subst hS
      refine ⟨_, 3, rfl, by omega, by omega, rfl, ?_, ?_, ?_, ?_, ?_, ⟨_, rfl⟩⟩
      · simp [List.range_succ, List.filter, ChannelEvent.isSelect, switchSucceeded, h0, h1, h2]
      · intro k hk
        have hk2 : k < 2 := by omega
        interval_cases k <;> simp [h0, h1, h2]
      · simp [h0, h1, h2]
      · simp only [true_iff]
        exact ⟨2, by omega, h2⟩
      · intro hne
        exact absurd rfl hne
  rcases h3 : m.selectErr 3 with _ | e3
  · -- call 3 succeeds
    rcases hS : SwitchChannel m c with _ | r
    · simp [SwitchChannel, hstop, switchRetry, h0, h1, h2, h3] at hS
    · simp only [SwitchChannel, hstop, switchRetry, h0, h1, h2, h3, Option.some.injEq] at hS
      subst hS
      refine ⟨_, 4, rfl, by omega, by omega, rfl, ?_, ?_, ?_, ?_, ?_, ⟨_, rfl⟩⟩
      · simp [List.range_succ, List.filter, ChannelEvent.isSelect, switchSucceeded, h0, h1, h2, h3]
      · intro k hk
        have hk2 : k < 3 := by omega
        interval_cases k <;> simp [h0, h1, h2, h3]
      · simp [h0, h1, h2, h3]
      · simp only [true_iff]
        exact ⟨3, by omega, h3⟩
      · intro hne
        exact absurd rfl hne
  rcases h4 : m.selectErr 4 with _ | e4
  · -- call 4 succeeds
    rcases hS : SwitchChannel m c with _ | r
    · simp [SwitchChannel, hstop, switchRetry, h0, h1, h2, h3, h4] at hS
    · simp only [SwitchChannel, hstop, switchRetry, h0, h1, h2, h3, h4, Option.some.injEq] at hS
      subst hS
      refine ⟨_, 5, rfl, by omega, by omega, rfl, ?_, ?_, ?_, ?_, ?_, ⟨_, rfl⟩⟩
      · simp [List.range_succ, List.filter, ChannelEvent.isSelect, switchSucceeded, h0, h1, h2, h3, h4]
      · intro k hk
        have hk2 : k < 4 := by omega
        interval_cases k <;> simp [h0, h1, h2, h3, h4]
      · simp [h0, h1, h2, h3, h4]
      · simp only [true_iff]
        exact ⟨4, by omega, h4⟩
      · intro hne
        exact absurd rfl hne
  rcases h5 : m.selectErr 5 with _ | e5
  · -- call 5 succeeds
    rcases hS : SwitchChannel m c with _ | r
    · simp [SwitchChannel, hstop, switchRetry, h0, h1, h2, h3, h4, h5] at hS
    · simp only [SwitchChannel, hstop, switchRetry, h0, h1, h2, h3, h4, h5, Option.some.injEq] at hS
      subst hS
      refine ⟨_, 6, rfl, by omega, by omega, rfl, ?_, ?_, ?_, ?_, ?_, ⟨_, rfl⟩⟩
      · simp [List.range_succ, List.filter, ChannelEvent.isSelect, switchSucceeded, h0, h1, h2, h3, h4, h5]
      · intro k hk
        have hk2 : k < 5 := by omega
        interval_cases k <;> simp [h0, h1, h2, h3, h4, h5]
      · simp [h0, h1, h2, h3, h4, h5]
      · simp only [true_iff]
        exact ⟨5, by omega, h5⟩
      · intro hne
        exact absurd rfl hne
  · -- all six calls fail
    rcases hS : SwitchChannel m c with _ | r
    · simp [SwitchChannel, hstop, switchRetry, h0, h1, h2, h3, h4, h5] at hS
    · simp only [SwitchChannel, hstop, switchRetry, h0, h1, h2, h3, h4, h5, Option.some.injEq] at hS
      subst hS
      refine ⟨_, 6, rfl, by omega, by omega, rfl, ?_, ?_, ?_, ?_, ?_, ⟨_, rfl⟩⟩
      · simp [List.range_succ, List.filter, ChannelEvent.isSelect, switchSucceeded, h0, h1, h2, h3, h4, h5]
      · intro k hk
        have hk2 : k < 5 := by omega
        interval_cases k <;> simp [h0, h1, h2, h3, h4, h5]
      · simp [h0, h1, h2, h3, h4, h5]
      · simp only [reduceCtorEq, false_iff, not_exists, not_and]
        intro k hk
        interval_cases k <;> simp [h0, h1, h2, h3, h4, h5]
      · intro _
        refine ⟨rfl, rfl, ?_⟩
        intro k hk
        interval_cases k <;> simp [h0, h1, h2, h3, h4, h5]

theorem SwitchChannel_retries_witness :
    workingChannel.readerRunning = true ∧
    (SwitchChannel recoveringMgr workingChannel).map (fun r => (r.err, r.calls)) =
      some (none, 4) ∧
    ∃ r, SwitchChannel deadMgr workingChannel = some r ∧ r.calls = 6 ∧
      r.err = some ⟨"no available channel", []⟩ ∧
      (r.trace.filter ChannelEvent.isReport).length = 1 := by
  obtain ⟨r, n, hr, -, -, hcalls, -, -, -, hiff, hfail, info, hrep⟩ :=
    SwitchChannel_retries deadMgr workingChannel rfl
  have hne : r.err ≠ none := by
    intro hnone
    obtain ⟨k, -, hk⟩ := hiff.mp hnone
    cases hk
  obtain ⟨hn, herr, -⟩ := hfail hne
  refine ⟨rfl, by decide, r, hr, ?_, herr, ?_⟩
  · rw [hcalls, hn]
  · rw [hrep]
    rfl

/-- Claim C27: dispatchTestTask never executes the command and never schedules
anything.  It leaves the Task Factory and the run pool, the map
_periodicTaskSchedules and the timer manager (hence every timer) as they were;
for Repeat in {Once, Period, NextRebootOnly, EveryReboot} with an id that is
not in the factory it submits exactly one closure to the pool of pre-checks,
which runs PreCheck(true) on a new task, and otherwise it submits nothing; and
PreCheck(true) issues no event but a report of an invalid task or the
verified-task POST. -/
theorem dispatchTestTask_only_prechecks (taskInfo : RunTaskInfo) (g : Agent) :
    (dispatchTestTask taskInfo g).engine.taskFactory = g.engine.taskFactory ∧
    (dispatchTestTask taskInfo g).engine.runPool = g.engine.runPool ∧
    (dispatchTestTask taskInfo g).schedules = g.schedules ∧
    (dispatchTestTask taskInfo g).timerManager = g.timerManager ∧
    (dispatchTestTask taskInfo g).precheckPool =
      (if (taskInfo.Repeat = RunTaskOnce ∨ taskInfo.Repeat = RunTaskPeriod ∨
            taskInfo.Repeat = RunTaskNextRebootOnly ∨ taskInfo.Repeat = RunTaskEveryReboot) ∧
          g.engine.taskFactory.ContainsTaskByName taskInfo.TaskId = false then
        g.precheckPool ++ [NewTask taskInfo none false]
      else g.precheckPool) ∧
    (∀ (h : Host), ∀ e ∈ (PreCheck h (NewTask taskInfo none false) true).2.1,
      e.isInvalidTask = true ∨ e.isTaskVerified = true) := by
  obtain ⟨h1, h2, h3⟩ := dispatchTestTask_frame taskInfo g
  refine ⟨by rw [h1], by rw [h1], h2, h3, ?_, ?_⟩
  · unfold dispatchTestTask
    by_cases hc : g.engine.taskFactory.ContainsTaskByName taskInfo.TaskId = true
    · rw [if_pos hc, if_neg]
      rw [hc]
      simp
    · rw [if_neg hc]
      have hf : g.engine.taskFactory.ContainsTaskByName taskInfo.TaskId = false := by
        simpa using hc
      by_cases hk : taskInfo.Repeat = RunTaskOnce ∨ taskInfo.Repeat = RunTaskPeriod ∨
            taskInfo.Repeat = RunTaskNextRebootOnly ∨ taskInfo.Repeat = RunTaskEveryReboot
      · rw [if_pos hk, if_pos ⟨hk, hf⟩]
      · rw [if_neg hk, if_neg (fun hx => hk hx.1)]
  · intro h e he
    obtain ⟨-, hok, hfail⟩ := PreCheck_events h (NewTask taskInfo none false) true
    by_cases hnone : (PreCheck h (NewTask taskInfo none false) true).2.2 = none
    · rw [hok hnone, if_pos rfl, List.mem_singleton] at he
      subst he
      exact Or.inr rfl
    · obtain ⟨param, value, hev⟩ := hfail hnone
      rw [hev, List.mem_singleton] at he
      subst he
      exact Or.inl rfl

theorem dispatchTestTask_only_prechecks_witness :
    (dispatchTestTask testInfo cronAgent).engine.taskFactory = cronAgent.engine.taskFactory ∧
    (dispatchTestTask testInfo cronAgent).schedules = cronAgent.schedules ∧
    (dispatchTestTask testInfo cronAgent).timerManager = cronAgent.timerManager ∧
    (dispatchTestTask testInfo cronAgent).precheckPool = [NewTask testInfo none false] ∧
    (dispatchTestTask rateInfo cronAgent).precheckPool = [] ∧
    (dispatchTestTask demoInfo busyAgent).precheckPool = [] := by
  have h1 := dispatchTestTask_only_prechecks testInfo cronAgent
  have h2 := dispatchTestTask_only_prechecks rateInfo cronAgent
  have h3 := dispatchTestTask_only_prechecks demoInfo busyAgent
  refine ⟨h1.1, h1.2.2.1, h1.2.2.2.1, ?_, ?_, ?_⟩
  · rw [h1.2.2.2.2.1]
    decide
  · rw [h2.2.2.2.2.1]
    decide
  · rw [h3.2.2.2.2.1]
    decide

/-- Claim C28, refuted in its last clause: with 3 bytes in stdout and 1500
bytes in stderr (more than 1024), and likewise with 1500 bytes in stdout and
nothing in stderr, what tryReadAll appends is all of stdout followed by all of
stderr. -/
theorem drain_of_long_stream_is_concatenation :
    1024 < (List.replicate 1500 (2 : UInt8)).length ∧
    tryReadAll [1, 1, 1] (List.replicate 1500 2) [] =
      ([], [], [1, 1, 1] ++ List.replicate 1500 2) ∧
    tryReadAll (List.replicate 1500 1) [] [] = ([], [], List.replicate 1500 1 ++ []) := by
  refine ⟨by rw [List.length_replicate]; decide, ?_, ?_⟩
  · rw [tryReadAll_eq, alternateChunks_concat _ _ (Or.inl (by decide))]
    rfl
  · rw [tryReadAll_eq, alternateChunks_concat _ _ (Or.inr rfl)]
    rfl

/-- Claim C28, amended: for every pair of buffer contents tryReadAll returns
(it is a total function), leaves both buffers empty and appends to the output
the chunks number 0, 1, 2, .. of at most 1024 bytes of stdout and of stderr in
alternation (stdout chunk first), len(stdout) + len(stderr) bytes in all, each
stream keeping its own order; what is appended is all of stdout followed by all
of stderr whenever stdout holds at most 1024 bytes or stderr is empty. -/
theorem tryReadAll_drains (stdoutWrite stderrWrite out : Bytes) :
    tryReadAll stdoutWrite stderrWrite out =
      ([], [], out ++ alternateChunks stdoutWrite stderrWrite) ∧
    alternateChunks stdoutWrite stderrWrite =
      (List.range ((max stdoutWrite.length stderrWrite.length + 1023) / 1024)).flatMap
        (fun k => (stdoutWrite.drop (1024 * k)).take 1024 ++
          (stderrWrite.drop (1024 * k)).take 1024) ∧
    (alternateChunks stdoutWrite stderrWrite).length =
      stdoutWrite.length + stderrWrite.length ∧
    stdoutWrite.Sublist (alternateChunks stdoutWrite stderrWrite) ∧
    stderrWrite.Sublist (alternateChunks stdoutWrite stderrWrite) ∧
    (stdoutWrite.length ≤ 1024 ∨ stderrWrite = [] →
      alternateChunks stdoutWrite stderrWrite = stdoutWrite ++ stderrWrite) :=
  ⟨tryReadAll_eq stdoutWrite stderrWrite out, rfl,
    alternateChunks_length stdoutWrite stderrWrite,
    (alternateChunks_sublist stdoutWrite stderrWrite).1,
    (alternateChunks_sublist stdoutWrite stderrWrite).2,
    alternateChunks_concat stdoutWrite stderrWrite⟩

theorem tryReadAll_drains_witness :
    tryReadAll (List.replicate 1025 1) [2] [9] =
      ([], [], [9] ++ (List.replicate 1024 1 ++ [2] ++ [1])) ∧
    tryReadAll [1, 1, 1] (List.replicate 1500 2) [] =
      ([], [], [] ++ ([1, 1, 1] ++ List.replicate 1500 2)) := by
  obtain ⟨h1, -, -, -, -, -⟩ := tryReadAll_drains (List.replicate 1025 1) [2] [9]
  obtain ⟨h2, -, -, -, -, h3⟩ := tryReadAll_drains [1, 1, 1] (List.replicate 1500 2) []
  refine ⟨?_, ?_⟩
  · have hne : ¬ (List.replicate 1025 (1 : UInt8) = [] ∧ [(2 : UInt8)] = []) := by
      intro hc
      cases hc.2
    have ht : List.take 1024 [(2 : UInt8)] = [2] := rfl
    have hd : List.drop 1024 [(2 : UInt8)] = [] := rfl
    have hmin : min 1024 1025 = 1024 := by decide
    have hsub : 1025 - 1024 = 1 := by decide
    rw [h1, alternateChunks_step _ _ hne, List.take_replicate, List.drop_replicate, ht, hd,
      hmin, hsub, alternateChunks_concat _ _ (Or.inr rfl)]
    rfl
  · rw [h2, h3 (Or.inl (by decide))]

/-- Claim C29: the running-output goroutine sets data_sended to 0, a firing of
its ticker sends only while data_sended ≤ 6000, and one firing reads at most
2048 bytes; so after any number of firings data_sended = n ≤ 8048 < 12000 ≤
max(LogQuota, 12000), no other field of the task has changed, the remaining
quota is positive, and for every output buffer getReportString returns: the
whole output when it fits, and otherwise output[droped:] with
0 ≤ droped ≤ len(output), so the slice is in range. -/
theorem running_output_budget (h : Host) (ws : List (Bytes × Bytes)) (stopped : Bool)
    (task : Task) (stdoutWrite stderrWrite : Bytes) :
    (∀ out err : Bytes, (tryRead out err []).2.2.length ≤ 2048) ∧
    ∃ n, n ≤ 8048 ∧
      (sendRunningTicks h ws stopped { task with data_sended := 0 } stdoutWrite stderrWrite).1 =
        { task with data_sended := n } ∧
      (8048 : Int) < 12000 ∧ (12000 : Int) ≤ max task.taskInfo.Output.LogQuota 12000 ∧
      0 < max task.taskInfo.Output.LogQuota 12000 - (n : Int) ∧
      ∀ output : Bytes, ∃ report reported,
        getReportString { task with data_sended := n } output = some (report, reported) ∧
        ((output.length : Int) ≤ max task.taskInfo.Output.LogQuota 12000 - (n : Int) →
          report = output) ∧
        (¬ (output.length : Int) ≤ max task.taskInfo.Output.LogQuota 12000 - (n : Int) →
          0 ≤ reported.droped ∧ reported.droped ≤ (output.length : Int) ∧
          reported.droped = (output.length : Int) -
            (max task.taskInfo.Output.LogQuota 12000 - (n : Int)) ∧
          report = output.drop reported.droped.toNat) := by
  refine ⟨tryRead_length_le, ?_⟩
  obtain ⟨n, hn, h1, -⟩ := sendRunningTicks_spec h ws stopped { task with data_sended := 0 }
    stdoutWrite stderrWrite (Nat.zero_le _)
  have hnI : (n : Int) ≤ 8048 := by exact_mod_cast hn
  refine ⟨n, hn, h1, by decide, le_max_right _ _, by omega, ?_⟩
  intro output
  have hS : (({ task with data_sended := n } : Task).data_sended : Int) ≤
      max ({ task with data_sended := n } : Task).taskInfo.Output.LogQuota 12000 := by
    dsimp only
    omega
  by_cases hfit : (output.length : Int) ≤ max task.taskInfo.Output.LogQuota 12000 - (n : Int)
  · refine ⟨output, _, getReportString_fits _ output hfit, fun _ => rfl, fun hc => absurd hfit hc⟩
  · refine ⟨_, _, getReportString_over _ output hS hfit, fun hc => absurd hc hfit, fun _ => ?_⟩
    dsimp only
    refine ⟨by omega, by omega, rfl, ?_⟩
    congr 1
    omega

theorem running_output_budget_witness :
    (sendRunningTicks chattyHost chattyHost.tickWrites false
        { demoTask with data_sended := 0 } [] []).1.data_sended = 4 ∧
    ∃ n, n ≤ 8048 ∧
      (sendRunningTicks chattyHost chattyHost.tickWrites false
        { demoTask with data_sended := 0 } [] []).1 = { demoTask with data_sended := n } := by
  obtain ⟨-, n, hn, h1, -⟩ := running_output_budget chattyHost chattyHost.tickWrites false
    demoTask [] []
  exact ⟨by decide, n, hn, h1⟩

/-- Claim C30: in a dispatcher within quota (every reachable one is),
fetchTasks returns, and the count it returns is the number of run records plus
stop records plus session records plus file records of the batch: test records
are not counted.  Consequently, when a kick finds a batch with test records
only, fetchTasks dispatches them and returns 0, and Fetch sleeps 3 seconds and
calls fetchTasks a second time. -/
theorem fetchTasks_count (ts : TimerService) (h : Host) (now : Time) (reason : FetchReason)
    (taskId : String) (taskType : Int) (isColdstart : Bool) (w : FetchWorld)
    (hq : w.agent.WithinQuota) :
    (∃ w', fetchTasks ts h now reason taskId taskType isColdstart w =
        some (w',
          ((FetchTaskList reason taskId taskType isColdstart w).1.runInfos.length : Int) +
          ((FetchTaskList reason taskId taskType isColdstart w).1.stopInfos.length : Int) +
          ((FetchTaskList reason taskId taskType isColdstart w).1.sessionInfos.length : Int) +
          ((FetchTaskList reason taskId taskType isColdstart w).1.sendFiles.length : Int))) ∧
    (∀ (releasedInTime : Bool) (s : FetchGlobals),
      s.enabled = true → (TryLockWithTimeout releasedInTime s).1 = true →
      (FetchTaskList FetchOnKickoff taskId taskType false w).1.runInfos = [] →
      (FetchTaskList FetchOnKickoff taskId taskType false w).1.stopInfos = [] →
      (FetchTaskList FetchOnKickoff taskId taskType false w).1.sessionInfos = [] →
      (FetchTaskList FetchOnKickoff taskId taskType false w).1.sendFiles = [] →
      ∃ w' n2,
        fetchTasks ts h now FetchOnKickoff taskId taskType false w = some (w', 0) ∧
        w'.agent =
          (FetchTaskList FetchOnKickoff taskId taskType false w).1.testInfos.foldl
            (fun g v => dispatchTestTask v g) w.agent ∧
        (Fetch (fetchTasksOrCrash ts h now) releasedInTime true taskId taskType isColdstart s
            (some w)).trace =
          [FetchEvent.tryLockWithTimeout 2 true, FetchEvent.unlock,
           FetchEvent.fetchTasks FetchOnKickoff taskId taskType false
             { s with lock := LockOwner.free, counter := s.counter + 1 } 0,
           FetchEvent.sleep 3,
           FetchEvent.fetchTasks FetchOnKickoff taskId taskType false
             { s with lock := LockOwner.free, counter := s.counter + 1 } n2]) := by
  constructor
  · obtain ⟨w', hw, -, -⟩ := fetchTasks_returns ts h now reason taskId taskType isColdstart w hq
    exact ⟨w', hw⟩
  · intro releasedInTime s henabled hacq hrun hstop hsession hfiles
    obtain ⟨w', hw, -, hagent⟩ :=
      fetchTasks_returns ts h now FetchOnKickoff taskId taskType false w hq
    rw [hrun, hstop, hsession, hfiles] at hw
    simp only [List.length_nil, Int.Nat.cast_ofNat_Int, add_zero] at hw
    have hfirst : fetchTasksOrCrash ts h now FetchOnKickoff taskId taskType false (some w) =
        (some w', 0) := by
      unfold fetchTasksOrCrash
      dsimp only
      rw [hw]
    refine ⟨w', (fetchTasksOrCrash ts h now FetchOnKickoff taskId taskType false (some w')).2,
      hw, hagent hrun hstop, ?_⟩
    rw [Fetch_acquired (fetchTasksOrCrash ts h now) releasedInTime true taskId taskType
      isColdstart s (some w) henabled hacq, hfirst]
    dsimp only
    rw [if_pos ⟨rfl, rfl⟩]

theorem fetchTasks_count_witness :
    kickWorld.agent.WithinQuota ∧
    (FetchTaskList FetchOnKickoff "" 0 false kickWorld).1.testInfos.length = 1 ∧
    (fetchTasks okTimers demoHost ⟨0⟩ FetchOnKickoff "" 0 false kickWorld).map Prod.snd
      = some 0 ∧
    (fetchTasks okTimers demoHost ⟨0⟩ FetchOnKickoff "" 0 false kickWorld).map
      (fun r => r.1.agent.precheckPool.length) = some 1 ∧
    ((Fetch (fetchTasksOrCrash okTimers demoHost ⟨0⟩) false true "" 0 false demoGlobals
        (some kickWorld)).trace.filter FetchEvent.isFetchTasks).length = 2 := by
  have hq : kickWorld.agent.WithinQuota := Reachable_WithinQuota _ readyAgent_Reachable
  obtain ⟨⟨w1, h1⟩, h2⟩ :=
    fetchTasks_count okTimers demoHost ⟨0⟩ FetchOnKickoff "" 0 false kickWorld hq
  obtain ⟨w', n2, hw, hagent, htrace⟩ := h2 false demoGlobals rfl rfl rfl rfl rfl rfl
  refine ⟨hq, by decide, ?_, ?_, ?_⟩
  · rw [hw]
    rfl
  · rw [hw]
    simp only [Option.map_some', hagent]
    decide
  · rw [htrace]
    rfl

end Taskengine
